import Mathlib

/-!
# BookAPI: a shallow embedding of `main.go`

The Go program is an HTTP API over three MySQL tables (`books`, `authors`,
`author_books`) guarded by a JWT check.  The embedding is state passing:

* the process-wide `db` handle becomes an explicit `DB` value (the three tables,
  the statements issued so far and the store errors still to come);
* `http.ResponseWriter` becomes a `ResponseWriter` value threaded through the
  handler;
* the libraries the program links against (`encoding/json` on request bodies,
  the JWT segment codec and HMAC) are a `Lib` record of functions;
* the SQL statements of the source are kept as a small statement tree (`Stmt`)
  that a model of the store executes.
-/

namespace BookAPI

/-! ## Data model (`main.go`, lines 14-48) -/

/-- Book represents a book in the library. -/
structure Book where
  ID : Int
  Title : String
  PublishedYear : String
  ISBN : Int
deriving DecidableEq, Repr

/-- Author represents an author of a book. -/
structure Author where
  ID : Int
  Name : String
  Country : String
deriving DecidableEq, Repr

/-- AuthorBook is the join entity between authors and books. -/
structure AuthorBook where
  AuthorBookID : Int
  AuthorID : Int
  BookID : Int
deriving DecidableEq, Repr

/-- The registered claims of `jwt.StandardClaims` that `Valid` inspects (Unix seconds, 0 = unset). -/
structure StandardClaims where
  ExpiresAt : Int
  IssuedAt : Int
  NotBefore : Int
deriving DecidableEq, Repr

/-- JWT claims struct. -/
structure Claims where
  Username : String
  std : StandardClaims
deriving DecidableEq, Repr

/-- The anonymous struct that `login` decodes the request body into. -/
structure Creds where
  Username : String
  Password : String
deriving DecidableEq, Repr

/-- The signing secret. -/
def secretKey : String := "your-secret-key"

/-- The credential map, as an association list. -/
def authorizedUsers : List (String × String) :=
  [("admin", "password"), ("user", "password")]

/-- Go map lookup `m[k]`, returning the value and the `ok` flag. -/
def mapLookup (m : List (String × String)) (k : String) : Option String :=
  match m with
  | [] => none
  | (k0, v) :: rest => if k0 = k then some v else mapLookup rest k

/-- Go map index `m[k]` on a string map: the zero value when the key is absent. -/
def mapIndex (m : List (String × String)) (k : String) : String :=
  (mapLookup m k).getD ""

/-! ## JSON values written to the response -/

/-- A scalar JSON value. -/
inductive JVal where
  | num (n : Int)
  | str (s : String)
deriving DecidableEq, Repr

/-- The JSON documents the handlers emit: `null`, one object, or an array of objects. -/
inductive JSON where
  | null
  | obj (fields : List (String × JVal))
  | arr (items : List (List (String × JVal)))
deriving DecidableEq, Repr

/-- Fields of a `Book` under its `json` struct tags. -/
def Book.fields (b : Book) : List (String × JVal) :=
  [("id", .num b.ID), ("title", .str b.Title),
   ("published_year", .str b.PublishedYear), ("isbn", .num b.ISBN)]

/-- Fields of an `Author` under its `json` struct tags. -/
def Author.fields (a : Author) : List (String × JVal) :=
  [("id", .num a.ID), ("name", .str a.Name), ("country", .str a.Country)]

/-- Fields of an `AuthorBook` under its `json` struct tags. -/
def AuthorBook.fields (ab : AuthorBook) : List (String × JVal) :=
  [("author_book_id", .num ab.AuthorBookID), ("author_id", .num ab.AuthorID),
   ("book_id", .num ab.BookID)]

/-- Encoding of a Go `map[string]string`. -/
def encodeStringMap (m : List (String × String)) : JSON :=
  .obj (m.map fun kv => (kv.1, JVal.str kv.2))

/-- Encoding of a Go slice: a nil slice (`none`) is `null`, any other slice is an array. -/
def encodeSlice {α : Type} (f : α → List (String × JVal)) (s : Option (List α)) : JSON :=
  match s with
  | none => .null
  | some l => .arr (l.map f)

/-- Go `append` on a slice. -/
def sliceAppend {α : Type} (s : Option (List α)) (x : α) : Option (List α) :=
  match s with
  | none => some [x]
  | some l => some (l ++ [x])

/-! ## `net/http` request and response writer -/

/-- An incoming request: canonical headers, the route variables of `mux.Vars` and the raw body. -/
structure Request where
  Header : List (String × String)
  Vars : List (String × String)
  Body : String
deriving DecidableEq, Repr

/-- The response under construction. -/
structure ResponseWriter where
  Status : Option Nat
  Header : List (String × String)
  Body : List JSON
deriving DecidableEq, Repr

/-- A fresh recorder, as `httptest.NewRecorder()` gives. -/
def newRecorder : ResponseWriter :=
  { Status := none, Header := [], Body := [] }

/-- The `w.WriteHeader(code)` call: the first call fixes the status line, later calls are ignored. -/
def ResponseWriter.WriteHeader (w : ResponseWriter) (code : Nat) : ResponseWriter :=
  match w.Status with
  | some _ => w
  | none => { w with Status := some code }

/-- The `w.Header().Set(k, v)` call; header changes after the status line is written are not sent. -/
def ResponseWriter.HeaderSet (w : ResponseWriter) (k v : String) : ResponseWriter :=
  match w.Status with
  | some _ => w
  | none => { w with Header := (k, v) :: w.Header.filter (fun kv => kv.1 ≠ k) }

/-- The `json.NewEncoder(w).Encode(v)` call: the first write implies status 200. -/
def ResponseWriter.Encode (w : ResponseWriter) (v : JSON) : ResponseWriter :=
  { (w.WriteHeader 200) with Body := w.Body ++ [v] }

/-- The status code the client sees (200 when the handler never wrote). -/
def ResponseWriter.Code (w : ResponseWriter) : Nat :=
  w.Status.getD 200

def StatusOK : Nat := 200
def StatusNoContent : Nat := 204
def StatusBadRequest : Nat := 400
def StatusUnauthorized : Nat := 401
def StatusNotFound : Nat := 404
def StatusInternalServerError : Nat := 500

/-! ## `strconv.Atoi` -/

/-- Value of a string of decimal digits. -/
def digitsVal (ds : List Char) : Nat :=
  ds.foldl (fun acc c => 10 * acc + (c.toNat - 48)) 0

/-- Sign and magnitude part of a numeral: one leading `+` or `-` is split off. -/
def splitSign (cs : List Char) : Bool × List Char :=
  match cs with
  | [] => (false, [])
  | c :: rest =>
    if c = '-' then (true, rest) else if c = '+' then (false, rest) else (false, c :: rest)

/-- The digit loop of `strconv.ParseUint(s, 10, 64)`, reading left to right: `none` at a
character that is not a digit (syntax error); at the end the value read, with `true`; and
`2^64 - 1` with `false` as soon as the value no longer fits 64 bits (range error). -/
def parseUintLoop : List Char → Nat → Option (Nat × Bool)
  | [], n => some (n, true)
  | c :: rest, n =>
    if c.isDigit = true then
      if 10 * n + (c.toNat - 48) < 2 ^ 64 then parseUintLoop rest (10 * n + (c.toNat - 48))
      else some (2 ^ 64 - 1, false)
    else none

/-- Go `strconv.Atoi` on a 64-bit platform: the value and whether `err == nil`.
A syntax error gives 0; a range error gives the nearest `int64` bound. -/
def Atoi (s : String) : Int × Bool :=
  let sm := splitSign s.data
  if sm.2 = [] then (0, false)
  else
    match parseUintLoop sm.2 0 with
    | none => (0, false)
    | some un =>
      if sm.1 = true then
        if un.1 ≤ 2 ^ 63 then (-(un.1 : Int), true) else (-(2 ^ 63 : Int), false)
      else
        if un.1 < 2 ^ 63 then ((un.1 : Int), true) else ((2 ^ 63 : Int) - 1, false)

/-! ## Libraries the program links against -/

/-- The HMAC signing methods that `jwt.GetSigningMethod` knows and that accept a byte key, and
the other registered methods (RSA, ECDSA, RSA-PSS, none), which reject a byte key. -/
inductive SigningMethod where
  | HS256
  | HS384
  | HS512
  | keyMismatch (alg : String)
deriving DecidableEq, Repr

/-- The `alg` header value of a method. -/
def SigningMethod.Alg : SigningMethod → String
  | .HS256 => "HS256"
  | .HS384 => "HS384"
  | .HS512 => "HS512"
  | .keyMismatch alg => alg

/-- The registry lookup `jwt.GetSigningMethod`. -/
def GetSigningMethod (alg : String) : Option SigningMethod :=
  if alg = "HS256" then some .HS256
  else if alg = "HS384" then some .HS384
  else if alg = "HS512" then some .HS512
  else if alg ∈ ["RS256", "RS384", "RS512", "ES256", "ES384", "ES512",
                 "PS256", "PS384", "PS512", "none"] then some (.keyMismatch alg)
  else none

/-- Library functions the handlers call and whose code is outside the repository:
`encoding/json` decoding of request bodies, the JWT segment codec, JSON (un)marshalling of the
token header and claims, the HMAC primitive, and the clock read by claim validation. -/
structure Lib where
  decodeCreds : String → Option Creds
  decodeBook : String → Option Book
  decodeAuthor : String → Option Author
  decodeAuthorBook : String → Option AuthorBook
  encodeSegment : String → String
  decodeSegment : String → Option String
  marshalHeader : List (String × String) → String
  unmarshalHeader : String → Option (List (String × String))
  marshalClaims : Claims → String
  unmarshalClaims : String → Option Claims
  hmac : SigningMethod → String → String → String
  now : Int

/-- What the program relies on from the JWT codec: a segment decodes back to what was encoded,
an encoded segment (base64url) contains no dot, the `alg` entry of the header that
`SignedString` writes survives JSON, and so do claims that carry only a username. -/
structure Lib.Lawful (L : Lib) : Prop where
  decode_encode : ∀ x, L.decodeSegment (L.encodeSegment x) = some x
  encode_nodot : ∀ x, '.' ∉ (L.encodeSegment x).data
  header_alg : ∀ alg,
    (L.unmarshalHeader (L.marshalHeader [("typ", "JWT"), ("alg", alg)])).bind
      (fun h => mapLookup h "alg") = some alg
  claims_rt : ∀ u,
    L.unmarshalClaims (L.marshalClaims { Username := u, std := ⟨0, 0, 0⟩ }) =
      some { Username := u, std := ⟨0, 0, 0⟩ }

/-! ## The JWT library (`github.com/golang-jwt/jwt`) -/

/-- Split a string at every dot, as `strings.Split(s, ".")` does. -/
def splitDots (cs : List Char) : List (List Char) :=
  match cs with
  | [] => [[]]
  | c :: rest =>
    match splitDots rest with
    | [] => [[]]
    | p :: ps => if c = '.' then [] :: p :: ps else (c :: p) :: ps

/-- The `token.SignedString(key)` call of a token built by `jwt.NewWithClaims(method, claims)`. -/
def SignedString (L : Lib) (method : SigningMethod) (claims : Claims) (key : String) :
    Except String String :=
  match method with
  | .keyMismatch _ => .error "key is of invalid type"
  | _ =>
    let header := [("typ", "JWT"), ("alg", method.Alg)]
    let sstr := L.encodeSegment (L.marshalHeader header) ++ "." ++
      L.encodeSegment (L.marshalClaims claims)
    .ok (sstr ++ "." ++ L.encodeSegment (L.hmac method key sstr))

/-- The `StandardClaims.Valid` check: every time claim is optional (0 passes). -/
def StandardClaims.Valid (c : StandardClaims) (now : Int) : Bool :=
  (c.ExpiresAt = 0 ∨ now ≤ c.ExpiresAt) ∧
  (c.IssuedAt = 0 ∨ c.IssuedAt ≤ now) ∧
  (c.NotBefore = 0 ∨ c.NotBefore ≤ now)

/-- The `method.Verify(signingString, signature, key)` check with a byte key. -/
def SigningMethod.Verify (L : Lib) (m : SigningMethod) (signingString signature key : String) :
    Bool :=
  match m with
  | .keyMismatch _ => false
  | _ =>
    match L.decodeSegment signature with
    | none => false
    | some sig => sig = L.hmac m key signingString

/-- A parsed token. -/
structure Token where
  Raw : String
  Method : SigningMethod
  Header : List (String × String)
  Claims : Claims
  Signature : String
  Valid : Bool
deriving DecidableEq, Repr

/-- The `jwt.ParseWithClaims(tokenString, &Claims{}, keyFunc)` call with a key function that
returns `key`: three segments, decodable header and claims, a known `alg`, valid claims and a
signature that verifies; any failure is an error. -/
def ParseWithClaims (L : Lib) (tokenString : String) (key : String) : Except String Token :=
  match (splitDots tokenString.data).map String.mk with
  | [p0, p1, p2] =>
    match L.decodeSegment p0 with
    | none => .error "token is malformed"
    | some headerBytes =>
    match L.unmarshalHeader headerBytes with
    | none => .error "token is malformed"
    | some header =>
    match L.decodeSegment p1 with
    | none => .error "token is malformed"
    | some claimBytes =>
    match L.unmarshalClaims claimBytes with
    | none => .error "token is malformed"
    | some claims =>
    match (mapLookup header "alg").bind GetSigningMethod with
    | none => .error "signing method (alg) is unavailable"
    | some method =>
      if ¬ (claims.std.Valid L.now = true) then .error "claims are not valid"
      else if ¬ (method.Verify L (p0 ++ "." ++ p1) p2 key = true) then
        .error "signature is invalid"
      else .ok { Raw := tokenString, Method := method, Header := header, Claims := claims,
                 Signature := p2, Valid := true }
  | _ => .error "token contains an invalid number of segments"

/-! ## The store: a model of the MySQL database behind `db`

The schema is not part of the repository.  It is read off the statements of the source and the
data model: `books(id, title, published_year, isbn)`, `authors(id, name, country)` and
`author_books(author_book_id, author_id, book_id)`, the first column of each being the unique,
auto-generated key.  There are no foreign-key constraints.  What is not modelled: column widths
and numeric ranges, collations, NULLs, and numbers with a fraction or exponent inside a string
parameter. -/

/-- A value bound to a `?` placeholder or stored in a column. -/
inductive Value where
  | int (n : Int)
  | text (s : String)
deriving DecidableEq, Repr

/-- Every column name that occurs in a statement of the source. -/
inductive Col where
  | id | title | published_year | isbn | name | country | counttry
  | author_book_id | author_id | book_id
deriving DecidableEq, Repr

/-- The tables. -/
inductive TableName where
  | books | authors | author_books
deriving DecidableEq, Repr

/-- The statement shapes used by the source; each `?` takes the next parameter.
* `selectAll cols t`: `SELECT cols FROM t`
* `selectWhere cols t k`: `SELECT cols FROM t WHERE k = ?`
* `selectExists t k`: `SELECT EXISTS(SELECT 1 FROM t WHERE k = ?)`
* `insert t cols`: `INSERT INTO t (cols) VALUES (?, ...)`
* `update t cols k`: `UPDATE t SET c = ?, ... WHERE k = ?`
* `delete t k`: `DELETE FROM t WHERE k = ?` -/
inductive Stmt where
  | selectAll (cols : List Col) (table : TableName)
  | selectWhere (cols : List Col) (table : TableName) (key : Col)
  | selectExists (table : TableName) (key : Col)
  | insert (table : TableName) (cols : List Col)
  | update (table : TableName) (cols : List Col) (key : Col)
  | delete (table : TableName) (key : Col)
deriving DecidableEq, Repr

/-- The table a statement addresses. -/
def Stmt.table : Stmt → TableName
  | .selectAll _ t => t
  | .selectWhere _ t _ => t
  | .selectExists t _ => t
  | .insert t _ => t
  | .update t _ _ => t
  | .delete t _ => t

/-- A row of `books`. -/
structure BookRow where
  id : Int
  title : String
  published_year : String
  isbn : Int
deriving DecidableEq, Repr

/-- A row of `authors`. -/
structure AuthorRow where
  id : Int
  name : String
  country : String
deriving DecidableEq, Repr

/-- A row of `author_books`. -/
structure AuthorBookRow where
  author_book_id : Int
  author_id : Int
  book_id : Int
deriving DecidableEq, Repr

/-- A table: its rows in storage order and the next auto-generated key. -/
structure Table (ρ : Type) where
  rows : List ρ
  autoInc : Int
deriving DecidableEq, Repr

/-- The three tables. -/
structure Store where
  books : Table BookRow
  authors : Table AuthorRow
  author_books : Table AuthorBookRow
deriving DecidableEq, Repr

/-- The database handle: the tables, the outcome of the coming operations on the connection, one
flag per statement sent and one per row fetched by `rows.Next()` from the result set of a
`db.Query` (`true`: that operation fails with a driver or server error; past the end: no
failure), and the statements issued so far with their parameters. -/
structure DB where
  store : Store
  faults : List Bool
  log : List (Stmt × List Value)
deriving DecidableEq, Repr

/-- The `sql.Result` of an `Exec`, of which the source reads only `LastInsertId`. -/
structure Result where
  LastInsertId : Int
deriving DecidableEq, Repr

/-- The `*sql.Rows` of a `db.Query`: the rows that the successive `rows.Next()` calls deliver
before `Next` returns false, and `rows.Err()`, which is set when a driver error, not the end of
the result set, made `Next` return false. -/
structure Rows where
  delivered : List (List Value)
  Err : Bool
deriving DecidableEq, Repr

/-- How a table's rows answer to column names. -/
structure RowOps (ρ : Type) where
  key : Col
  columns : List Col
  get : ρ → Col → Option Value
  set : ρ → Col → Value → Option ρ
  fresh : Int → ρ

def BookRow.get (r : BookRow) : Col → Option Value
  | .id => some (.int r.id)
  | .title => some (.text r.title)
  | .published_year => some (.text r.published_year)
  | .isbn => some (.int r.isbn)
  | _ => none

def BookRow.set (r : BookRow) : Col → Value → Option BookRow
  | .id, .int n => some { r with id := n }
  | .title, .text s => some { r with title := s }
  | .published_year, .text s => some { r with published_year := s }
  | .isbn, .int n => some { r with isbn := n }
  | _, _ => none

def bookOps : RowOps BookRow :=
  { key := .id, columns := [.id, .title, .published_year, .isbn],
    get := BookRow.get, set := BookRow.set,
    fresh := fun n => { id := n, title := "", published_year := "", isbn := 0 } }

def AuthorRow.get (r : AuthorRow) : Col → Option Value
  | .id => some (.int r.id)
  | .name => some (.text r.name)
  | .country => some (.text r.country)
  | _ => none

def AuthorRow.set (r : AuthorRow) : Col → Value → Option AuthorRow
  | .id, .int n => some { r with id := n }
  | .name, .text s => some { r with name := s }
  | .country, .text s => some { r with country := s }
  | _, _ => none

def authorOps : RowOps AuthorRow :=
  { key := .id, columns := [.id, .name, .country],
    get := AuthorRow.get, set := AuthorRow.set,
    fresh := fun n => { id := n, name := "", country := "" } }

def AuthorBookRow.get (r : AuthorBookRow) : Col → Option Value
  | .author_book_id => some (.int r.author_book_id)
  | .author_id => some (.int r.author_id)
  | .book_id => some (.int r.book_id)
  | _ => none

def AuthorBookRow.set (r : AuthorBookRow) : Col → Value → Option AuthorBookRow
  | .author_book_id, .int n => some { r with author_book_id := n }
  | .author_id, .int n => some { r with author_id := n }
  | .book_id, .int n => some { r with book_id := n }
  | _, _ => none

def authorBookOps : RowOps AuthorBookRow :=
  { key := .author_book_id, columns := [.author_book_id, .author_id, .book_id],
    get := AuthorBookRow.get, set := AuthorBookRow.set,
    fresh := fun n => { author_book_id := n, author_id := 0, book_id := 0 } }

/-- The integer MySQL reads from a string in a numeric comparison: leading white space, an
optional sign and the leading digits; 0 when there are none. -/
def sqlNumber (s : String) : Int :=
  let sm := splitSign (s.data.dropWhile Char.isWhitespace)
  let n := digitsVal (sm.2.takeWhile Char.isDigit)
  if sm.1 = true then -(n : Int) else (n : Int)

/-- The comparison `column = ?`. -/
def sqlEq : Value → Value → Bool
  | .int a, .int b => decide (a = b)
  | .int a, .text s => decide (a = sqlNumber s)
  | .text s, .int b => decide (sqlNumber s = b)
  | .text s, .text t => decide (s = t)

/-- Whether a row satisfies `WHERE k = p`. -/
def whereEq {ρ : Type} (ops : RowOps ρ) (k : Col) (p : Value) (r : ρ) : Bool :=
  match ops.get r k with
  | some v => sqlEq v p
  | none => false

/-- Apply `f` to every element, failing if it fails anywhere. -/
def mapOpt {α β : Type} (f : α → Option β) : List α → Option (List β)
  | [] => some []
  | a :: as =>
    match f a with
    | none => none
    | some b =>
      match mapOpt f as with
      | none => none
      | some bs => some (b :: bs)

/-- Assign the values to the columns of a row, in order. -/
def setAll {ρ : Type} (ops : RowOps ρ) (r : ρ) : List Col → List Value → Option ρ
  | [], [] => some r
  | c :: cs, v :: vs =>
    match ops.set r c v with
    | none => none
    | some r1 => setAll ops r1 cs vs
  | _, _ => none

/-- Whether every named column belongs to the table. -/
def knownCols {ρ : Type} (ops : RowOps ρ) (cols : List Col) : Bool :=
  cols.all fun c => decide (c ∈ ops.columns)

/-- Execute one statement on one table: the rows returned, the result, the table afterwards;
`none` is an SQL error (unknown column, wrong parameter count, type mismatch, duplicate key).
An `INSERT` takes the next auto-generated key; the source never names the key column in an
`INSERT`, and such statements are rejected here. -/
def Table.run {ρ : Type} (ops : RowOps ρ) (t : Table ρ) (q : Stmt) (args : List Value) :
    Option (List (List Value) × Result × Table ρ) :=
  match q with
  | .selectAll cols _ =>
    if knownCols ops cols = true ∧ args = [] then
      (mapOpt (fun r => mapOpt (ops.get r) cols) t.rows).map fun rs => (rs, ⟨0⟩, t)
    else none
  | .selectWhere cols _ k =>
    match args with
    | [p] =>
      if knownCols ops (k :: cols) = true then
        (mapOpt (fun r => mapOpt (ops.get r) cols) (t.rows.filter (whereEq ops k p))).map
          fun rs => (rs, ⟨0⟩, t)
      else none
    | _ => none
  | .selectExists _ k =>
    match args with
    | [p] =>
      if knownCols ops [k] = true then
        some ([[.int (if t.rows.any (whereEq ops k p) = true then 1 else 0)]], ⟨0⟩, t)
      else none
    | _ => none
  | .insert _ cols =>
    if knownCols ops cols = true ∧ ops.key ∉ cols ∧
        t.rows.any (whereEq ops ops.key (.int t.autoInc)) = false then
      (setAll ops (ops.fresh t.autoInc) cols args).map fun r =>
        ([], ⟨t.autoInc⟩, { rows := t.rows ++ [r], autoInc := t.autoInc + 1 })
    else none
  | .update _ cols k =>
    match args.getLast? with
    | none => none
    | some p =>
      if knownCols ops (k :: cols) = true ∧ args.length = cols.length + 1 then
        (mapOpt (fun r => if whereEq ops k p r = true then setAll ops r cols args.dropLast
                          else some r) t.rows).map
          fun rs => ([], ⟨0⟩, { t with rows := rs })
      else none
  | .delete _ k =>
    match args with
    | [p] =>
      if knownCols ops [k] = true then
        some ([], ⟨0⟩, { t with rows := t.rows.filter fun r => ! whereEq ops k p r })
      else none
    | _ => none

/-- Execute one statement on the store. -/
def Store.run (s : Store) (q : Stmt) (args : List Value) :
    Option (List (List Value) × Result × Store) :=
  match q.table with
  | .books =>
    (s.books.run bookOps q args).map fun o => (o.1, o.2.1, { s with books := o.2.2 })
  | .authors =>
    (s.authors.run authorOps q args).map fun o => (o.1, o.2.1, { s with authors := o.2.2 })
  | .author_books =>
    (s.author_books.run authorBookOps q args).map fun o =>
      (o.1, o.2.1, { s with author_books := o.2.2 })

/-- The handle after a statement went out: it is logged and the next pending fault, if any, is
consumed. -/
def DB.sent (db : DB) (q : Stmt) (args : List Value) : DB :=
  { db with faults := db.faults.tail, log := db.log ++ [(q, args)] }

/-- One round trip: the statement goes out and, unless the round trip fails, runs on the
store. -/
def DB.roundTrip (db : DB) (q : Stmt) (args : List Value) :
    Option (List (List Value) × Result) × DB :=
  if db.faults.head? = some true then (none, db.sent q args)
  else
    match db.store.run q args with
    | none => (none, db.sent q args)
    | some o => (some (o.1, o.2.1), { db.sent q args with store := o.2.2 })

/-- Reading a result set with `rows.Next()`: every row fetch consumes the next pending fault,
and a fault ends the stream at that row with `rows.Err()` set.  The second component is what is
left of the pending faults. -/
def fetchRows : List (List Value) → List Bool → Rows × List Bool
  | [], fs => (⟨[], false⟩, fs)
  | row :: rest, fs =>
    if fs.head? = some true then (⟨[], true⟩, fs.tail)
    else
      (⟨row :: (fetchRows rest fs.tail).1.delivered, (fetchRows rest fs.tail).1.Err⟩,
       (fetchRows rest fs.tail).2)

/-- The `db.Query(q, args...)` call together with the reading of its result set: `none` for
`err != nil`, else the cursor, whose rows arrive one `rows.Next()` at a time. -/
def DB.Query (db : DB) (q : Stmt) (args : List Value) : Option Rows × DB :=
  match db.roundTrip q args with
  | (none, db1) => (none, db1)
  | (some o, db1) =>
    (some (fetchRows o.1 db1.faults).1, { db1 with faults := (fetchRows o.1 db1.faults).2 })

/-- The `db.QueryRow(q, args...)` call up to the row handed to `Scan`: the first row, or `none`
when the query fails or returns no row (`Scan` then reports the error, `rows.Err()`
included). -/
def DB.QueryRow (db : DB) (q : Stmt) (args : List Value) : Option (List Value) × DB :=
  (((db.roundTrip q args).1.bind fun o => o.1.head?), (db.roundTrip q args).2)

/-- The `db.Exec(q, args...)` call: the result, or `none` for `err != nil`. -/
def DB.Exec (db : DB) (q : Stmt) (args : List Value) : Option Result × DB :=
  ((db.roundTrip q args).1.map fun o => o.2, (db.roundTrip q args).2)

/-! ### `Scan` conversions -/

/-- Scan into an `*int`. -/
def scanInt : Value → Option Int
  | .int n => some n
  | .text s => if (Atoi s).2 = true then some (Atoi s).1 else none

/-- Scan into a `*string`. -/
def scanString : Value → Option String
  | .text s => some s
  | .int n => some (toString n)

/-- Scan into a `*bool`. -/
def scanBool : Value → Option Bool
  | .int n => if n = 1 then some true else if n = 0 then some false else none
  | .text s =>
    if s ∈ ["1", "t", "T", "TRUE", "true", "True"] then some true
    else if s ∈ ["0", "f", "F", "FALSE", "false", "False"] then some false
    else none

/-- The call `Scan(&book.ID, &book.Title, &book.PublishedYear, &book.ISBN)`. -/
def scanBook : List Value → Option Book
  | [a, b, c, d] =>
    match scanInt a, scanString b, scanString c, scanInt d with
    | some i, some t, some y, some n => some { ID := i, Title := t, PublishedYear := y, ISBN := n }
    | _, _, _, _ => none
  | _ => none

/-- The call `Scan(&author.ID, &author.Name, &author.Country)`. -/
def scanAuthor : List Value → Option Author
  | [a, b, c] =>
    match scanInt a, scanString b, scanString c with
    | some i, some n, some k => some { ID := i, Name := n, Country := k }
    | _, _, _ => none
  | _ => none

/-- The call `Scan(&authorBook.AuthorBookID, &authorBook.AuthorID, &authorBook.BookID)`. -/
def scanAuthorBook : List Value → Option AuthorBook
  | [a, b, c] =>
    match scanInt a, scanInt b, scanInt c with
    | some i, some x, some y => some { AuthorBookID := i, AuthorID := x, BookID := y }
    | _, _, _ => none
  | _ => none

/-- The call `Scan(&exists)` on a one-column row. -/
def scanExists : List Value → Option Bool
  | [a] => scanBool a
  | _ => none

/-! ## Handlers (`main.go`, lines 84-500) -/

/-- A handler: it extends the response and may change the database. -/
abbrev Handler := ResponseWriter → Request → DB → ResponseWriter × DB

/-- Login handles the user login and generates a JWT token. -/
def login (L : Lib) : Handler := fun w r db =>
  match L.decodeCreds r.Body with
  | none => (w.WriteHeader StatusBadRequest, db)
  | some creds =>
    let password := mapLookup authorizedUsers creds.Username
    if password.isNone = true ∨ password.getD "" ≠ creds.Password then
      (w.WriteHeader StatusUnauthorized, db)
    else
      match SignedString L .HS256 { Username := creds.Username, std := ⟨0, 0, 0⟩ } secretKey with
      | .error _ => (w.WriteHeader StatusInternalServerError, db)
      | .ok tokenString =>
        ((w.HeaderSet "Content-Type" "application/json").Encode
          (encodeStringMap [("token", tokenString)]), db)

/-- Middleware to validate JWT token. -/
def validateToken (L : Lib) (next : Handler) : Handler := fun w r db =>
  let tokenString := mapIndex r.Header "Authorization"
  if tokenString = "" then (w.WriteHeader StatusUnauthorized, db)
  else
    match ParseWithClaims L tokenString secretKey with
    | .error _ => (w.WriteHeader StatusUnauthorized, db)
    | .ok token =>
      if token.Valid = false then (w.WriteHeader StatusUnauthorized, db)
      else next w r db

/-- The `for rows.Next()` loop of `getAllBooks` over the rows that `Next` delivers: `none` when
a `Scan` fails.  The loop ends when `Next` returns false; `rows.Err()` is not read. -/
def scanBooks (rows : List (List Value)) (books : Option (List Book)) :
    Option (Option (List Book)) :=
  match rows with
  | [] => some books
  | row :: rest =>
    match scanBook row with
    | none => none
    | some book => scanBooks rest (sliceAppend books book)

def getAllBooks (L : Lib) : Handler :=
  validateToken L fun w _ db =>
    match db.Query (.selectAll [.id, .title, .published_year, .isbn] .books) [] with
    | (none, db1) => (w.WriteHeader StatusInternalServerError, db1)
    | (some rows, db1) =>
      match scanBooks rows.delivered (some []) with
      | none => (w.WriteHeader StatusInternalServerError, db1)
      | some books =>
        ((w.HeaderSet "Content-Type" "application/json").Encode
          (encodeSlice Book.fields books), db1)

def createBook (L : Lib) : Handler :=
  validateToken L fun w r db =>
    match L.decodeBook r.Body with
    | none => (w.WriteHeader StatusBadRequest, db)
    | some book =>
      match db.Exec (.insert .books [.title, .published_year, .isbn])
          [.text book.Title, .text book.PublishedYear, .int book.ISBN] with
      | (none, db1) => (w.WriteHeader StatusInternalServerError, db1)
      | (some result, db1) =>
        let book := { book with ID := result.LastInsertId }
        ((w.HeaderSet "Content-Type" "application/json").Encode (.obj book.fields), db1)

def getBook (L : Lib) : Handler :=
  validateToken L fun w r db =>
    let id := mapIndex r.Vars "id"
    match db.QueryRow (.selectWhere [.id, .title, .published_year, .isbn] .books .id)
        [.text id] with
    | (row, db1) =>
      match row.bind scanBook with
      | none => (w.WriteHeader StatusNotFound, db1)
      | some book =>
        ((w.HeaderSet "Content-Type" "application/json").Encode (.obj book.fields), db1)

def updateBook (L : Lib) : Handler :=
  validateToken L fun w r db =>
    let id := mapIndex r.Vars "id"
    match L.decodeBook r.Body with
    | none => (w.WriteHeader StatusBadRequest, db)
    | some book =>
      match db.Exec (.update .books [.title, .published_year, .isbn] .id)
          [.text book.Title, .text book.PublishedYear, .int book.ISBN, .text id] with
      | (none, db1) => (w.WriteHeader StatusInternalServerError, db1)
      | (some _, db1) =>
        let book := { book with ID := (Atoi id).1 }
        ((w.HeaderSet "Content-Type" "application/json").Encode (.obj book.fields), db1)

def deleteBook (L : Lib) : Handler :=
  validateToken L fun w r db =>
    let id := mapIndex r.Vars "id"
    match db.Exec (.delete .books .id) [.text id] with
    | (none, db1) => (w.WriteHeader StatusInternalServerError, db1)
    | (some _, db1) => (w.WriteHeader StatusNoContent, db1)

/-- The `for rows.Next()` loop of `getAllAuthors` over the rows that `Next` delivers: `none`
when a `Scan` fails.  The loop ends when `Next` returns false; `rows.Err()` is not read. -/
def scanAuthors (rows : List (List Value)) (authors : Option (List Author)) :
    Option (Option (List Author)) :=
  match rows with
  | [] => some authors
  | row :: rest =>
    match scanAuthor row with
    | none => none
    | some author => scanAuthors rest (sliceAppend authors author)

def getAllAuthors (L : Lib) : Handler :=
  validateToken L fun w _ db =>
    match db.Query (.selectAll [.id, .name, .counttry] .authors) [] with
    | (none, db1) => (w.WriteHeader StatusInternalServerError, db1)
    | (some rows, db1) =>
      match scanAuthors rows.delivered (some []) with
      | none => (w.WriteHeader StatusInternalServerError, db1)
      | some authors =>
        ((w.HeaderSet "Content-Type" "application/json").Encode
          (encodeSlice Author.fields authors), db1)

def createAuthor (L : Lib) : Handler :=
  validateToken L fun w r db =>
    match L.decodeAuthor r.Body with
    | none => (w.WriteHeader StatusBadRequest, db)
    | some author =>
      match db.Exec (.insert .authors [.name, .country])
          [.text author.Name, .text author.Country] with
      | (none, db1) => (w.WriteHeader StatusInternalServerError, db1)
      | (some result, db1) =>
        let author := { author with ID := result.LastInsertId }
        ((w.HeaderSet "Content-Type" "application/json").Encode (.obj author.fields), db1)

def getAuthor (L : Lib) : Handler :=
  validateToken L fun w r db =>
    let id := mapIndex r.Vars "id"
    match db.QueryRow (.selectWhere [.id, .name, .country] .books .id) [.text id] with
    | (row, db1) =>
      match row.bind scanAuthor with
      | none => (w.WriteHeader StatusNotFound, db1)
      | some author =>
        ((w.HeaderSet "Content-Type" "application/json").Encode (.obj author.fields), db1)

def updateAuthor (L : Lib) : Handler :=
  validateToken L fun w r db =>
    let id := mapIndex r.Vars "id"
    match L.decodeAuthor r.Body with
    | none => (w.WriteHeader StatusBadRequest, db)
    | some author =>
      match db.Exec (.update .authors [.name, .country] .id)
          [.text author.Name, .text author.Country, .text id] with
      | (none, db1) => (w.WriteHeader StatusInternalServerError, db1)
      | (some _, db1) =>
        let author := { author with ID := (Atoi id).1 }
        ((w.HeaderSet "Content-Type" "application/json").Encode (.obj author.fields), db1)

def deleteAuthor (L : Lib) : Handler :=
  validateToken L fun w r db =>
    let id := mapIndex r.Vars "id"
    match db.Exec (.delete .authors .id) [.text id] with
    | (none, db1) => (w.WriteHeader StatusInternalServerError, db1)
    | (some _, db1) => (w.WriteHeader StatusNoContent, db1)

/-- CreateAuthorBook creates a new author book relationship. -/
def CreateAuthorBook (L : Lib) : Handler :=
  validateToken L fun w r db =>
    match L.decodeAuthorBook r.Body with
    | none => (w.WriteHeader StatusBadRequest, db)
    | some authorBook =>
      -- Check if the author and book exist
      match db.QueryRow (.selectExists .authors .id) [.int authorBook.AuthorID] with
      | (row, db1) =>
        match row.bind scanExists with
        | none => (w.WriteHeader StatusInternalServerError, db1)
        | some authorExists =>
          if authorExists = false then
            ((w.WriteHeader StatusBadRequest).Encode
              (encodeStringMap [("error", "Author does not exist")]), db1)
          else
            match db1.QueryRow (.selectExists .books .id) [.int authorBook.BookID] with
            | (row2, db2) =>
              match row2.bind scanExists with
              | none => (w.WriteHeader StatusInternalServerError, db2)
              | some bookExists =>
                if bookExists = false then
                  ((w.WriteHeader StatusBadRequest).Encode
                    (encodeStringMap [("error", "Book does not exist")]), db2)
                else
                  match db2.Exec (.insert .author_books [.author_id, .book_id])
                      [.int authorBook.AuthorID, .int authorBook.BookID] with
                  | (none, db3) => (w.WriteHeader StatusInternalServerError, db3)
                  | (some result, db3) =>
                    let authorBook := { authorBook with AuthorBookID := result.LastInsertId }
                    ((w.HeaderSet "Content-Type" "application/json").Encode
                      (.obj authorBook.fields), db3)

/-- GetAuthorBook retrieves a specific author book relationship. -/
def GetAuthorBook (L : Lib) : Handler :=
  validateToken L fun w r db =>
    let id := mapIndex r.Vars "id"
    match db.QueryRow
        (.selectWhere [.author_book_id, .author_id, .book_id] .author_books .author_book_id)
        [.text id] with
    | (row, db1) =>
      match row.bind scanAuthorBook with
      | none => (w.WriteHeader StatusNotFound, db1)
      | some authorBook =>
        ((w.HeaderSet "Content-Type" "application/json").Encode (.obj authorBook.fields), db1)

/-- UpdateAuthorBook updates an author book relationship. -/
def UpdateAuthorBook (L : Lib) : Handler :=
  validateToken L fun w r db =>
    let id := mapIndex r.Vars "id"
    match L.decodeAuthorBook r.Body with
    | none => (w.WriteHeader StatusBadRequest, db)
    | some authorBook =>
      -- Check if the author and book exist
      match db.QueryRow (.selectExists .authors .id) [.int authorBook.AuthorID] with
      | (row, db1) =>
        match row.bind scanExists with
        | none => (w.WriteHeader StatusInternalServerError, db1)
        | some authorExists =>
          if authorExists = false then
            ((w.WriteHeader StatusBadRequest).Encode
              (encodeStringMap [("error", "Author does not exist")]), db1)
          else
            match db1.QueryRow (.selectExists .books .id) [.int authorBook.BookID] with
            | (row2, db2) =>
              match row2.bind scanExists with
              | none => (w.WriteHeader StatusInternalServerError, db2)
              | some bookExists =>
                if bookExists = false then
                  ((w.WriteHeader StatusBadRequest).Encode
                    (encodeStringMap [("error", "Book does not exist")]), db2)
                else
                  match db2.Exec (.update .author_books [.author_id, .book_id] .author_book_id)
                      [.int authorBook.AuthorID, .int authorBook.BookID, .text id] with
                  | (none, db3) => (w.WriteHeader StatusInternalServerError, db3)
                  | (some _, db3) =>
                    let authorBook := { authorBook with AuthorBookID := (Atoi id).1 }
                    ((w.HeaderSet "Content-Type" "application/json").Encode
                      (.obj authorBook.fields), db3)

/-- DeleteAuthorBook deletes an author book relationship. -/
def DeleteAuthorBook (L : Lib) : Handler :=
  validateToken L fun w r db =>
    let id := mapIndex r.Vars "id"
    match db.Exec (.delete .author_books .author_book_id) [.text id] with
    | (none, db1) => (w.WriteHeader StatusInternalServerError, db1)
    | (some _, db1) => (w.WriteHeader StatusNoContent, db1)

/-! ## Vocabulary of the specification -/

/-- Whether `validateToken` lets a token string through: it parses under the secret key to a
valid token. -/
def tokenAccepted (L : Lib) (tokenString : String) : Bool :=
  match ParseWithClaims L tokenString secretKey with
  | .error _ => false
  | .ok token => token.Valid

/-- An authorized request: its `Authorization` header is non-empty and is an accepted token. -/
def Authorized (L : Lib) (r : Request) : Prop :=
  mapIndex r.Header "Authorization" ≠ "" ∧
    tokenAccepted L (mapIndex r.Header "Authorization") = true

instance (L : Lib) (r : Request) : Decidable (Authorized L r) := by
  unfold Authorized
  infer_instance

/-- The integer that a decimal numeral denotes: an optional sign followed by one or more decimal
digits; `none` for any other string. -/
def decimalInt (s : String) : Option Int :=
  if (splitSign s.data).2 ≠ [] ∧ (splitSign s.data).2.all Char.isDigit = true then
    some (if (splitSign s.data).1 = true then -(digitsVal (splitSign s.data).2 : Int)
          else (digitsVal (splitSign s.data).2 : Int))
  else none

/-- The strings on which the error of `strconv.Atoi` is a syntax error, read off the string:
no character follows the optional sign, or the digits that follow it, whose value is still
below `2^64`, are followed by a character that is not a digit. -/
def AtoiSyntaxError (s : String) : Prop :=
  (splitSign s.data).2 = [] ∨
    ((splitSign s.data).2.takeWhile Char.isDigit ≠ (splitSign s.data).2 ∧
      digitsVal ((splitSign s.data).2.takeWhile Char.isDigit) < 2 ^ 64)

instance (s : String) : Decidable (AtoiSyntaxError s) := by
  unfold AtoiSyntaxError
  infer_instance

/-- The next `n` operations on the connection (statements sent, rows fetched from the result
set of a `db.Query`) are not hit by a driver or server error. -/
def DB.healthy (db : DB) (n : Nat) : Prop :=
  ∀ f ∈ db.faults.take n, f = false

instance (db : DB) (n : Nat) : Decidable (db.healthy n) := by
  unfold DB.healthy
  infer_instance

/-- The statements issued between two states of the database handle. -/
def issued (before after : DB) : List (Stmt × List Value) :=
  after.log.drop before.log.length

/-- Referential integrity of the join table: every `author_books` row names an existing author
and an existing book. -/
def RefIntegrity (s : Store) : Prop :=
  ∀ ab ∈ s.author_books.rows,
    (∃ a ∈ s.authors.rows, a.id = ab.author_id) ∧ (∃ b ∈ s.books.rows, b.id = ab.book_id)

instance (s : Store) : Decidable (RefIntegrity s) := by
  unfold RefIntegrity
  infer_instance

/-- The fourteen handlers that wrap their body in `validateToken`. -/
def protectedHandlers : List (Lib → Handler) :=
  [getAllBooks, createBook, getBook, updateBook, deleteBook,
   getAllAuthors, createAuthor, getAuthor, updateAuthor, deleteAuthor,
   CreateAuthorBook, GetAuthorBook, UpdateAuthorBook, DeleteAuthorBook]

/-- The operations `main` registers on the router, named after their handlers. -/
inductive Op where
  | login
  | getAllBooks | createBook | getBook | updateBook | deleteBook
  | getAllAuthors | createAuthor | getAuthor | updateAuthor | deleteAuthor
  | CreateAuthorBook | GetAuthorBook | UpdateAuthorBook | DeleteAuthorBook
deriving DecidableEq, Repr

/-- The handler that serves an operation. -/
def Op.handler : Op → Lib → Handler
  | .login => BookAPI.login
  | .getAllBooks => BookAPI.getAllBooks
  | .createBook => BookAPI.createBook
  | .getBook => BookAPI.getBook
  | .updateBook => BookAPI.updateBook
  | .deleteBook => BookAPI.deleteBook
  | .getAllAuthors => BookAPI.getAllAuthors
  | .createAuthor => BookAPI.createAuthor
  | .getAuthor => BookAPI.getAuthor
  | .updateAuthor => BookAPI.updateAuthor
  | .deleteAuthor => BookAPI.deleteAuthor
  | .CreateAuthorBook => BookAPI.CreateAuthorBook
  | .GetAuthorBook => BookAPI.GetAuthorBook
  | .UpdateAuthorBook => BookAPI.UpdateAuthorBook
  | .DeleteAuthorBook => BookAPI.DeleteAuthorBook

/-! ### The router (`main.go`, lines 63-79)

`mux` compiles a template such as `/books/` followed by the variable `id` into a pattern in
which a variable matches one non-empty path segment.  Path cleaning and redirects are not
modelled. -/

/-- A segment of a route template: literal text, or a variable (written in braces in the
source). -/
inductive Seg where
  | lit (s : String)
  | var (name : String)
deriving DecidableEq, Repr

/-- One registration `router.HandleFunc(template, handler).Methods(method)`. -/
structure Route where
  template : List Seg
  op : Op
  method : String
deriving DecidableEq, Repr

/-- The route table built in `main`, in registration order. -/
def routes : List Route :=
  [⟨[.lit "login"], .login, "POST"⟩,
   ⟨[.lit "books"], .getAllBooks, "GET"⟩,
   ⟨[.lit "books"], .createBook, "POST"⟩,
   ⟨[.lit "books", .var "id"], .getBook, "GET"⟩,
   ⟨[.lit "books", .var "id"], .updateBook, "PUT"⟩,
   ⟨[.lit "books", .var "id"], .deleteBook, "DELETE"⟩,
   ⟨[.lit "authors"], .getAllAuthors, "GET"⟩,
   ⟨[.lit "authors"], .createAuthor, "POST"⟩,
   ⟨[.lit "authors", .var "id"], .getAuthor, "GET"⟩,
   ⟨[.lit "authors", .var "id"], .updateAuthor, "PUT"⟩,
   ⟨[.lit "authors", .var "id"], .deleteAuthor, "DELETE"⟩,
   ⟨[.lit "authorbooks"], .CreateAuthorBook, "POST"⟩,
   ⟨[.lit "authorbooks", .var "id"], .GetAuthorBook, "GET"⟩,
   ⟨[.lit "authorbooks", .var "id"], .UpdateAuthorBook, "PUT"⟩,
   ⟨[.lit "authorbooks", .var "id"], .DeleteAuthorBook, "DELETE"⟩]

/-- Split a path at every slash. -/
def splitPath (cs : List Char) : List (List Char) :=
  match cs with
  | [] => [[]]
  | c :: rest =>
    match splitPath rest with
    | [] => [[]]
    | p :: ps => if c = '/' then [] :: p :: ps else (c :: p) :: ps

/-- Match path segments against a template, collecting the route variables. -/
def matchTemplate : List Seg → List (List Char) → Option (List (String × String))
  | [], [] => some []
  | .lit s :: ts, p :: ps => if String.mk p = s then matchTemplate ts ps else none
  | .var name :: ts, p :: ps =>
    if p = [] then none
    else (matchTemplate ts ps).map fun vars => (name, String.mk p) :: vars
  | _, _ => none

/-- Whether a request path matches a route's template: the path starts with a slash and its
segments match. -/
def Route.matchPath (rt : Route) (path : String) : Option (List (String × String)) :=
  match splitPath path.data with
  | [] :: segs => matchTemplate rt.template segs
  | _ => none

/-- The outcome of routing a request. -/
inductive Dispatch where
  | handler (op : Op) (vars : List (String × String))
  | methodNotAllowed
  | notFound
deriving DecidableEq, Repr

/-- Try the routes in order: the first whose path and method both match wins; if none does,
the answer is 405 when some route matched the path but not the method, else 404. -/
def dispatchFrom : List Route → String → String → Bool → Dispatch
  | [], _, _, mismatch => if mismatch = true then .methodNotAllowed else .notFound
  | rt :: rest, method, path, mismatch =>
    match rt.matchPath path with
    | none => dispatchFrom rest method path mismatch
    | some vars =>
      if rt.method = method then .handler rt.op vars
      else dispatchFrom rest method path true

/-- Routing of a request with the given method and path through a route table. -/
def dispatch (rs : List Route) (method path : String) : Dispatch :=
  dispatchFrom rs method path false

/-- One API call: an operation and the request it serves. -/
structure Call where
  op : Op
  request : Request
deriving DecidableEq, Repr

/-- Serve one call on a fresh response writer. -/
def serve (L : Lib) (c : Call) (db : DB) : ResponseWriter × DB :=
  c.op.handler L newRecorder c.request db

/-- The database after serving the calls in order. -/
def runCalls (L : Lib) : List Call → DB → DB
  | [], db => db
  | c :: cs, db => runCalls L cs (serve L c db).2

/-- Along the calls, no `deleteBook` names the id of a book and no `deleteAuthor` the id of an
author that an `author_books` row references at that moment. -/
def SafeDeletes (L : Lib) : List Call → DB → Prop
  | [], _ => True
  | c :: cs, db =>
    (c.op = .deleteBook → ∀ ab ∈ db.store.author_books.rows,
      ab.book_id ≠ sqlNumber (mapIndex c.request.Vars "id")) ∧
    (c.op = .deleteAuthor → ∀ ab ∈ db.store.author_books.rows,
      ab.author_id ≠ sqlNumber (mapIndex c.request.Vars "id")) ∧
    SafeDeletes L cs (serve L c db).2

instance SafeDeletes.decidable (L : Lib) :
    (calls : List Call) → (db : DB) → Decidable (SafeDeletes L calls db)
  | [], _ => isTrue trivial
  | c :: cs, db =>
    have := SafeDeletes.decidable L cs (serve L c db).2
    inferInstanceAs (Decidable (
      (c.op = .deleteBook → ∀ ab ∈ db.store.author_books.rows,
        ab.book_id ≠ sqlNumber (mapIndex c.request.Vars "id")) ∧
      (c.op = .deleteAuthor → ∀ ab ∈ db.store.author_books.rows,
        ab.author_id ≠ sqlNumber (mapIndex c.request.Vars "id")) ∧
      SafeDeletes L cs (serve L c db).2))

/-- A step of the store under which referential integrity can only be kept: every author and
book id is still present, and every `author_books` row is an old one or references an author
and a book that were present. -/
def Grows (s s1 : Store) : Prop :=
  (∀ a ∈ s.authors.rows, ∃ a1 ∈ s1.authors.rows, a1.id = a.id) ∧
  (∀ b ∈ s.books.rows, ∃ b1 ∈ s1.books.rows, b1.id = b.id) ∧
  (∀ ab ∈ s1.author_books.rows, ab ∈ s.author_books.rows ∨
    ((∃ a ∈ s.authors.rows, a.id = ab.author_id) ∧ (∃ b ∈ s.books.rows, b.id = ab.book_id)))

/-! ## A small concrete library, used to run the handlers on examples -/

/-- A dot-free rendering of a string: a dot becomes `bb`, any other character `c` becomes `ac`. -/
def escapeDots : List Char → List Char
  | [] => []
  | c :: cs => if c = '.' then 'b' :: 'b' :: escapeDots cs else 'a' :: c :: escapeDots cs

/-- Inverse of `escapeDots`. -/
def unescapeDots : List Char → Option (List Char)
  | [] => some []
  | [_] => none
  | x :: c :: cs =>
    if x = 'b' ∧ c = 'b' then (unescapeDots cs).map fun r => '.' :: r
    else if x = 'a' then (unescapeDots cs).map fun r => c :: r
    else none

/-- A library instance with a toy codec and a toy keyed digest; request bodies are a few fixed
words. -/
def demoLib : Lib :=
  { decodeCreds := fun s =>
      if s = "admin password" then some ⟨"admin", "password"⟩
      else if s = "admin Password" then some ⟨"admin", "Password"⟩
      else if s = "root password" then some ⟨"root", "password"⟩
      else none
    decodeBook := fun s =>
      if s = "test book" then some ⟨77, "Test Book", "2023", 1234567890⟩
      else if s = "updated book" then some ⟨77, "Updated Book", "2022", 9876543210⟩
      else none
    decodeAuthor := fun s =>
      if s = "john doe" then some ⟨0, "John Doe", "United States"⟩ else none
    decodeAuthorBook := fun s =>
      if s = "author 1 book 1" then some ⟨0, 1, 1⟩
      else if s = "author 9 book 1" then some ⟨0, 9, 1⟩
      else if s = "author 1 book 9" then some ⟨0, 1, 9⟩
      else none
    encodeSegment := fun x => String.mk (escapeDots x.data)
    decodeSegment := fun x => (unescapeDots x.data).map String.mk
    marshalHeader := fun h => mapIndex h "alg"
    unmarshalHeader := fun x => some [("alg", x)]
    marshalClaims := fun c => c.Username
    unmarshalClaims := fun x => some { Username := x, std := ⟨0, 0, 0⟩ }
    hmac := fun m key msg => m.Alg ++ key ++ msg
    now := 0 }

/-- The token `login` issues to `admin` under `demoLib`. -/
def demoToken : String :=
  match SignedString demoLib .HS256 { Username := "admin", std := ⟨0, 0, 0⟩ } secretKey with
  | .ok t => t
  | .error _ => ""

/-- A request carrying `demoToken`, a path id and a body. -/
def demoRequest (id body : String) : Request :=
  { Header := [("Authorization", demoToken)], Vars := [("id", id)], Body := body }

/-- A store with two books, one author and one link between them. -/
def demoStore : Store :=
  { books := { rows := [⟨1, "Dune", "1965", 441172717⟩, ⟨2, "Emma", "1815", 141439587⟩],
               autoInc := 3 }
    authors := { rows := [⟨1, "Frank Herbert", "United States"⟩], autoInc := 2 }
    author_books := { rows := [⟨1, 1, 1⟩], autoInc := 2 } }

/-- A healthy database over `demoStore`. -/
def demoDB : DB :=
  { store := demoStore, faults := [], log := [] }

/-- A database over `demoStore` whose connection breaks at the third operation to come: a
statement and one row fetch go through, the next row fetch fails. -/
def demoDBBrokenStream : DB :=
  { store := demoStore, faults := [false, false, true], log := [] }

/-! ## Lemmas on the token codec -/

theorem splitDots_nodot (a : List Char) (ha : '.' ∉ a) : splitDots a = [a] := by
  induction a with
  | nil => rfl
  | cons c cs ih =>
    have hc : c ≠ '.' := fun h => ha (by simp [h])
    have hcs : '.' ∉ cs := fun h => ha (by simp [h])
    simp [splitDots, ih hcs, hc]

theorem splitDots_append (a rest : List Char) (ha : '.' ∉ a) :
    splitDots (a ++ '.' :: rest) = a :: splitDots rest := by
  induction a with
  | nil =>
    cases h : splitDots rest with
    | nil =>
      cases rest with
      | nil => simp [splitDots] at h
      | cons d ds =>
        simp only [splitDots] at h
        split at h
        · simp at h
        · split at h <;> simp at h
    | cons p ps => simp [splitDots, h]
  | cons c cs ih =>
    have hc : c ≠ '.' := fun h => ha (by simp [h])
    have hcs : '.' ∉ cs := fun h => ha (by simp [h])
    simp [splitDots, ih hcs, hc]

theorem splitDots_three (a b c : List Char) (ha : '.' ∉ a) (hb : '.' ∉ b) (hc : '.' ∉ c) :
    splitDots (a ++ '.' :: (b ++ '.' :: c)) = [a, b, c] := by
  rw [splitDots_append a _ ha, splitDots_append b _ hb, splitDots_nodot c hc]

theorem unescape_escape (l : List Char) : unescapeDots (escapeDots l) = some l := by
  induction l with
  | nil => rfl
  | cons c cs ih =>
    by_cases hc : c = '.'
    · subst hc
      simp [escapeDots, unescapeDots, ih]
    · simp [escapeDots, unescapeDots, ih, hc]

theorem escapeDots_nodot (l : List Char) : '.' ∉ escapeDots l := by
  induction l with
  | nil => simp [escapeDots]
  | cons c cs ih =>
    by_cases hc : c = '.'
    · subst hc
      simp [escapeDots, ih]
    · have hc2 : ¬ '.' = c := fun h => hc h.symm
      simp [escapeDots, ih, hc, hc2]

theorem demoLib_lawful : demoLib.Lawful where
  decode_encode := fun x => by simp [demoLib, unescape_escape]
  encode_nodot := fun x => by simpa [demoLib] using escapeDots_nodot x.data
  header_alg := fun alg => by simp [demoLib, mapIndex, mapLookup]
  claims_rt := fun _ => rfl

/-! ## The authorization gate -/

theorem validateToken_noHeader (L : Lib) (next : Handler) (w : ResponseWriter) (r : Request)
    (db : DB) (h : mapIndex r.Header "Authorization" = "") :
    validateToken L next w r db = (w.WriteHeader StatusUnauthorized, db) := by
  simp [validateToken, h]

theorem validateToken_authorized (L : Lib) (next : Handler) (w : ResponseWriter) (r : Request)
    (db : DB) (h : Authorized L r) : validateToken L next w r db = next w r db := by
  obtain ⟨h1, h2⟩ := h
  unfold tokenAccepted at h2
  unfold validateToken
  simp only [h1, if_false]
  cases hp : ParseWithClaims L (mapIndex r.Header "Authorization") secretKey with
  | error e => simp [hp] at h2
  | ok t =>
    simp only [hp] at h2
    simp [h2]

theorem protected_noHeader (L : Lib) (h : Lib → Handler) (hh : h ∈ protectedHandlers)
    (w : ResponseWriter) (r : Request) (db : DB)
    (hr : mapIndex r.Header "Authorization" = "") :
    h L w r db = (w.WriteHeader StatusUnauthorized, db) := by
  simp only [protectedHandlers, List.mem_cons, List.mem_singleton, List.not_mem_nil,
    or_false] at hh
  rcases hh with h1 | h1 | h1 | h1 | h1 | h1 | h1 | h1 | h1 | h1 | h1 | h1 | h1 | h1 <;>
    subst h1 <;> exact validateToken_noHeader L _ w r db hr

/-! ## Login -/

theorem mapLookup_authorizedUsers (u p : String) :
    mapLookup authorizedUsers u = some p ↔ (u, p) ∈ authorizedUsers := by
  simp only [authorizedUsers, mapLookup, List.mem_cons, List.mem_singleton, Prod.mk.injEq,
    List.not_mem_nil, or_false]
  by_cases h1 : "admin" = u
  · subst h1
    simp [eq_comm]
  · by_cases h2 : "user" = u
    · subst h2
      simp [eq_comm]
    · have h1' : ¬ u = "admin" := fun h => h1 h.symm
      have h2' : ¬ u = "user" := fun h => h2 h.symm
      simp [h1, h2, h1', h2']

theorem signedString_ne_empty (L : Lib) (c : Claims) (key tok : String)
    (h : SignedString L .HS256 c key = .ok tok) : tok ≠ "" := by
  simp only [SignedString, Except.ok.injEq] at h
  subst h
  intro h
  have := congrArg String.length h
  simp only [String.length_append] at this
  have h1 : ("." : String).length = 1 := by decide
  have h0 : ("" : String).length = 0 := rfl
  omega

theorem login_ok (L : Lib) (r : Request) (db : DB) (creds : Creds)
    (hdec : L.decodeCreds r.Body = some creds)
    (hmem : (creds.Username, creds.Password) ∈ authorizedUsers) :
    ∃ tok, SignedString L .HS256 { Username := creds.Username, std := ⟨0, 0, 0⟩ } secretKey
        = .ok tok ∧
      login L newRecorder r db =
        ({ Status := some 200, Header := [("Content-Type", "application/json")],
           Body := [.obj [("token", .str tok)]] }, db) := by
  have hl := (mapLookup_authorizedUsers _ _).2 hmem
  refine ⟨_, rfl, ?_⟩
  simp [login, hdec, hl, SignedString, newRecorder, ResponseWriter.HeaderSet,
    ResponseWriter.Encode, ResponseWriter.WriteHeader, encodeStringMap]

theorem login_denied (L : Lib) (r : Request) (db : DB) (creds : Creds)
    (hdec : L.decodeCreds r.Body = some creds)
    (hmem : (creds.Username, creds.Password) ∉ authorizedUsers) :
    login L newRecorder r db = ({ Status := some 401, Header := [], Body := [] }, db) := by
  have hl : mapLookup authorizedUsers creds.Username ≠ some creds.Password :=
    fun h => hmem ((mapLookup_authorizedUsers _ _).1 h)
  cases hq : mapLookup authorizedUsers creds.Username with
  | none => simp [login, hdec, hq, newRecorder, ResponseWriter.WriteHeader, StatusUnauthorized]
  | some p =>
    have hp : p ≠ creds.Password := fun h => hl (by rw [hq, h])
    simp [login, hdec, hq, hp, newRecorder, ResponseWriter.WriteHeader, StatusUnauthorized]

theorem parse_signed (L : Lib) (hL : L.Lawful) (u tok : String)
    (h : SignedString L .HS256 { Username := u, std := ⟨0, 0, 0⟩ } secretKey = .ok tok) :
    tokenAccepted L tok = true := by
  simp only [SignedString, SigningMethod.Alg, Except.ok.injEq] at h
  subst h
  generalize hA : L.encodeSegment (L.marshalHeader [("typ", "JWT"), ("alg", "HS256")]) = A
  generalize hB : L.encodeSegment (L.marshalClaims { Username := u, std := ⟨0, 0, 0⟩ }) = B
  generalize hC : L.encodeSegment (L.hmac .HS256 secretKey (A ++ "." ++ B)) = C
  have hsplit : (splitDots (A ++ "." ++ B ++ "." ++ C).data).map String.mk = [A, B, C] := by
    simp only [String.data_append]
    have e : (".": String).data = ['.'] := rfl
    simp only [e, List.append_assoc, List.singleton_append, List.cons_append, List.nil_append]
    rw [splitDots_three A.data B.data C.data (hA ▸ hL.encode_nodot _) (hB ▸ hL.encode_nodot _)
      (hC ▸ hL.encode_nodot _)]
    rfl
  have hdA := hL.decode_encode (L.marshalHeader [("typ", "JWT"), ("alg", "HS256")])
  have hdB := hL.decode_encode (L.marshalClaims { Username := u, std := ⟨0, 0, 0⟩ })
  have hdC := hL.decode_encode (L.hmac .HS256 secretKey (A ++ "." ++ B))
  rw [hA] at hdA
  rw [hB] at hdB
  rw [hC] at hdC
  have ha := hL.header_alg "HS256"
  cases hu : L.unmarshalHeader (L.marshalHeader [("typ", "JWT"), ("alg", "HS256")]) with
  | none => simp [hu] at ha
  | some hd =>
    simp only [hu, Option.some_bind] at ha
    unfold tokenAccepted ParseWithClaims
    rw [hsplit]
    simp [hdA, hdB, hdC, hu, hL.claims_rt, ha, GetSigningMethod,
      StandardClaims.Valid, SigningMethod.Verify]

/-! ## Claims C1 to C3 -/

/-- C1. Each of the fourteen protected handlers, on any database and any request whose
`Authorization` header is absent or empty, answers 401 with an empty body and returns the
database as it was: tables, pending faults and statement log, so no statement was issued. -/
theorem protected_handler_rejects_missing_authorization (L : Lib) (h : Lib → Handler)
    (hh : h ∈ protectedHandlers) (r : Request) (db : DB)
    (hr : mapLookup r.Header "Authorization" = none ∨
      mapLookup r.Header "Authorization" = some "") :
    (h L newRecorder r db).1.Code = 401 ∧ (h L newRecorder r db).1.Body = [] ∧
      (h L newRecorder r db).2 = db := by
  have h0 : mapIndex r.Header "Authorization" = "" := by
    rcases hr with hr | hr <;> simp [mapIndex, hr]
  rw [protected_noHeader L h hh newRecorder r db h0]
  exact ⟨rfl, rfl, rfl⟩

theorem protected_handler_rejects_missing_authorization_witness :
    (mapLookup ({ Header := [], Vars := [], Body := "test book" } : Request).Header
        "Authorization" = none ∨
      mapLookup ({ Header := [], Vars := [], Body := "test book" } : Request).Header
        "Authorization" = some "") ∧
    (createBook demoLib newRecorder { Header := [], Vars := [], Body := "test book" } demoDB).1.Code
      = 401 ∧
    (createBook demoLib newRecorder { Header := [], Vars := [], Body := "test book" } demoDB).1.Body
      = [] ∧
    (createBook demoLib newRecorder { Header := [], Vars := [], Body := "test book" } demoDB).2
      = demoDB :=
  ⟨by decide,
   protected_handler_rejects_missing_authorization demoLib createBook
     (by simp [protectedHandlers]) { Header := [], Vars := [], Body := "test book" } demoDB
     (by decide)⟩

/-- C2. For a login request whose body decodes to a username and a password, `login` answers
200 with a JSON object whose `token` field is a non-empty string exactly when the credential
map holds that username with that very password; for every other decoded pair it answers 401
(with nothing written to the body). -/
theorem login_status_iff_credentials (L : Lib) (r : Request) (db : DB) (creds : Creds)
    (hdec : L.decodeCreds r.Body = some creds) :
    (((login L newRecorder r db).1.Code = 200 ∧
        ∃ tok, tok ≠ "" ∧ (login L newRecorder r db).1.Body = [.obj [("token", .str tok)]]) ↔
      (creds.Username, creds.Password) ∈ authorizedUsers) ∧
    ((creds.Username, creds.Password) ∉ authorizedUsers →
      (login L newRecorder r db).1.Code = 401 ∧ (login L newRecorder r db).1.Body = []) := by
  constructor
  · constructor
    · intro h
      by_contra hmem
      rw [login_denied L r db creds hdec hmem] at h
      simp [ResponseWriter.Code] at h
    · intro hmem
      obtain ⟨tok, hs, hlog⟩ := login_ok L r db creds hdec hmem
      rw [hlog]
      exact ⟨rfl, tok, signedString_ne_empty L _ _ _ hs, rfl⟩
  · intro hmem
    rw [login_denied L r db creds hdec hmem]
    exact ⟨rfl, rfl⟩

theorem login_status_iff_credentials_witness :
    demoLib.decodeCreds ({ Header := [], Vars := [], Body := "admin Password" } : Request).Body
      = some ⟨"admin", "Password"⟩ ∧
    ((((login demoLib newRecorder { Header := [], Vars := [], Body := "admin Password" }
          demoDB).1.Code = 200 ∧
        ∃ tok, tok ≠ "" ∧
          (login demoLib newRecorder { Header := [], Vars := [], Body := "admin Password" }
            demoDB).1.Body = [.obj [("token", .str tok)]]) ↔
      ("admin", "Password") ∈ authorizedUsers) ∧
    (("admin", "Password") ∉ authorizedUsers →
      (login demoLib newRecorder { Header := [], Vars := [], Body := "admin Password" }
        demoDB).1.Code = 401 ∧
      (login demoLib newRecorder { Header := [], Vars := [], Body := "admin Password" }
        demoDB).1.Body = [])) :=
  ⟨by decide,
   login_status_iff_credentials demoLib { Header := [], Vars := [], Body := "admin Password" }
     demoDB ⟨"admin", "Password"⟩ (by decide)⟩

/-- C3. With a lawful codec, the token that `login` returns for a user of the credential map,
presented verbatim as the `Authorization` header of any request, passes `validateToken`: the
wrapped handler runs on the same writer, request and database, and no 401 is written. -/
theorem login_token_passes_validateToken (L : Lib) (hL : L.Lawful) (rl : Request) (db : DB)
    (creds : Creds) (hdec : L.decodeCreds rl.Body = some creds)
    (hmem : (creds.Username, creds.Password) ∈ authorizedUsers) :
    ∃ tok, (login L newRecorder rl db).1.Code = 200 ∧
      (login L newRecorder rl db).1.Body = [.obj [("token", .str tok)]] ∧
      ∀ (next : Handler) (w : ResponseWriter) (r : Request) (db1 : DB),
        mapLookup r.Header "Authorization" = some tok →
          validateToken L next w r db1 = next w r db1 := by
  obtain ⟨tok, hs, hlog⟩ := login_ok L rl db creds hdec hmem
  refine ⟨tok, by rw [hlog]; rfl, by rw [hlog], ?_⟩
  intro next w r db1 hr
  apply validateToken_authorized
  have hidx : mapIndex r.Header "Authorization" = tok := by simp [mapIndex, hr]
  refine ⟨?_, ?_⟩
  · rw [hidx]
    exact signedString_ne_empty L _ _ _ hs
  · rw [hidx]
    exact parse_signed L hL _ _ hs

theorem login_token_passes_validateToken_witness :
    demoLib.Lawful ∧
    demoLib.decodeCreds ({ Header := [], Vars := [], Body := "admin password" } : Request).Body
      = some ⟨"admin", "password"⟩ ∧
    ("admin", "password") ∈ authorizedUsers ∧
    ∃ tok, (login demoLib newRecorder { Header := [], Vars := [], Body := "admin password" }
        demoDB).1.Code = 200 ∧
      (login demoLib newRecorder { Header := [], Vars := [], Body := "admin password" }
        demoDB).1.Body = [.obj [("token", .str tok)]] ∧
      ∀ (next : Handler) (w : ResponseWriter) (r : Request) (db1 : DB),
        mapLookup r.Header "Authorization" = some tok →
          validateToken demoLib next w r db1 = next w r db1 :=
  ⟨demoLib_lawful, by decide, by decide,
   login_token_passes_validateToken demoLib demoLib_lawful
     { Header := [], Vars := [], Body := "admin password" } demoDB ⟨"admin", "password"⟩
     (by decide) (by decide)⟩

/-! ## Path ids: what `Atoi` accepts, MySQL reads as the same number -/

theorem isDigit_not_whitespace (c : Char) (h : c.isDigit = true) : c.isWhitespace = false := by
  simp only [Char.isDigit, Bool.and_eq_true, decide_eq_true_eq] at h
  simp only [Char.isWhitespace, Bool.or_eq_false_iff, decide_eq_false_iff_not]
  refine ⟨⟨⟨?_, ?_⟩, ?_⟩, ?_⟩ <;> (intro hc; subst hc; revert h; decide)

theorem takeWhile_all {α : Type} (p : α → Bool) (l : List α) (h : l.all p = true) :
    l.takeWhile p = l := by
  induction l with
  | nil => rfl
  | cons a as ih =>
    simp only [List.all_cons, Bool.and_eq_true] at h
    simp [List.takeWhile, h.1, ih h.2]

theorem parseUintLoop_cases (ds : List Char) (n v : Nat) (b : Bool)
    (h : parseUintLoop ds n = some (v, b)) :
    (b = true ∧ ds.all Char.isDigit = true ∧
        v = ds.foldl (fun acc c => 10 * acc + (c.toNat - 48)) n) ∨
      (b = false ∧ v = 2 ^ 64 - 1) := by
  induction ds generalizing n with
  | nil =>
    simp only [parseUintLoop, Option.some.injEq, Prod.mk.injEq] at h
    exact Or.inl ⟨h.2.symm, rfl, h.1.symm⟩
  | cons c rest ih =>
    simp only [parseUintLoop] at h
    split at h
    · rename_i hd
      split at h
      · rcases ih _ h with ⟨h1, h2, h3⟩ | h1
        · exact Or.inl ⟨h1, by simp [hd, h2], by simpa using h3⟩
        · exact Or.inr h1
      · simp only [Option.some.injEq, Prod.mk.injEq] at h
        exact Or.inr ⟨h.2.symm, h.1.symm⟩
    · simp at h

/-- What `Atoi` accepts: an optional sign followed by digits only, and it returns their value. -/
theorem Atoi_accepts (s : String) (n : Int) (h : Atoi s = (n, true)) :
    (splitSign s.data).2 ≠ [] ∧ (splitSign s.data).2.all Char.isDigit = true ∧
      n = if (splitSign s.data).1 = true then -(digitsVal (splitSign s.data).2 : Int)
          else (digitsVal (splitSign s.data).2 : Int) := by
  unfold Atoi at h
  dsimp only at h
  split at h
  · simp at h
  · rename_i hne
    refine ⟨hne, ?_⟩
    cases hp : parseUintLoop (splitSign s.data).2 0 with
    | none => simp [hp] at h
    | some un =>
      obtain ⟨v, b⟩ := un
      simp only [hp] at h
      rcases parseUintLoop_cases _ _ _ _ hp with ⟨_, hall, hv⟩ | ⟨_, hv⟩
      · refine ⟨hall, ?_⟩
        have hv2 : v = digitsVal (splitSign s.data).2 := hv
        split at h
        · rename_i hs
          rw [if_pos hs]
          split at h
          · simp only [Prod.mk.injEq, and_true] at h
            rw [← h, hv2]
          · simp at h
        · rename_i hs
          rw [if_neg hs]
          split at h
          · simp only [Prod.mk.injEq, and_true] at h
            rw [← h, hv2]
          · simp at h
      · exfalso
        subst hv
        split at h
        · split at h
          · rename_i hle
            norm_num at hle
          · simp at h
        · split at h
          · rename_i hlt
            norm_num at hlt
          · simp at h

theorem foldl_digits_ge (ds : List Char) (n : Nat) :
    n ≤ ds.foldl (fun acc c => 10 * acc + (c.toNat - 48)) n := by
  induction ds generalizing n with
  | nil => exact Nat.le_refl _
  | cons c rest ih =>
    simp only [List.foldl_cons]
    exact Nat.le_trans (by omega) (ih _)

theorem parseUintLoop_none_iff (ds : List Char) (n : Nat) (hn : n < 2 ^ 64) :
    parseUintLoop ds n = none ↔
      (ds.takeWhile Char.isDigit ≠ ds ∧
        (ds.takeWhile Char.isDigit).foldl (fun acc c => 10 * acc + (c.toNat - 48)) n < 2 ^ 64) := by
  induction ds generalizing n with
  | nil => simp [parseUintLoop]
  | cons c rest ih =>
    by_cases hc : c.isDigit = true
    · by_cases hlt : 10 * n + (c.toNat - 48) < 2 ^ 64
      · simp only [parseUintLoop, hc, if_true, hlt, List.takeWhile_cons, List.foldl_cons]
        rw [ih _ hlt]
        simp
      · simp only [parseUintLoop, hc, if_true, hlt, if_false, List.takeWhile_cons,
          List.foldl_cons]
        constructor
        · intro h
          simp at h
        · intro h
          exact absurd (Nat.lt_of_le_of_lt (foldl_digits_ge _ _) h.2) hlt
    · have hc2 : c.isDigit = false := by simpa using hc
      simp only [parseUintLoop, hc2, List.takeWhile_cons]
      exact ⟨fun _ => ⟨by simp, hn⟩, fun _ => by simp⟩

theorem parseUintLoop_fits (ds : List Char) (n : Nat) (hall : ds.all Char.isDigit = true)
    (h : ds.foldl (fun acc c => 10 * acc + (c.toNat - 48)) n < 2 ^ 64) :
    parseUintLoop ds n = some (ds.foldl (fun acc c => 10 * acc + (c.toNat - 48)) n, true) := by
  induction ds generalizing n with
  | nil => rfl
  | cons c rest ih =>
    simp only [List.all_cons, Bool.and_eq_true] at hall
    simp only [List.foldl_cons] at h ⊢
    have hlt : 10 * n + (c.toNat - 48) < 2 ^ 64 := Nat.lt_of_le_of_lt (foldl_digits_ge _ _) h
    simp only [parseUintLoop, hall.1, if_true, hlt]
    exact ih _ hall.2 h

/-- The value `Atoi` returns with an error: 0 on a syntax error, else the `int64` bound on the
side of the sign. -/
theorem Atoi_rejected_value (s : String) (h : (Atoi s).2 = false) :
    (Atoi s).1 =
      if AtoiSyntaxError s then 0
      else if (splitSign s.data).1 = true then -(2 ^ 63) else 2 ^ 63 - 1 := by
  unfold Atoi at h ⊢
  dsimp only at h ⊢
  by_cases hne : (splitSign s.data).2 = []
  · rw [if_pos hne, if_pos (show AtoiSyntaxError s from Or.inl hne)]
  · rw [if_neg hne] at h ⊢
    cases hp : parseUintLoop (splitSign s.data).2 0 with
    | none =>
      rw [if_pos (show AtoiSyntaxError s from
        Or.inr ((parseUintLoop_none_iff _ 0 (by norm_num)).1 hp))]
    | some un =>
      have hns : ¬ AtoiSyntaxError s := by
        intro hs
        rcases hs with hs | hs
        · exact hne hs
        · rw [(parseUintLoop_none_iff _ 0 (by norm_num)).2 hs] at hp
          exact Option.noConfusion hp
      rw [hp] at h
      rw [if_neg hns]
      dsimp only at h ⊢
      by_cases h1 : (splitSign s.data).1 = true
      · rw [if_pos h1] at h ⊢
        by_cases h2 : un.1 ≤ 2 ^ 63
        · rw [if_pos h2] at h
          exact Bool.noConfusion h
        · rw [if_neg h2, if_pos h1]
      · rw [if_neg h1] at h ⊢
        by_cases h2 : un.1 < 2 ^ 63
        · rw [if_pos h2] at h
          exact Bool.noConfusion h
        · rw [if_neg h2, if_neg h1]

/-- A sign followed by digits whose value is within `int64` is accepted by `Atoi`, with that
value. -/
theorem Atoi_of_decimal (s : String) (hne : (splitSign s.data).2 ≠ [])
    (hall : (splitSign s.data).2.all Char.isDigit = true)
    (hr : if (splitSign s.data).1 = true then digitsVal (splitSign s.data).2 ≤ 2 ^ 63
          else digitsVal (splitSign s.data).2 < 2 ^ 63) :
    Atoi s = (if (splitSign s.data).1 = true then -(digitsVal (splitSign s.data).2 : Int)
              else (digitsVal (splitSign s.data).2 : Int), true) := by
  have hfit : digitsVal (splitSign s.data).2 < 2 ^ 64 := by
    split at hr <;> omega
  have hp := parseUintLoop_fits (splitSign s.data).2 0 hall hfit
  unfold Atoi
  dsimp only
  rw [if_neg hne, hp]
  dsimp only
  by_cases h1 : (splitSign s.data).1 = true
  · rw [if_pos h1] at hr ⊢
    have hr2 : List.foldl (fun acc c => 10 * acc + (c.toNat - 48)) 0 (splitSign s.data).2
        ≤ 2 ^ 63 := hr
    rw [if_pos hr2, if_pos h1]
    rfl
  · rw [if_neg h1] at hr ⊢
    have hr2 : List.foldl (fun acc c => 10 * acc + (c.toNat - 48)) 0 (splitSign s.data).2
        < 2 ^ 63 := hr
    rw [if_pos hr2, if_neg h1]
    rfl

/-- A decimal numeral of an integer within `int64` is accepted by `Atoi`, with that integer. -/
theorem Atoi_of_decimalInt (s : String) (n : Int) (h : decimalInt s = some n)
    (hr : -(2 ^ 63) ≤ n ∧ n < 2 ^ 63) : Atoi s = (n, true) := by
  unfold decimalInt at h
  split at h
  · rename_i hd
    simp only [Option.some.injEq] at h
    rw [Atoi_of_decimal s hd.1 hd.2, h]
    by_cases h1 : (splitSign s.data).1 = true
    · rw [if_pos h1] at h ⊢
      omega
    · rw [if_neg h1] at h ⊢
      omega
  · exact Option.noConfusion h

theorem sqlNumber_of_Atoi (s : String) (n : Int) (h : Atoi s = (n, true)) : sqlNumber s = n := by
  obtain ⟨hne, hall, hn⟩ := Atoi_accepts s n h
  unfold sqlNumber
  cases hs : s.data with
  | nil => simp [hs, splitSign] at hne
  | cons c rest =>
    rw [hs] at hne hall hn
    by_cases h1 : c = '-'
    · subst h1
      simp only [splitSign, if_true] at hall hn
      have hw : ('-' :: rest).dropWhile Char.isWhitespace = '-' :: rest := by
        simp [List.dropWhile]
      rw [hw]
      simp only [splitSign, if_true]
      rw [takeWhile_all _ _ hall, hn]
    · by_cases h2 : c = '+'
      · subst h2
        simp only [splitSign, h1, if_false, if_true] at hall hn
        have hw : ('+' :: rest).dropWhile Char.isWhitespace = '+' :: rest := by
          simp [List.dropWhile]
        rw [hw]
        simp only [splitSign, h1, if_false, if_true]
        rw [takeWhile_all _ _ hall, hn]
      · simp only [splitSign, h1, h2, if_false] at hall hn
        have hd : c.isDigit = true := by
          simp only [List.all_cons, Bool.and_eq_true] at hall
          exact hall.1
        have hw : (c :: rest).dropWhile Char.isWhitespace = c :: rest := by
          simp [List.dropWhile, isDigit_not_whitespace c hd]
        rw [hw]
        simp only [splitSign, h1, h2, if_false]
        rw [takeWhile_all _ _ hall, hn]

/-! ## The statements of the book handlers, run on the store -/

theorem healthy_one (db : DB) : db.healthy 1 ↔ db.faults.head? ≠ some true := by
  unfold DB.healthy
  cases db.faults with
  | nil => simp
  | cons f fs => cases f <;> simp

theorem mapOpt_total {α β : Type} (f : α → Option β) (g : α → β) (h : ∀ a, f a = some (g a))
    (l : List α) : mapOpt f l = some (l.map g) := by
  induction l with
  | nil => rfl
  | cons a as ih => simp [mapOpt, ih, h]

theorem whereEq_books_id (p : Value) :
    whereEq bookOps .id p = fun r => sqlEq (.int r.id) p := by
  funext r
  simp [whereEq, bookOps, BookRow.get]

theorem run_insert_books (s : Store) (a b : String) (c : Int) :
    s.run (.insert .books [.title, .published_year, .isbn]) [.text a, .text b, .int c] =
      if s.books.rows.any (fun r => sqlEq (.int r.id) (.int s.books.autoInc)) = false then
        some ([], ⟨s.books.autoInc⟩,
          { s with books := { rows := s.books.rows ++ [⟨s.books.autoInc, a, b, c⟩],
                              autoInc := s.books.autoInc + 1 } })
      else none := by
  have hk : bookOps.key = .id := rfl
  simp only [Store.run, Stmt.table, Table.run, hk, whereEq_books_id]
  split
  · rename_i h
    rw [if_pos h.2.2]
    rfl
  · rename_i h
    rw [if_neg]
    · rfl
    · intro h2
      exact h ⟨by decide, by decide, h2⟩

theorem mapOpt_books (rows : List BookRow) :
    mapOpt (fun r => mapOpt (bookOps.get r) [.id, .title, .published_year, .isbn]) rows =
      some (rows.map fun r => [.int r.id, .text r.title, .text r.published_year, .int r.isbn]) :=
  mapOpt_total _ _ (fun _ => rfl) rows

theorem run_selectWhere_books (s : Store) (p : Value) :
    s.run (.selectWhere [.id, .title, .published_year, .isbn] .books .id) [p] =
      some ((s.books.rows.filter fun r => sqlEq (.int r.id) p).map
        (fun r => [.int r.id, .text r.title, .text r.published_year, .int r.isbn]), ⟨0⟩, s) := by
  simp only [Store.run, Stmt.table, Table.run, whereEq_books_id]
  rw [if_pos (by decide), mapOpt_books]
  rfl

theorem run_selectAll_books (s : Store) :
    s.run (.selectAll [.id, .title, .published_year, .isbn] .books) [] =
      some (s.books.rows.map
        (fun r => [.int r.id, .text r.title, .text r.published_year, .int r.isbn]), ⟨0⟩, s) := by
  simp only [Store.run, Stmt.table, Table.run]
  rw [if_pos ⟨by decide, trivial⟩, mapOpt_books]
  rfl

theorem run_update_books (s : Store) (a b : String) (c : Int) (p : Value) :
    s.run (.update .books [.title, .published_year, .isbn] .id) [.text a, .text b, .int c, p] =
      some ([], ⟨0⟩, { s with books := { s.books with rows := s.books.rows.map fun r =>
        if (sqlEq (Value.int r.id) p = true) then ⟨r.id, a, b, c⟩ else r } }) := by
  simp only [Store.run, Stmt.table, Table.run, whereEq_books_id]
  have hl : [Value.text a, .text b, .int c, p].getLast? = some p := by simp [List.getLast?]
  rw [hl]
  simp only []
  rw [if_pos ⟨by decide, rfl⟩,
    mapOpt_total _ (fun r => if (sqlEq (Value.int r.id) p = true) then ⟨r.id, a, b, c⟩ else r)]
  · rfl
  · intro r
    split <;> rfl

theorem run_delete_books (s : Store) (p : Value) :
    s.run (.delete .books .id) [p] =
      some ([], ⟨0⟩, { s with books := { s.books with rows := s.books.rows.filter fun r =>
        (! sqlEq (Value.int r.id) p) } }) := by
  simp only [Store.run, Stmt.table, Table.run, whereEq_books_id]
  rw [if_pos (by decide)]
  rfl

/-! ## Round trips to the store -/

theorem roundTrip_healthy (db : DB) (q : Stmt) (args : List Value) (h : db.healthy 1) :
    db.roundTrip q args =
      match db.store.run q args with
      | none => (none, db.sent q args)
      | some o => (some (o.1, o.2.1), { db.sent q args with store := o.2.2 }) := by
  unfold DB.roundTrip
  rw [if_neg ((healthy_one db).1 h)]

theorem roundTrip_some (db : DB) (q : Stmt) (args : List Value)
    (x : List (List Value) × Result) (h : (db.roundTrip q args).1 = some x) :
    db.healthy 1 ∧ ∃ s1, db.store.run q args = some (x.1, x.2, s1) ∧
      db.roundTrip q args = (some x, { db.sent q args with store := s1 }) := by
  unfold DB.roundTrip at h ⊢
  by_cases hf : db.faults.head? = some true
  · simp [hf] at h
  · refine ⟨(healthy_one db).2 hf, ?_⟩
    simp only [hf, if_false] at h ⊢
    cases hr : db.store.run q args with
    | none => simp [hr] at h
    | some o =>
      simp only [hr, Option.some.injEq] at h
      subst h
      exact ⟨o.2.2, rfl, rfl⟩

theorem Exec_some (db : DB) (q : Stmt) (args : List Value) (res : Result)
    (h : (db.Exec q args).1 = some res) :
    db.healthy 1 ∧ ∃ rows s1, db.store.run q args = some (rows, res, s1) ∧
      db.Exec q args = (some res, { db.sent q args with store := s1 }) := by
  unfold DB.Exec at h ⊢
  cases hx : (db.roundTrip q args).1 with
  | none => simp [hx] at h
  | some x =>
    simp only [hx, Option.map_some', Option.some.injEq] at h
    obtain ⟨hh, s1, hrun, hrt⟩ := roundTrip_some db q args x hx
    subst h
    exact ⟨hh, x.1, s1, hrun, by rw [hrt]; rfl⟩

theorem filter_append_new (rows : List BookRow) (x : BookRow) (p : BookRow → Bool)
    (hold : ∀ r ∈ rows, p r = false) (hx : p x = true) : (rows ++ [x]).filter p = [x] := by
  rw [List.filter_append, List.filter_eq_nil_iff.2 (fun r hr => by simp [hold r hr])]
  simp [List.filter, hx]


theorem createBook_spec (L : Lib) (w : ResponseWriter) (db : DB) (r : Request) (book : Book)
    (res : Result) (hauth : Authorized L r) (hdec : L.decodeBook r.Body = some book)
    (hins : (db.Exec (.insert .books [.title, .published_year, .isbn])
      [.text book.Title, .text book.PublishedYear, .int book.ISBN]).1 = some res) :
    res.LastInsertId = db.store.books.autoInc ∧
    (∀ row ∈ db.store.books.rows, row.id ≠ db.store.books.autoInc) ∧
    createBook L w r db =
      ((w.HeaderSet "Content-Type" "application/json").Encode
        (.obj [("id", .num db.store.books.autoInc), ("title", .str book.Title),
               ("published_year", .str book.PublishedYear), ("isbn", .num book.ISBN)]),
       { db.sent (.insert .books [.title, .published_year, .isbn])
          [.text book.Title, .text book.PublishedYear, .int book.ISBN] with
         store := { db.store with books :=
          { rows := db.store.books.rows ++
              [⟨db.store.books.autoInc, book.Title, book.PublishedYear, book.ISBN⟩],
            autoInc := db.store.books.autoInc + 1 } } }) := by
  obtain ⟨_, rows, s1, hrun, hexec⟩ := Exec_some db _ _ res hins
  rw [run_insert_books] at hrun
  split at hrun
  · rename_i hnodup
    simp only [Option.some.injEq, Prod.mk.injEq] at hrun
    obtain ⟨_, hres, hs1⟩ := hrun
    subst hres hs1
    refine ⟨rfl, ?_, ?_⟩
    · intro row hrow heq
      rw [List.any_eq_false] at hnodup
      exact hnodup row hrow (by simp [sqlEq, heq])
    · unfold createBook
      rw [validateToken_authorized L _ _ r db hauth]
      simp only [hdec, hexec]
      rfl
  · simp at hrun

theorem getBook_spec (L : Lib) (w : ResponseWriter) (db : DB) (r : Request)
    (hauth : Authorized L r) (hsel : db.healthy 1) :
    getBook L w r db =
      match (db.store.books.rows.filter fun row =>
          sqlEq (.int row.id) (.text (mapIndex r.Vars "id"))).head? with
      | none =>
        (w.WriteHeader StatusNotFound,
         db.sent (.selectWhere [.id, .title, .published_year, .isbn] .books .id)
          [.text (mapIndex r.Vars "id")])
      | some row =>
        ((w.HeaderSet "Content-Type" "application/json").Encode
          (.obj [("id", .num row.id), ("title", .str row.title),
                 ("published_year", .str row.published_year), ("isbn", .num row.isbn)]),
         db.sent (.selectWhere [.id, .title, .published_year, .isbn] .books .id)
          [.text (mapIndex r.Vars "id")]) := by
  unfold getBook
  rw [validateToken_authorized L _ _ r db hauth]
  unfold DB.QueryRow
  dsimp only
  rw [roundTrip_healthy _ _ _ hsel, run_selectWhere_books]
  cases hf : (db.store.books.rows.filter fun row =>
      sqlEq (.int row.id) (.text (mapIndex r.Vars "id"))) with
  | nil => rfl
  | cons row rest => rfl

/-! ## Claim C4 -/

/-- C4. For an authorized `POST /books` whose body decodes to a book (whatever id it carries),
when the `INSERT` succeeds `createBook` answers 200 with the submitted title, published_year
and isbn and with the id the store generated for the new row (the table's next key, which no
earlier row has), and the new row is appended to `books`.  An authorized `GET /books/{id}`
that follows, with a decimal numeral of that id in the path and no store error on its
`SELECT`, answers 200 with the same id, title, published_year and isbn. -/
theorem createBook_then_getBook (L : Lib) (db : DB) (r r2 : Request) (book : Book) (res : Result)
    (hauth : Authorized L r) (hdec : L.decodeBook r.Body = some book)
    (hins : (db.Exec (.insert .books [.title, .published_year, .isbn])
      [.text book.Title, .text book.PublishedYear, .int book.ISBN]).1 = some res)
    (hauth2 : Authorized L r2) (hid : (Atoi (mapIndex r2.Vars "id")) = (res.LastInsertId, true))
    (hsel : (createBook L newRecorder r db).2.healthy 1) :
    (createBook L newRecorder r db).1.Code = 200 ∧
    (createBook L newRecorder r db).1.Body =
      [.obj [("id", .num res.LastInsertId), ("title", .str book.Title),
             ("published_year", .str book.PublishedYear), ("isbn", .num book.ISBN)]] ∧
    res.LastInsertId = db.store.books.autoInc ∧
    (∀ row ∈ db.store.books.rows, row.id ≠ res.LastInsertId) ∧
    (createBook L newRecorder r db).2.store.books.rows = db.store.books.rows ++
      [⟨res.LastInsertId, book.Title, book.PublishedYear, book.ISBN⟩] ∧
    (getBook L newRecorder r2 (createBook L newRecorder r db).2).1.Code = 200 ∧
    (getBook L newRecorder r2 (createBook L newRecorder r db).2).1.Body =
      [.obj [("id", .num res.LastInsertId), ("title", .str book.Title),
             ("published_year", .str book.PublishedYear), ("isbn", .num book.ISBN)]] := by
  obtain ⟨hres, hfresh, hcreate⟩ := createBook_spec L newRecorder db r book res hauth hdec hins
  have hnum := sqlNumber_of_Atoi _ _ hid
  rw [hres] at hnum ⊢
  rw [getBook_spec L newRecorder _ r2 hauth2 hsel]
  rw [hcreate]
  dsimp only
  have hfilt : ((db.store.books.rows ++
      [(⟨db.store.books.autoInc, book.Title, book.PublishedYear, book.ISBN⟩ : BookRow)]).filter
        fun row => sqlEq (.int row.id) (.text (mapIndex r2.Vars "id")))
        = [⟨db.store.books.autoInc, book.Title, book.PublishedYear, book.ISBN⟩] := by
    apply filter_append_new
    · intro row hrow
      simp [sqlEq, hnum, hfresh row hrow]
    · simp [sqlEq, hnum]
  rw [hfilt]
  exact ⟨rfl, rfl, rfl, hfresh, rfl, rfl, rfl⟩

theorem createBook_then_getBook_witness :
    Authorized demoLib (demoRequest "" "test book") ∧
    demoLib.decodeBook (demoRequest "" "test book").Body
      = some ⟨77, "Test Book", "2023", 1234567890⟩ ∧
    (demoDB.Exec (.insert .books [.title, .published_year, .isbn])
      [.text "Test Book", .text "2023", .int 1234567890]).1 = some ⟨3⟩ ∧
    Authorized demoLib (demoRequest "3" "") ∧
    Atoi (mapIndex (demoRequest "3" "").Vars "id") = (3, true) ∧
    (createBook demoLib newRecorder (demoRequest "" "test book") demoDB).2.healthy 1 ∧
    (createBook demoLib newRecorder (demoRequest "" "test book") demoDB).1.Body =
      [.obj [("id", .num 3), ("title", .str "Test Book"), ("published_year", .str "2023"),
             ("isbn", .num 1234567890)]] ∧
    (getBook demoLib newRecorder (demoRequest "3" "")
      (createBook demoLib newRecorder (demoRequest "" "test book") demoDB).2).1.Body =
      [.obj [("id", .num 3), ("title", .str "Test Book"), ("published_year", .str "2023"),
             ("isbn", .num 1234567890)]] :=
  ⟨by decide, by decide, by decide, by decide, by decide, by decide,
   (createBook_then_getBook demoLib demoDB (demoRequest "" "test book") (demoRequest "3" "")
     ⟨77, "Test Book", "2023", 1234567890⟩ ⟨3⟩ (by decide) (by decide) (by decide) (by decide)
     (by decide) (by decide)).2.1,
   (createBook_then_getBook demoLib demoDB (demoRequest "" "test book") (demoRequest "3" "")
     ⟨77, "Test Book", "2023", 1234567890⟩ ⟨3⟩ (by decide) (by decide) (by decide) (by decide)
     (by decide) (by decide)).2.2.2.2.2.2⟩

/-! ## `getAuthor` and the existence checks of the join-table writers -/

theorem run_getAuthor_query (s : Store) (p : Value) :
    s.run (.selectWhere [.id, .name, .country] .books .id) [p] = none := by
  simp only [Store.run, Stmt.table, Table.run]
  rw [if_neg (by decide)]
  rfl

theorem roundTrip_run_none (db : DB) (q : Stmt) (args : List Value)
    (h : db.store.run q args = none) : db.roundTrip q args = (none, db.sent q args) := by
  unfold DB.roundTrip
  split
  · rfl
  · rw [h]

/-- Behind the gate `getAuthor` always answers 404: its query names columns `books` lacks. -/
theorem getAuthor_not_found (L : Lib) (w : ResponseWriter) (r : Request) (db : DB)
    (hauth : Authorized L r) :
    getAuthor L w r db =
      (w.WriteHeader StatusNotFound,
       db.sent (.selectWhere [.id, .name, .country] .books .id) [.text (mapIndex r.Vars "id")]) := by
  unfold getAuthor
  rw [validateToken_authorized L _ _ r db hauth]
  unfold DB.QueryRow
  dsimp only
  rw [roundTrip_run_none _ _ _ (run_getAuthor_query _ _)]
  rfl

theorem whereEq_authors_id (p : Value) :
    whereEq authorOps .id p = fun r => sqlEq (.int r.id) p := by
  funext r
  simp [whereEq, authorOps, AuthorRow.get]

theorem run_selectExists_authors (s : Store) (p : Value) :
    s.run (.selectExists .authors .id) [p] =
      some ([[.int (if (s.authors.rows.any fun r => sqlEq (Value.int r.id) p) = true then 1 else 0)]],
        ⟨0⟩, s) := by
  simp only [Store.run, Stmt.table, Table.run, whereEq_authors_id]
  rw [if_pos (by decide)]
  rfl

theorem run_selectExists_books (s : Store) (p : Value) :
    s.run (.selectExists .books .id) [p] =
      some ([[.int (if (s.books.rows.any fun r => sqlEq (Value.int r.id) p) = true then 1 else 0)]],
        ⟨0⟩, s) := by
  simp only [Store.run, Stmt.table, Table.run, whereEq_books_id]
  rw [if_pos (by decide)]
  rfl

theorem scanExists_flag (b : Bool) :
    scanExists [.int (if b = true then 1 else 0)] = some b := by
  cases b <;> simp [scanExists, scanBool]

theorem QueryRow_existsAuthor (db : DB) (a : Int) :
    db.QueryRow (.selectExists .authors .id) [.int a] =
      (if db.faults.head? = some true then none
       else some [.int (if (db.store.authors.rows.any fun r => decide (r.id = a)) = true
          then 1 else 0)],
       db.sent (.selectExists .authors .id) [.int a]) := by
  unfold DB.QueryRow DB.roundTrip
  split
  · rfl
  · rw [run_selectExists_authors]
    rfl

theorem QueryRow_existsBook (db : DB) (a : Int) :
    db.QueryRow (.selectExists .books .id) [.int a] =
      (if db.faults.head? = some true then none
       else some [.int (if (db.store.books.rows.any fun r => decide (r.id = a)) = true
          then 1 else 0)],
       db.sent (.selectExists .books .id) [.int a]) := by
  unfold DB.QueryRow DB.roundTrip
  split
  · rfl
  · rw [run_selectExists_books]
    rfl

/-- The two existence checks that precede a write to `author_books`, in normal form. -/
theorem checks_normal_form (w : ResponseWriter) (db : DB) (a b : Int)
    (k : DB → ResponseWriter × DB) :
    (match db.QueryRow (.selectExists .authors .id) [.int a] with
      | (row, db1) =>
        match row.bind scanExists with
        | none => (w.WriteHeader StatusInternalServerError, db1)
        | some authorExists =>
          if authorExists = false then
            ((w.WriteHeader StatusBadRequest).Encode
              (encodeStringMap [("error", "Author does not exist")]), db1)
          else
            match db1.QueryRow (.selectExists .books .id) [.int b] with
            | (row2, db2) =>
              match row2.bind scanExists with
              | none => (w.WriteHeader StatusInternalServerError, db2)
              | some bookExists =>
                if bookExists = false then
                  ((w.WriteHeader StatusBadRequest).Encode
                    (encodeStringMap [("error", "Book does not exist")]), db2)
                else k db2) =
    if db.faults.head? = some true then
      (w.WriteHeader StatusInternalServerError, db.sent (.selectExists .authors .id) [.int a])
    else if (db.store.authors.rows.any fun r => decide (r.id = a)) = false then
      ((w.WriteHeader StatusBadRequest).Encode
        (encodeStringMap [("error", "Author does not exist")]),
       db.sent (.selectExists .authors .id) [.int a])
    else if db.faults.tail.head? = some true then
      (w.WriteHeader StatusInternalServerError,
       (db.sent (.selectExists .authors .id) [.int a]).sent (.selectExists .books .id) [.int b])
    else if (db.store.books.rows.any fun r => decide (r.id = b)) = false then
      ((w.WriteHeader StatusBadRequest).Encode
        (encodeStringMap [("error", "Book does not exist")]),
       (db.sent (.selectExists .authors .id) [.int a]).sent (.selectExists .books .id) [.int b])
    else k ((db.sent (.selectExists .authors .id) [.int a]).sent
      (.selectExists .books .id) [.int b]) := by
  rw [QueryRow_existsAuthor]
  by_cases hf1 : db.faults.head? = some true
  · simp only [hf1, if_true]
    rfl
  · simp only [hf1, if_false, Option.some_bind, scanExists_flag]
    by_cases ha : (db.store.authors.rows.any fun r => decide (r.id = a)) = false
    · simp only [ha, if_true]
    · simp only [ha, if_false]
      rw [QueryRow_existsBook]
      have hf : (db.sent (.selectExists .authors .id) [.int a]).faults = db.faults.tail := rfl
      have hs : (db.sent (.selectExists .authors .id) [.int a]).store = db.store := rfl
      rw [hf, hs]
      by_cases hf2 : db.faults.tail.head? = some true
      · simp only [hf2, if_true]
        rfl
      · simp only [hf2, if_false, Option.some_bind, scanExists_flag]

theorem CreateAuthorBook_spec (L : Lib) (w : ResponseWriter) (r : Request) (db : DB)
    (ab : AuthorBook) (hauth : Authorized L r) (hdec : L.decodeAuthorBook r.Body = some ab) :
    CreateAuthorBook L w r db =
    if db.faults.head? = some true then
      (w.WriteHeader StatusInternalServerError,
       db.sent (.selectExists .authors .id) [.int ab.AuthorID])
    else if (db.store.authors.rows.any fun r => decide (r.id = ab.AuthorID)) = false then
      ((w.WriteHeader StatusBadRequest).Encode
        (encodeStringMap [("error", "Author does not exist")]),
       db.sent (.selectExists .authors .id) [.int ab.AuthorID])
    else if db.faults.tail.head? = some true then
      (w.WriteHeader StatusInternalServerError,
       (db.sent (.selectExists .authors .id) [.int ab.AuthorID]).sent
        (.selectExists .books .id) [.int ab.BookID])
    else if (db.store.books.rows.any fun r => decide (r.id = ab.BookID)) = false then
      ((w.WriteHeader StatusBadRequest).Encode
        (encodeStringMap [("error", "Book does not exist")]),
       (db.sent (.selectExists .authors .id) [.int ab.AuthorID]).sent
        (.selectExists .books .id) [.int ab.BookID])
    else
      match ((db.sent (.selectExists .authors .id) [.int ab.AuthorID]).sent
          (.selectExists .books .id) [.int ab.BookID]).Exec
          (.insert .author_books [.author_id, .book_id])
          [.int ab.AuthorID, .int ab.BookID] with
      | (none, db3) => (w.WriteHeader StatusInternalServerError, db3)
      | (some result, db3) =>
        ((w.HeaderSet "Content-Type" "application/json").Encode
          (.obj [("author_book_id", .num result.LastInsertId), ("author_id", .num ab.AuthorID),
                 ("book_id", .num ab.BookID)]), db3) := by
  unfold CreateAuthorBook
  rw [validateToken_authorized L _ _ r db hauth, hdec]
  exact checks_normal_form w db ab.AuthorID ab.BookID (fun db2 =>
    match db2.Exec (.insert .author_books [.author_id, .book_id])
        [.int ab.AuthorID, .int ab.BookID] with
    | (none, db3) => (w.WriteHeader StatusInternalServerError, db3)
    | (some result, db3) =>
      ((w.HeaderSet "Content-Type" "application/json").Encode
        (.obj [("author_book_id", .num result.LastInsertId), ("author_id", .num ab.AuthorID),
               ("book_id", .num ab.BookID)]), db3))

theorem UpdateAuthorBook_spec (L : Lib) (w : ResponseWriter) (r : Request) (db : DB)
    (ab : AuthorBook) (hauth : Authorized L r) (hdec : L.decodeAuthorBook r.Body = some ab) :
    UpdateAuthorBook L w r db =
    if db.faults.head? = some true then
      (w.WriteHeader StatusInternalServerError,
       db.sent (.selectExists .authors .id) [.int ab.AuthorID])
    else if (db.store.authors.rows.any fun r => decide (r.id = ab.AuthorID)) = false then
      ((w.WriteHeader StatusBadRequest).Encode
        (encodeStringMap [("error", "Author does not exist")]),
       db.sent (.selectExists .authors .id) [.int ab.AuthorID])
    else if db.faults.tail.head? = some true then
      (w.WriteHeader StatusInternalServerError,
       (db.sent (.selectExists .authors .id) [.int ab.AuthorID]).sent
        (.selectExists .books .id) [.int ab.BookID])
    else if (db.store.books.rows.any fun r => decide (r.id = ab.BookID)) = false then
      ((w.WriteHeader StatusBadRequest).Encode
        (encodeStringMap [("error", "Book does not exist")]),
       (db.sent (.selectExists .authors .id) [.int ab.AuthorID]).sent
        (.selectExists .books .id) [.int ab.BookID])
    else
      match ((db.sent (.selectExists .authors .id) [.int ab.AuthorID]).sent
          (.selectExists .books .id) [.int ab.BookID]).Exec
          (.update .author_books [.author_id, .book_id] .author_book_id)
          [.int ab.AuthorID, .int ab.BookID, .text (mapIndex r.Vars "id")] with
      | (none, db3) => (w.WriteHeader StatusInternalServerError, db3)
      | (some _, db3) =>
        ((w.HeaderSet "Content-Type" "application/json").Encode
          (.obj [("author_book_id", .num ((Atoi (mapIndex r.Vars "id")).1)),
                 ("author_id", .num ab.AuthorID), ("book_id", .num ab.BookID)]),
         db3) := by
  unfold UpdateAuthorBook
  rw [validateToken_authorized L _ _ r db hauth]
  dsimp only
  rw [hdec]
  exact checks_normal_form w db ab.AuthorID ab.BookID (fun db2 =>
    match db2.Exec (.update .author_books [.author_id, .book_id] .author_book_id)
        [.int ab.AuthorID, .int ab.BookID, .text (mapIndex r.Vars "id")] with
    | (none, db3) => (w.WriteHeader StatusInternalServerError, db3)
    | (some _, db3) =>
      ((w.HeaderSet "Content-Type" "application/json").Encode
        (.obj [("author_book_id", .num ((Atoi (mapIndex r.Vars "id")).1)),
               ("author_id", .num ab.AuthorID), ("book_id", .num ab.BookID)]),
       db3))

theorem healthy_two (db : DB) :
    db.healthy 2 ↔ db.faults.head? ≠ some true ∧ db.faults.tail.head? ≠ some true := by
  unfold DB.healthy
  cases db.faults with
  | nil => simp
  | cons f fs =>
    cases fs with
    | nil => cases f <;> simp
    | cons g gs => cases f <;> cases g <;> simp

theorem issued_sent (db : DB) (q : Stmt) (args : List Value) :
    issued db (db.sent q args) = [(q, args)] := by
  simp [issued, DB.sent]

theorem issued_sent_sent (db : DB) (q q2 : Stmt) (args args2 : List Value) :
    issued db ((db.sent q args).sent q2 args2) = [(q, args), (q2, args2)] := by
  simp [issued, DB.sent]

theorem any_id_false {ρ : Type} (rows : List ρ) (f : ρ → Int) (x : Int) :
    (rows.any fun r => decide (f r = x)) = false ↔ ∀ r ∈ rows, f r ≠ x := by
  simp [List.any_eq_false]

theorem any_id_true {ρ : Type} (rows : List ρ) (f : ρ → Int) (x : Int) :
    ¬ (rows.any fun r => decide (f r = x)) = false ↔ ∃ r ∈ rows, f r = x := by
  simp [List.any_eq_true]

/-- What follows from the normal form of the checks, whatever the write branch does. -/
theorem checks_consequences (w : ResponseWriter) (db : DB) (a b : Int)
    (fin out : ResponseWriter × DB) (hw : w = newRecorder)
    (hout : out =
      if db.faults.head? = some true then
        (w.WriteHeader StatusInternalServerError, db.sent (.selectExists .authors .id) [.int a])
      else if (db.store.authors.rows.any fun r => decide (r.id = a)) = false then
        ((w.WriteHeader StatusBadRequest).Encode
          (encodeStringMap [("error", "Author does not exist")]),
         db.sent (.selectExists .authors .id) [.int a])
      else if db.faults.tail.head? = some true then
        (w.WriteHeader StatusInternalServerError,
         (db.sent (.selectExists .authors .id) [.int a]).sent (.selectExists .books .id) [.int b])
      else if (db.store.books.rows.any fun r => decide (r.id = b)) = false then
        ((w.WriteHeader StatusBadRequest).Encode
          (encodeStringMap [("error", "Book does not exist")]),
         (db.sent (.selectExists .authors .id) [.int a]).sent (.selectExists .books .id) [.int b])
      else fin) :
    (db.healthy 1 → (∀ x ∈ db.store.authors.rows, x.id ≠ a) →
      out.1.Code = 400 ∧ out.1.Body = [.obj [("error", .str "Author does not exist")]] ∧
      out.2.store = db.store ∧
      issued db out.2 = [(.selectExists .authors .id, [.int a])]) ∧
    (db.healthy 2 → (∃ x ∈ db.store.authors.rows, x.id = a) →
      (∀ y ∈ db.store.books.rows, y.id ≠ b) →
      out.1.Code = 400 ∧ out.1.Body = [.obj [("error", .str "Book does not exist")]] ∧
      out.2.store = db.store ∧
      issued db out.2 =
        [(.selectExists .authors .id, [.int a]), (.selectExists .books .id, [.int b])]) ∧
    ((∃ qa ∈ issued db out.2, ∀ t k, qa.1 ≠ .selectExists t k) →
      (∃ x ∈ db.store.authors.rows, x.id = a) ∧ (∃ y ∈ db.store.books.rows, y.id = b)) ∧
    (out.2.store ≠ db.store →
      (∃ x ∈ db.store.authors.rows, x.id = a) ∧ (∃ y ∈ db.store.books.rows, y.id = b)) := by
  subst hw
  refine ⟨?_, ?_, ?_, ?_⟩
  · intro hh ha
    rw [healthy_one] at hh
    rw [hout, if_neg hh, if_pos ((any_id_false _ _ _).2 ha)]
    exact ⟨rfl, rfl, rfl, issued_sent _ _ _⟩
  · intro hh ha hb
    rw [healthy_two] at hh
    rw [hout, if_neg hh.1, if_neg ((any_id_true _ _ _).2 ha), if_neg hh.2,
      if_pos ((any_id_false _ _ _).2 hb)]
    exact ⟨rfl, rfl, rfl, issued_sent_sent _ _ _ _ _⟩
  · rintro ⟨qa, hqa, hne⟩
    by_cases h1 : db.faults.head? = some true
    · rw [hout, if_pos h1] at hqa
      simp only [issued_sent, List.mem_singleton] at hqa
      exact absurd (congrArg Prod.fst hqa) (hne _ _)
    · by_cases h2 : (db.store.authors.rows.any fun r => decide (r.id = a)) = false
      · rw [hout, if_neg h1, if_pos h2] at hqa
        simp only [issued_sent, List.mem_singleton] at hqa
        exact absurd (congrArg Prod.fst hqa) (hne _ _)
      · by_cases h3 : db.faults.tail.head? = some true
        · rw [hout, if_neg h1, if_neg h2, if_pos h3] at hqa
          simp only [issued_sent_sent, List.mem_cons, List.mem_singleton, List.not_mem_nil,
            or_false] at hqa
          rcases hqa with hqa | hqa <;> exact absurd (congrArg Prod.fst hqa) (hne _ _)
        · by_cases h4 : (db.store.books.rows.any fun r => decide (r.id = b)) = false
          · rw [hout, if_neg h1, if_neg h2, if_neg h3, if_pos h4] at hqa
            simp only [issued_sent_sent, List.mem_cons, List.mem_singleton, List.not_mem_nil,
              or_false] at hqa
            rcases hqa with hqa | hqa <;> exact absurd (congrArg Prod.fst hqa) (hne _ _)
          · exact ⟨(any_id_true _ _ _).1 h2, (any_id_true _ _ _).1 h4⟩
  · intro hne
    by_cases h1 : db.faults.head? = some true
    · rw [hout, if_pos h1] at hne
      exact absurd rfl hne
    · by_cases h2 : (db.store.authors.rows.any fun r => decide (r.id = a)) = false
      · rw [hout, if_neg h1, if_pos h2] at hne
        exact absurd rfl hne
      · by_cases h3 : db.faults.tail.head? = some true
        · rw [hout, if_neg h1, if_neg h2, if_pos h3] at hne
          exact absurd rfl hne
        · by_cases h4 : (db.store.books.rows.any fun r => decide (r.id = b)) = false
          · rw [hout, if_neg h1, if_neg h2, if_neg h3, if_pos h4] at hne
            exact absurd rfl hne
          · exact ⟨(any_id_true _ _ _).1 h2, (any_id_true _ _ _).1 h4⟩

/-! ## Claims C5 and C6 -/

/-- C5 (the code departs from it). On the example store an authorized `POST /authors` answers
200 with id 2 and appends that row to `authors`; the authorized `GET /authors/2` that follows,
with no store fault pending, answers 404 with an empty body: `getAuthor` selects `name` and
`country` from `books`, which has no such columns. -/
theorem createAuthor_then_getAuthor_not_found :
    (createAuthor demoLib newRecorder (demoRequest "" "john doe") demoDB).1.Code = 200 ∧
    (createAuthor demoLib newRecorder (demoRequest "" "john doe") demoDB).1.Body =
      [.obj [("id", .num 2), ("name", .str "John Doe"), ("country", .str "United States")]] ∧
    (createAuthor demoLib newRecorder (demoRequest "" "john doe") demoDB).2.store.authors.rows =
      [⟨1, "Frank Herbert", "United States"⟩, ⟨2, "John Doe", "United States"⟩] ∧
    (createAuthor demoLib newRecorder (demoRequest "" "john doe") demoDB).2.healthy 1 ∧
    Authorized demoLib (demoRequest "2" "") ∧
    (getAuthor demoLib newRecorder (demoRequest "2" "")
      (createAuthor demoLib newRecorder (demoRequest "" "john doe") demoDB).2).1.Code = 404 ∧
    (getAuthor demoLib newRecorder (demoRequest "2" "")
      (createAuthor demoLib newRecorder (demoRequest "" "john doe") demoDB).2).1.Body = [] := by
  decide

/-- C6. For an authorized `CreateAuthorBook` or `UpdateAuthorBook` request whose body decodes:
* if the existence query for the author runs without store error and no `authors` row has
  id = author_id, the answer is 400 with body `error: Author does not exist`, the tables are
  unchanged and that one `SELECT EXISTS` is the only statement issued;
* if both existence queries run without store error, an `authors` row has id = author_id and no
  `books` row has id = book_id, the answer is 400 with body `error: Book does not exist`, the
  tables are unchanged and the two `SELECT EXISTS` are the only statements issued;
* whenever a statement other than an existence query is issued (the `INSERT` or `UPDATE`), or
  the tables change at all, both referenced rows exist. -/
theorem authorBook_write_checks_references (L : Lib) (h : Lib → Handler)
    (hh : h = CreateAuthorBook ∨ h = UpdateAuthorBook) (r : Request) (db : DB) (ab : AuthorBook)
    (hauth : Authorized L r) (hdec : L.decodeAuthorBook r.Body = some ab) :
    (db.healthy 1 → (∀ x ∈ db.store.authors.rows, x.id ≠ ab.AuthorID) →
      (h L newRecorder r db).1.Code = 400 ∧
      (h L newRecorder r db).1.Body = [.obj [("error", .str "Author does not exist")]] ∧
      (h L newRecorder r db).2.store = db.store ∧
      issued db (h L newRecorder r db).2 = [(.selectExists .authors .id, [.int ab.AuthorID])]) ∧
    (db.healthy 2 → (∃ x ∈ db.store.authors.rows, x.id = ab.AuthorID) →
      (∀ y ∈ db.store.books.rows, y.id ≠ ab.BookID) →
      (h L newRecorder r db).1.Code = 400 ∧
      (h L newRecorder r db).1.Body = [.obj [("error", .str "Book does not exist")]] ∧
      (h L newRecorder r db).2.store = db.store ∧
      issued db (h L newRecorder r db).2 =
        [(.selectExists .authors .id, [.int ab.AuthorID]),
         (.selectExists .books .id, [.int ab.BookID])]) ∧
    ((∃ qa ∈ issued db (h L newRecorder r db).2, ∀ t k, qa.1 ≠ .selectExists t k) →
      (∃ x ∈ db.store.authors.rows, x.id = ab.AuthorID) ∧
      (∃ y ∈ db.store.books.rows, y.id = ab.BookID)) ∧
    ((h L newRecorder r db).2.store ≠ db.store →
      (∃ x ∈ db.store.authors.rows, x.id = ab.AuthorID) ∧
      (∃ y ∈ db.store.books.rows, y.id = ab.BookID)) := by
  rcases hh with rfl | rfl
  · exact checks_consequences newRecorder db ab.AuthorID ab.BookID _ _ rfl
      (CreateAuthorBook_spec L newRecorder r db ab hauth hdec)
  · exact checks_consequences newRecorder db ab.AuthorID ab.BookID _ _ rfl
      (UpdateAuthorBook_spec L newRecorder r db ab hauth hdec)

theorem authorBook_write_checks_references_witness :
    Authorized demoLib (demoRequest "1" "author 9 book 1") ∧
    demoLib.decodeAuthorBook (demoRequest "1" "author 9 book 1").Body = some ⟨0, 9, 1⟩ ∧
    demoDB.healthy 1 ∧ (∀ x ∈ demoDB.store.authors.rows, x.id ≠ 9) ∧
    ((UpdateAuthorBook demoLib newRecorder (demoRequest "1" "author 9 book 1") demoDB).1.Code
        = 400 ∧
      (UpdateAuthorBook demoLib newRecorder (demoRequest "1" "author 9 book 1") demoDB).1.Body
        = [.obj [("error", .str "Author does not exist")]] ∧
      (UpdateAuthorBook demoLib newRecorder (demoRequest "1" "author 9 book 1") demoDB).2.store
        = demoDB.store ∧
      issued demoDB
          (UpdateAuthorBook demoLib newRecorder (demoRequest "1" "author 9 book 1") demoDB).2
        = [(.selectExists .authors .id, [.int 9])]) ∧
    Authorized demoLib (demoRequest "" "author 1 book 9") ∧
    demoLib.decodeAuthorBook (demoRequest "" "author 1 book 9").Body = some ⟨0, 1, 9⟩ ∧
    demoDB.healthy 2 ∧ (∃ x ∈ demoDB.store.authors.rows, x.id = 1) ∧
    (∀ y ∈ demoDB.store.books.rows, y.id ≠ 9) ∧
    ((CreateAuthorBook demoLib newRecorder (demoRequest "" "author 1 book 9") demoDB).1.Code
        = 400 ∧
      (CreateAuthorBook demoLib newRecorder (demoRequest "" "author 1 book 9") demoDB).1.Body
        = [.obj [("error", .str "Book does not exist")]] ∧
      (CreateAuthorBook demoLib newRecorder (demoRequest "" "author 1 book 9") demoDB).2.store
        = demoDB.store ∧
      issued demoDB
          (CreateAuthorBook demoLib newRecorder (demoRequest "" "author 1 book 9") demoDB).2
        = [(.selectExists .authors .id, [.int 1]), (.selectExists .books .id, [.int 9])]) :=
  ⟨by decide, by decide, by decide, by decide,
   (authorBook_write_checks_references demoLib UpdateAuthorBook (Or.inr rfl)
     (demoRequest "1" "author 9 book 1") demoDB ⟨0, 9, 1⟩ (by decide) (by decide)).1
     (by decide) (by decide),
   by decide, by decide, by decide, by decide, by decide,
   (authorBook_write_checks_references demoLib CreateAuthorBook (Or.inl rfl)
     (demoRequest "" "author 1 book 9") demoDB ⟨0, 1, 9⟩ (by decide) (by decide)).2.1
     (by decide) (by decide) (by decide)⟩

/-! ## Claim C8: `updateBook` -/

theorem sqlEq_id_text (x : Int) (s : String) (n : Int) (h : Atoi s = (n, true)) :
    sqlEq (.int x) (.text s) = decide (x = n) := by
  simp [sqlEq, sqlNumber_of_Atoi s n h]

theorem updateBook_spec (L : Lib) (w : ResponseWriter) (db : DB) (r : Request) (book : Book)
    (res : Result) (hauth : Authorized L r) (hdec : L.decodeBook r.Body = some book)
    (hupd : (db.Exec (.update .books [.title, .published_year, .isbn] .id)
      [.text book.Title, .text book.PublishedYear, .int book.ISBN,
       .text (mapIndex r.Vars "id")]).1 = some res) :
    updateBook L w r db =
      ((w.HeaderSet "Content-Type" "application/json").Encode
        (.obj [("id", .num ((Atoi (mapIndex r.Vars "id")).1)), ("title", .str book.Title),
               ("published_year", .str book.PublishedYear), ("isbn", .num book.ISBN)]),
       { db.sent (.update .books [.title, .published_year, .isbn] .id)
          [.text book.Title, .text book.PublishedYear, .int book.ISBN,
           .text (mapIndex r.Vars "id")] with
         store := { db.store with books := { db.store.books with rows :=
          (db.store.books.rows.map fun row =>
            if (sqlEq (Value.int row.id) (.text (mapIndex r.Vars "id")) = true) then
              ⟨row.id, book.Title, book.PublishedYear, book.ISBN⟩
            else row) } } }) := by
  obtain ⟨_, rows, s1, hrun, hexec⟩ := Exec_some db _ _ res hupd
  rw [run_update_books] at hrun
  simp only [Option.some.injEq, Prod.mk.injEq] at hrun
  obtain ⟨_, _, hs1⟩ := hrun
  subst hs1
  unfold updateBook
  rw [validateToken_authorized L _ _ r db hauth]
  dsimp only
  rw [hdec]
  dsimp only
  rw [hexec]
  rfl

/-- C8 (counterexample). The path id `9223372036854775808` is a decimal integer, one past the
largest `int`.  An authorized `PUT /books/9223372036854775808` with a decodable body whose
`UPDATE` succeeds is answered with 200 and a book whose id is 9223372036854775807, not the id
of the path. -/
theorem updateBook_id_beyond_int_answers_max_int :
    Authorized demoLib (demoRequest "9223372036854775808" "updated book") ∧
    decimalInt (mapIndex (demoRequest "9223372036854775808" "updated book").Vars "id")
      = some 9223372036854775808 ∧
    demoLib.decodeBook (demoRequest "9223372036854775808" "updated book").Body
      = some ⟨77, "Updated Book", "2022", 9876543210⟩ ∧
    (demoDB.Exec (.update .books [.title, .published_year, .isbn] .id)
      [.text "Updated Book", .text "2022", .int 9876543210,
       .text (mapIndex (demoRequest "9223372036854775808" "updated book").Vars "id")]).1
      = some ⟨0⟩ ∧
    (updateBook demoLib newRecorder (demoRequest "9223372036854775808" "updated book")
      demoDB).1.Code = 200 ∧
    (updateBook demoLib newRecorder (demoRequest "9223372036854775808" "updated book")
      demoDB).1.Body =
      [.obj [("id", .num 9223372036854775807), ("title", .str "Updated Book"),
             ("published_year", .str "2022"), ("isbn", .num 9876543210)]] ∧
    (updateBook demoLib newRecorder (demoRequest "9223372036854775808" "updated book")
      demoDB).1.Body ≠
      [.obj [("id", .num 9223372036854775808), ("title", .str "Updated Book"),
             ("published_year", .str "2022"), ("isbn", .num 9876543210)]] := by
  decide

/-- C8 (amended). For an authorized `PUT /books/{id}` whose path id is a decimal numeral of an
integer `n` within the range of `int` (`-2^63 ≤ n < 2^63`) and whose body decodes, when the
`UPDATE` succeeds the answer is 200 with a book whose id is `n` (the id in the body plays no
part) and whose title, published_year and isbn are the submitted ones.  In `books`, every row
with id `n` now holds exactly the submitted values with id `n`, every other row is as before,
and the other tables are untouched; if no row had id `n` the store is unchanged and the answer
is the same 200. -/
theorem updateBook_replaces_row (L : Lib) (db : DB) (r : Request) (book : Book) (res : Result)
    (n : Int) (hauth : Authorized L r) (hdec : L.decodeBook r.Body = some book)
    (hid : decimalInt (mapIndex r.Vars "id") = some n)
    (hint : -(2 ^ 63) ≤ n ∧ n < 2 ^ 63)
    (hupd : (db.Exec (.update .books [.title, .published_year, .isbn] .id)
      [.text book.Title, .text book.PublishedYear, .int book.ISBN,
       .text (mapIndex r.Vars "id")]).1 = some res) :
    (updateBook L newRecorder r db).1.Code = 200 ∧
    (updateBook L newRecorder r db).1.Body =
      [.obj [("id", .num n), ("title", .str book.Title),
             ("published_year", .str book.PublishedYear), ("isbn", .num book.ISBN)]] ∧
    (updateBook L newRecorder r db).2.store.books.rows =
      (db.store.books.rows.map fun row =>
        if row.id = n then ⟨n, book.Title, book.PublishedYear, book.ISBN⟩ else row) ∧
    (updateBook L newRecorder r db).2.store.books.autoInc = db.store.books.autoInc ∧
    (updateBook L newRecorder r db).2.store.authors = db.store.authors ∧
    (updateBook L newRecorder r db).2.store.author_books = db.store.author_books ∧
    ((∀ row ∈ db.store.books.rows, row.id ≠ n) →
      (updateBook L newRecorder r db).2.store = db.store) := by
  have hatoi : Atoi (mapIndex r.Vars "id") = (n, true) := Atoi_of_decimalInt _ n hid hint
  rw [updateBook_spec L newRecorder db r book res hauth hdec hupd]
  have hmap : (db.store.books.rows.map fun row =>
        if (sqlEq (Value.int row.id) (.text (mapIndex r.Vars "id")) = true) then
          (⟨row.id, book.Title, book.PublishedYear, book.ISBN⟩ : BookRow)
        else row) =
      (db.store.books.rows.map fun row =>
        if row.id = n then ⟨n, book.Title, book.PublishedYear, book.ISBN⟩ else row) := by
    apply List.map_congr_left
    intro row _
    rw [sqlEq_id_text _ _ _ hatoi]
    by_cases h : row.id = n
    · simp [h]
    · simp [h]
  rw [hatoi]
  dsimp only
  rw [hmap]
  refine ⟨rfl, rfl, rfl, rfl, rfl, rfl, ?_⟩
  intro hno
  have hsame : (db.store.books.rows.map fun row =>
        if row.id = n then (⟨n, book.Title, book.PublishedYear, book.ISBN⟩ : BookRow)
        else row) = db.store.books.rows := by
    conv => rhs; rw [← List.map_id db.store.books.rows]
    apply List.map_congr_left
    intro row hrow
    simp [hno row hrow]
  rw [hsame]

theorem updateBook_replaces_row_witness :
    Authorized demoLib (demoRequest "2" "updated book") ∧
    demoLib.decodeBook (demoRequest "2" "updated book").Body
      = some ⟨77, "Updated Book", "2022", 9876543210⟩ ∧
    decimalInt (mapIndex (demoRequest "2" "updated book").Vars "id") = some 2 ∧
    (-(2 ^ 63) ≤ (2 : Int) ∧ (2 : Int) < 2 ^ 63) ∧
    (demoDB.Exec (.update .books [.title, .published_year, .isbn] .id)
      [.text "Updated Book", .text "2022", .int 9876543210,
       .text (mapIndex (demoRequest "2" "updated book").Vars "id")]).1 = some ⟨0⟩ ∧
    (updateBook demoLib newRecorder (demoRequest "2" "updated book") demoDB).1.Body =
      [.obj [("id", .num 2), ("title", .str "Updated Book"), ("published_year", .str "2022"),
             ("isbn", .num 9876543210)]] ∧
    (updateBook demoLib newRecorder (demoRequest "2" "updated book") demoDB).2.store.books.rows =
      [⟨1, "Dune", "1965", 441172717⟩, ⟨2, "Updated Book", "2022", 9876543210⟩] :=
  ⟨by decide, by decide, by decide, by decide, by decide,
   (updateBook_replaces_row demoLib demoDB (demoRequest "2" "updated book")
     ⟨77, "Updated Book", "2022", 9876543210⟩ ⟨0⟩ 2 (by decide) (by decide) (by decide)
     (by decide) (by decide)).2.1,
   by decide⟩


/-! ## Claim C9: the three `DELETE` handlers -/

theorem whereEq_authorBooks_id (p : Value) :
    whereEq authorBookOps .author_book_id p = fun r => sqlEq (.int r.author_book_id) p := by
  funext r
  simp [whereEq, authorBookOps, AuthorBookRow.get]

theorem run_delete_authors (s : Store) (p : Value) :
    s.run (.delete .authors .id) [p] =
      some ([], ⟨0⟩, { s with authors := { s.authors with rows := s.authors.rows.filter fun r =>
        (! sqlEq (Value.int r.id) p) } }) := by
  simp only [Store.run, Stmt.table, Table.run, whereEq_authors_id]
  rw [if_pos (by decide)]
  rfl

theorem run_delete_authorBooks (s : Store) (p : Value) :
    s.run (.delete .author_books .author_book_id) [p] =
      some ([], ⟨0⟩, { s with author_books := { s.author_books with
        rows := s.author_books.rows.filter fun r => (! sqlEq (Value.int r.author_book_id) p) } }) := by
  simp only [Store.run, Stmt.table, Table.run, whereEq_authorBooks_id]
  rw [if_pos (by decide)]
  rfl

theorem filter_not_id {ρ : Type} (rows : List ρ) (f : ρ → Int) (s : String) (n : Int)
    (h : Atoi s = (n, true)) :
    (rows.filter fun r => (! sqlEq (Value.int (f r)) (.text s))) =
      rows.filter fun r => decide (f r ≠ n) := by
  apply List.filter_congr
  intro r _
  rw [sqlEq_id_text _ _ _ h]
  by_cases hr : f r = n <;> simp [hr]

theorem filter_filter_same {ρ : Type} (rows : List ρ) (p : ρ → Bool) :
    (rows.filter p).filter p = rows.filter p := by
  rw [List.filter_filter]
  apply List.filter_congr
  intro r _
  simp

theorem deleteBook_spec (L : Lib) (w : ResponseWriter) (db : DB) (r : Request) (res : Result)
    (hauth : Authorized L r)
    (hdel : (db.Exec (.delete .books .id) [.text (mapIndex r.Vars "id")]).1 = some res) :
    deleteBook L w r db =
      (w.WriteHeader StatusNoContent,
       { db.sent (.delete .books .id) [.text (mapIndex r.Vars "id")] with
         store := { db.store with books := { db.store.books with rows :=
          (db.store.books.rows.filter fun row =>
            (! sqlEq (Value.int row.id) (.text (mapIndex r.Vars "id")))) } } }) := by
  obtain ⟨_, rows, s1, hrun, hexec⟩ := Exec_some db _ _ res hdel
  rw [run_delete_books] at hrun
  simp only [Option.some.injEq, Prod.mk.injEq] at hrun
  obtain ⟨_, _, hs1⟩ := hrun
  subst hs1
  unfold deleteBook
  rw [validateToken_authorized L _ _ r db hauth]
  dsimp only
  rw [hexec]

theorem deleteAuthor_spec (L : Lib) (w : ResponseWriter) (db : DB) (r : Request) (res : Result)
    (hauth : Authorized L r)
    (hdel : (db.Exec (.delete .authors .id) [.text (mapIndex r.Vars "id")]).1 = some res) :
    deleteAuthor L w r db =
      (w.WriteHeader StatusNoContent,
       { db.sent (.delete .authors .id) [.text (mapIndex r.Vars "id")] with
         store := { db.store with authors := { db.store.authors with rows :=
          (db.store.authors.rows.filter fun row =>
            (! sqlEq (Value.int row.id) (.text (mapIndex r.Vars "id")))) } } }) := by
  obtain ⟨_, rows, s1, hrun, hexec⟩ := Exec_some db _ _ res hdel
  rw [run_delete_authors] at hrun
  simp only [Option.some.injEq, Prod.mk.injEq] at hrun
  obtain ⟨_, _, hs1⟩ := hrun
  subst hs1
  unfold deleteAuthor
  rw [validateToken_authorized L _ _ r db hauth]
  dsimp only
  rw [hexec]

theorem DeleteAuthorBook_spec (L : Lib) (w : ResponseWriter) (db : DB) (r : Request)
    (res : Result) (hauth : Authorized L r)
    (hdel : (db.Exec (.delete .author_books .author_book_id)
      [.text (mapIndex r.Vars "id")]).1 = some res) :
    DeleteAuthorBook L w r db =
      (w.WriteHeader StatusNoContent,
       { db.sent (.delete .author_books .author_book_id) [.text (mapIndex r.Vars "id")] with
         store := { db.store with author_books := { db.store.author_books with rows :=
          (db.store.author_books.rows.filter fun row =>
            (! sqlEq (Value.int row.author_book_id) (.text (mapIndex r.Vars "id")))) } } }) := by
  obtain ⟨_, rows, s1, hrun, hexec⟩ := Exec_some db _ _ res hdel
  rw [run_delete_authorBooks] at hrun
  simp only [Option.some.injEq, Prod.mk.injEq] at hrun
  obtain ⟨_, _, hs1⟩ := hrun
  subst hs1
  unfold DeleteAuthorBook
  rw [validateToken_authorized L _ _ r db hauth]
  dsimp only
  rw [hexec]

/-- C9. For each of `deleteBook`, `deleteAuthor` and `DeleteAuthorBook` and an authorized
`DELETE` whose path id is a decimal numeral of `n`: when the `DELETE` statement runs without a
store error the answer is 204 with an empty body, whether or not a row with id `n` existed;
the table then holds exactly its former rows whose id is not `n` (so none with id `n`), and the
rest of the store is as before.  Repeating the request, when its statement again runs without
error, gives 204 again and leaves the store as it is. -/
theorem delete_answers_no_content (L : Lib) (db : DB) (r : Request) (n : Int)
    (hauth : Authorized L r) (hid : Atoi (mapIndex r.Vars "id") = (n, true)) :
    (∀ res, (db.Exec (.delete .books .id) [.text (mapIndex r.Vars "id")]).1 = some res →
      (deleteBook L newRecorder r db).1.Code = 204 ∧
      (deleteBook L newRecorder r db).1.Body = [] ∧
      (deleteBook L newRecorder r db).2.store =
        { db.store with books := { db.store.books with
            rows := db.store.books.rows.filter fun row => decide (row.id ≠ n) } } ∧
      (∀ row ∈ (deleteBook L newRecorder r db).2.store.books.rows, row.id ≠ n) ∧
      (∀ res2, ((deleteBook L newRecorder r db).2.Exec (.delete .books .id)
          [.text (mapIndex r.Vars "id")]).1 = some res2 →
        (deleteBook L newRecorder r (deleteBook L newRecorder r db).2).1.Code = 204 ∧
        (deleteBook L newRecorder r (deleteBook L newRecorder r db).2).2.store =
          (deleteBook L newRecorder r db).2.store)) ∧
    (∀ res, (db.Exec (.delete .authors .id) [.text (mapIndex r.Vars "id")]).1 = some res →
      (deleteAuthor L newRecorder r db).1.Code = 204 ∧
      (deleteAuthor L newRecorder r db).1.Body = [] ∧
      (deleteAuthor L newRecorder r db).2.store =
        { db.store with authors := { db.store.authors with
            rows := db.store.authors.rows.filter fun row => decide (row.id ≠ n) } } ∧
      (∀ row ∈ (deleteAuthor L newRecorder r db).2.store.authors.rows, row.id ≠ n) ∧
      (∀ res2, ((deleteAuthor L newRecorder r db).2.Exec (.delete .authors .id)
          [.text (mapIndex r.Vars "id")]).1 = some res2 →
        (deleteAuthor L newRecorder r (deleteAuthor L newRecorder r db).2).1.Code = 204 ∧
        (deleteAuthor L newRecorder r (deleteAuthor L newRecorder r db).2).2.store =
          (deleteAuthor L newRecorder r db).2.store)) ∧
    (∀ res, (db.Exec (.delete .author_books .author_book_id)
        [.text (mapIndex r.Vars "id")]).1 = some res →
      (DeleteAuthorBook L newRecorder r db).1.Code = 204 ∧
      (DeleteAuthorBook L newRecorder r db).1.Body = [] ∧
      (DeleteAuthorBook L newRecorder r db).2.store =
        { db.store with author_books := { db.store.author_books with
            rows := db.store.author_books.rows.filter fun row =>
              decide (row.author_book_id ≠ n) } } ∧
      (∀ row ∈ (DeleteAuthorBook L newRecorder r db).2.store.author_books.rows,
        row.author_book_id ≠ n) ∧
      (∀ res2, ((DeleteAuthorBook L newRecorder r db).2.Exec
          (.delete .author_books .author_book_id) [.text (mapIndex r.Vars "id")]).1 = some res2 →
        (DeleteAuthorBook L newRecorder r (DeleteAuthorBook L newRecorder r db).2).1.Code = 204 ∧
        (DeleteAuthorBook L newRecorder r (DeleteAuthorBook L newRecorder r db).2).2.store =
          (DeleteAuthorBook L newRecorder r db).2.store)) := by
  refine ⟨?_, ?_, ?_⟩
  · intro res hdel
    have h1 := deleteBook_spec L newRecorder db r res hauth hdel
    rw [filter_not_id _ (fun row : BookRow => row.id) _ n hid] at h1
    refine ⟨by rw [h1]; rfl, by rw [h1]; rfl, by rw [h1], ?_, ?_⟩
    · rw [h1]
      intro row hrow
      simpa using (List.mem_filter.1 hrow).2
    · intro res2 hdel2
      have h2 := deleteBook_spec L newRecorder _ r res2 hauth hdel2
      rw [filter_not_id _ (fun row : BookRow => row.id) _ n hid] at h2
      rw [h2]
      refine ⟨rfl, ?_⟩
      rw [h1]
      dsimp only
      rw [filter_filter_same]
  · intro res hdel
    have h1 := deleteAuthor_spec L newRecorder db r res hauth hdel
    rw [filter_not_id _ (fun row : AuthorRow => row.id) _ n hid] at h1
    refine ⟨by rw [h1]; rfl, by rw [h1]; rfl, by rw [h1], ?_, ?_⟩
    · rw [h1]
      intro row hrow
      simpa using (List.mem_filter.1 hrow).2
    · intro res2 hdel2
      have h2 := deleteAuthor_spec L newRecorder _ r res2 hauth hdel2
      rw [filter_not_id _ (fun row : AuthorRow => row.id) _ n hid] at h2
      rw [h2]
      refine ⟨rfl, ?_⟩
      rw [h1]
      dsimp only
      rw [filter_filter_same]
  · intro res hdel
    have h1 := DeleteAuthorBook_spec L newRecorder db r res hauth hdel
    rw [filter_not_id _ (fun row : AuthorBookRow => row.author_book_id) _ n hid] at h1
    refine ⟨by rw [h1]; rfl, by rw [h1]; rfl, by rw [h1], ?_, ?_⟩
    · rw [h1]
      intro row hrow
      simpa using (List.mem_filter.1 hrow).2
    · intro res2 hdel2
      have h2 := DeleteAuthorBook_spec L newRecorder _ r res2 hauth hdel2
      rw [filter_not_id _ (fun row : AuthorBookRow => row.author_book_id) _ n hid] at h2
      rw [h2]
      refine ⟨rfl, ?_⟩
      rw [h1]
      dsimp only
      rw [filter_filter_same]

theorem delete_answers_no_content_witness :
    Authorized demoLib (demoRequest "1" "") ∧
    Atoi (mapIndex (demoRequest "1" "").Vars "id") = (1, true) ∧
    (demoDB.Exec (.delete .books .id) [.text (mapIndex (demoRequest "1" "").Vars "id")]).1
      = some ⟨0⟩ ∧
    (deleteBook demoLib newRecorder (demoRequest "1" "") demoDB).1.Code = 204 ∧
    (deleteBook demoLib newRecorder (demoRequest "1" "") demoDB).1.Body = [] :=
  ⟨by decide, by decide, by decide,
   ((delete_answers_no_content demoLib demoDB (demoRequest "1" "") 1 (by decide)
     (by decide)).1 ⟨0⟩ (by decide)).1,
   ((delete_answers_no_content demoLib demoDB (demoRequest "1" "") 1 (by decide)
     (by decide)).1 ⟨0⟩ (by decide)).2.1⟩


/-! ## Claim C10: `getAllBooks` -/

theorem scanBooks_rows (rows : List BookRow) (acc : List Book) :
    scanBooks (rows.map fun r => [.int r.id, .text r.title, .text r.published_year, .int r.isbn])
        (some acc) =
      some (some (acc ++ rows.map fun r => ⟨r.id, r.title, r.published_year, r.isbn⟩)) := by
  induction rows generalizing acc with
  | nil => simp [scanBooks]
  | cons r rs ih =>
    simp only [List.map_cons, scanBooks, scanBook, scanInt, scanString, sliceAppend]
    rw [ih]
    simp

theorem Query_eq (db : DB) (q : Stmt) (args : List Value) :
    db.Query q args =
      match (db.roundTrip q args).1 with
      | none => (none, (db.roundTrip q args).2)
      | some o =>
        (some (fetchRows o.1 (db.roundTrip q args).2.faults).1,
         { (db.roundTrip q args).2 with
           faults := (fetchRows o.1 (db.roundTrip q args).2.faults).2 }) := by
  unfold DB.Query
  rcases db.roundTrip q args with ⟨_ | o, db1⟩ <;> rfl

theorem Query_store (db : DB) (q : Stmt) (args : List Value) :
    (db.Query q args).2.store = (db.roundTrip q args).2.store := by
  rw [Query_eq]
  cases (db.roundTrip q args).1 <;> rfl

theorem Query_run_none (db : DB) (q : Stmt) (args : List Value)
    (h : db.store.run q args = none) : db.Query q args = (none, db.sent q args) := by
  rw [Query_eq, roundTrip_run_none db q args h]

theorem Query_some (db : DB) (q : Stmt) (args : List Value) (rows : Rows)
    (h : (db.Query q args).1 = some rows) :
    ∃ out res s1, db.store.run q args = some (out, res, s1) ∧
      rows = (fetchRows out db.faults.tail).1 ∧
      db.Query q args =
        (some rows, { store := s1, faults := (fetchRows out db.faults.tail).2,
                      log := db.log ++ [(q, args)] }) := by
  rw [Query_eq] at h ⊢
  cases hx : (db.roundTrip q args).1 with
  | none => simp [hx] at h
  | some x =>
    obtain ⟨_, s1, hrun, hrt⟩ := roundTrip_some db q args x hx
    rw [hx] at h
    rw [hrt] at h ⊢
    simp only [Option.some.injEq] at h
    exact ⟨x.1, x.2, s1, hrun, h.symm, by rw [← h]; rfl⟩

/-- The rows a cursor delivers are the first rows of the result set. -/
theorem fetchRows_take (out : List (List Value)) (fs : List Bool) :
    (fetchRows out fs).1.delivered = out.take (fetchRows out fs).1.delivered.length := by
  induction out generalizing fs with
  | nil => rfl
  | cons row rest ih =>
    unfold fetchRows
    by_cases hf : fs.head? = some true
    · rw [if_pos hf]
      rfl
    · rw [if_neg hf]
      exact congrArg (List.cons row) (ih fs.tail)

/-- A cursor that ends without a driver error has delivered the whole result set. -/
theorem fetchRows_complete (out : List (List Value)) (fs : List Bool)
    (h : (fetchRows out fs).1.Err = false) : (fetchRows out fs).1.delivered = out := by
  induction out generalizing fs with
  | nil => rfl
  | cons row rest ih =>
    unfold fetchRows at h ⊢
    by_cases hf : fs.head? = some true
    · rw [if_pos hf] at h
      exact Bool.noConfusion h
    · rw [if_neg hf] at h ⊢
      exact congrArg (List.cons row) (ih fs.tail h)

/-- No fault among the coming row fetches: the cursor delivers the whole result set and ends
without a driver error. -/
theorem fetchRows_healthy (out : List (List Value)) (fs : List Bool)
    (h : ∀ f ∈ fs.take out.length, f = false) : (fetchRows out fs).1 = ⟨out, false⟩ := by
  induction out generalizing fs with
  | nil => rfl
  | cons row rest ih =>
    unfold fetchRows
    cases fs with
    | nil =>
      rw [if_neg (by simp)]
      have h2 := ih [] (by simp)
      simp only [List.tail_nil, h2]
    | cons f fs1 =>
      have hf : f = false := h f (by simp)
      subst hf
      rw [if_neg (by simp)]
      have h2 := ih fs1 (fun g hg => h g (by simp [hg]))
      simp only [List.tail_cons, h2]

/-- On a connection with no fault pending for the statement and for the fetch of each row of
its result set, the cursor of a query delivers the whole result set and ends without a driver
error. -/
theorem Query_healthy (db : DB) (q : Stmt) (args : List Value) (rows : Rows)
    (out : List (List Value)) (res : Result) (s1 : Store)
    (hrun : db.store.run q args = some (out, res, s1))
    (hq : (db.Query q args).1 = some rows) (hh : db.healthy (out.length + 1)) :
    rows = ⟨out, false⟩ := by
  obtain ⟨out2, res2, s2, hrun2, hrows, _⟩ := Query_some db q args rows hq
  rw [hrun] at hrun2
  simp only [Option.some.injEq, Prod.mk.injEq] at hrun2
  rw [hrows, ← hrun2.1]
  apply fetchRows_healthy
  intro f hf
  apply hh f
  cases hfs : db.faults with
  | nil => simp [hfs] at hf
  | cons a t =>
    rw [hfs] at hf
    simp only [List.tail_cons] at hf
    simp [List.take_succ_cons, hf]

/-- What `getAllBooks` does behind the gate once its query has succeeded: the cursor delivers
the first rows of `books`, every scan succeeds, and the answer is 200 with one book per
delivered row. -/
theorem getAllBooks_spec (L : Lib) (w : ResponseWriter) (db : DB) (r : Request) (rows : Rows)
    (hauth : Authorized L r)
    (hq : (db.Query (.selectAll [.id, .title, .published_year, .isbn] .books) []).1
      = some rows) :
    rows.delivered = ((db.store.books.rows.take rows.delivered.length).map fun row =>
      [.int row.id, .text row.title, .text row.published_year, .int row.isbn]) ∧
    (rows.Err = false → rows.delivered.length = db.store.books.rows.length) ∧
    (getAllBooks L w r db).1 =
      (w.HeaderSet "Content-Type" "application/json").Encode
        (.arr ((db.store.books.rows.take rows.delivered.length).map fun row =>
          [("id", .num row.id), ("title", .str row.title),
           ("published_year", .str row.published_year), ("isbn", .num row.isbn)])) ∧
    (getAllBooks L w r db).2.store = db.store := by
  obtain ⟨out, res, s1, hrun, hrows, hquery⟩ := Query_some db _ _ rows hq
  rw [run_selectAll_books] at hrun
  simp only [Option.some.injEq, Prod.mk.injEq] at hrun
  obtain ⟨hout, _, hs1⟩ := hrun
  subst hs1
  have htake := fetchRows_take out db.faults.tail
  rw [← hrows] at htake
  have hcomplete : rows.Err = false → rows.delivered.length = db.store.books.rows.length := by
    intro herr
    rw [hrows] at herr
    have h2 := fetchRows_complete out db.faults.tail herr
    rw [← hrows] at h2
    rw [h2, ← hout, List.length_map]
  obtain ⟨k, hk⟩ : ∃ k, k = rows.delivered.length := ⟨_, rfl⟩
  rw [← hk] at htake ⊢
  have hdel : rows.delivered = ((db.store.books.rows.take k).map fun row =>
      [.int row.id, .text row.title, .text row.published_year, .int row.isbn]) := by
    rw [htake, ← hout, List.map_take]
  refine ⟨hdel, ?_, ?_, ?_⟩
  · intro herr
    rw [hk]
    exact hcomplete herr
  · unfold getAllBooks
    rw [validateToken_authorized L _ _ r db hauth, hquery]
    dsimp only
    rw [hdel, scanBooks_rows]
    simp only [List.nil_append, encodeSlice, List.map_map]
    rfl
  · unfold getAllBooks
    rw [validateToken_authorized L _ _ r db hauth, hquery]
    dsimp only
    rw [hdel, scanBooks_rows]

/-- C10 (counterexample). The example store holds two books. On a connection that carries the
statement and the first row fetch and breaks at the second, an authorized `GET /books` finds
its query succeeding (`err == nil`) and the scan of the one row delivered succeeding, and is
answered with 200 and an array of that one book: the second row of the table is missing from a
response that reports success. -/
theorem getAllBooks_partial_list_on_stream_error :
    Authorized demoLib (demoRequest "" "") ∧
    demoDBBrokenStream.store.books.rows =
      [⟨1, "Dune", "1965", 441172717⟩, ⟨2, "Emma", "1815", 141439587⟩] ∧
    (demoDBBrokenStream.Query (.selectAll [.id, .title, .published_year, .isbn] .books) []).1 =
      some ⟨[[.int 1, .text "Dune", .text "1965", .int 441172717]], true⟩ ∧
    scanBook [.int 1, .text "Dune", .text "1965", .int 441172717] =
      some ⟨1, "Dune", "1965", 441172717⟩ ∧
    (getAllBooks demoLib newRecorder (demoRequest "" "") demoDBBrokenStream).1.Code = 200 ∧
    (getAllBooks demoLib newRecorder (demoRequest "" "") demoDBBrokenStream).1.Body =
      [.arr [[("id", .num 1), ("title", .str "Dune"), ("published_year", .str "1965"),
              ("isbn", .num 441172717)]]] ∧
    (getAllBooks demoLib newRecorder (demoRequest "" "") demoDBBrokenStream).1.Body ≠
      [.arr [[("id", .num 1), ("title", .str "Dune"), ("published_year", .str "1965"),
              ("isbn", .num 441172717)],
             [("id", .num 2), ("title", .str "Emma"), ("published_year", .str "1815"),
              ("isbn", .num 141439587)]]] := by
  decide

/-- C10 (amended). For an authorized `GET /books` whose query succeeds, the cursor delivers the
first rows of `books` in table order, every row scan succeeds and `getAllBooks` answers 200
with one JSON array holding one book per delivered row, in that order, each with that row's id,
title, published_year and isbn.  When no driver error ends the row iteration (`rows.Err()`,
which the handler never reads, is nil) these are all the rows of the table, and that is so
whenever no fault is pending for the statement and the fetch of each row; for an empty table the
body is the empty array, and the body is never `null`.  The tables are untouched. -/
theorem getAllBooks_lists_rows_read (L : Lib) (db : DB) (r : Request) (rows : Rows)
    (hauth : Authorized L r)
    (hq : (db.Query (.selectAll [.id, .title, .published_year, .isbn] .books) []).1
      = some rows) :
    rows.delivered = ((db.store.books.rows.take rows.delivered.length).map fun row =>
      [.int row.id, .text row.title, .text row.published_year, .int row.isbn]) ∧
    (getAllBooks L newRecorder r db).1.Code = 200 ∧
    (getAllBooks L newRecorder r db).1.Body =
      [.arr ((db.store.books.rows.take rows.delivered.length).map fun row =>
        [("id", .num row.id), ("title", .str row.title),
         ("published_year", .str row.published_year), ("isbn", .num row.isbn)])] ∧
    (rows.Err = false →
      rows.delivered = (db.store.books.rows.map fun row =>
        [.int row.id, .text row.title, .text row.published_year, .int row.isbn]) ∧
      (getAllBooks L newRecorder r db).1.Body =
        [.arr (db.store.books.rows.map fun row =>
          [("id", .num row.id), ("title", .str row.title),
           ("published_year", .str row.published_year), ("isbn", .num row.isbn)])]) ∧
    (db.healthy (db.store.books.rows.length + 1) → rows.Err = false) ∧
    (db.store.books.rows = [] → (getAllBooks L newRecorder r db).1.Body = [.arr []]) ∧
    (getAllBooks L newRecorder r db).1.Body ≠ [.null] ∧
    (getAllBooks L newRecorder r db).2.store = db.store := by
  obtain ⟨hdel, hall, hget, hstore⟩ := getAllBooks_spec L newRecorder db r rows hauth hq
  rw [hget]
  refine ⟨hdel, rfl, rfl, ?_, ?_, ?_, ?_, hstore⟩
  · intro herr
    have hlen := hall herr
    rw [hlen, List.take_length] at hdel
    refine ⟨hdel, ?_⟩
    rw [hlen, List.take_length]
    rfl
  · intro hh
    have hrows := Query_healthy db _ _ rows _ _ _ (run_selectAll_books db.store) hq
      (by rw [List.length_map]; exact hh)
    rw [hrows]
  · intro hempty
    rw [hempty, List.take_nil]
    rfl
  · intro h
    have h2 : [JSON.arr ((db.store.books.rows.take rows.delivered.length).map fun row =>
        [("id", JVal.num row.id), ("title", JVal.str row.title),
         ("published_year", JVal.str row.published_year), ("isbn", JVal.num row.isbn)])]
        = [JSON.null] := h
    simp at h2

theorem getAllBooks_lists_rows_read_witness :
    Authorized demoLib (demoRequest "" "") ∧
    (demoDB.Query (.selectAll [.id, .title, .published_year, .isbn] .books) []).1 =
      some ⟨[[.int 1, .text "Dune", .text "1965", .int 441172717],
             [.int 2, .text "Emma", .text "1815", .int 141439587]], false⟩ ∧
    (getAllBooks demoLib newRecorder (demoRequest "" "") demoDB).1.Code = 200 ∧
    (getAllBooks demoLib newRecorder (demoRequest "" "") demoDB).1.Body =
      [.arr (demoDB.store.books.rows.map fun row =>
        [("id", .num row.id), ("title", .str row.title),
         ("published_year", .str row.published_year), ("isbn", .num row.isbn)])] :=
  ⟨by decide, by decide,
   (getAllBooks_lists_rows_read demoLib demoDB (demoRequest "" "")
     ⟨[[.int 1, .text "Dune", .text "1965", .int 441172717],
       [.int 2, .text "Emma", .text "1815", .int 141439587]], false⟩
     (by decide) (by decide)).2.1,
   ((getAllBooks_lists_rows_read demoLib demoDB (demoRequest "" "")
     ⟨[[.int 1, .text "Dune", .text "1965", .int 441172717],
       [.int 2, .text "Emma", .text "1815", .int 141439587]], false⟩
     (by decide) (by decide)).2.2.2.1 rfl).2⟩


/-! ## What each handler can do to the tables -/

theorem validateToken_cases (L : Lib) (next : Handler) (w : ResponseWriter) (r : Request)
    (db : DB) :
    validateToken L next w r db = (w.WriteHeader StatusUnauthorized, db) ∨
      (Authorized L r ∧ validateToken L next w r db = next w r db) := by
  by_cases h : Authorized L r
  · exact Or.inr ⟨h, validateToken_authorized L next w r db h⟩
  · left
    unfold Authorized tokenAccepted at h
    unfold validateToken
    by_cases h1 : mapIndex r.Header "Authorization" = ""
    · simp [h1]
    · simp only [h1, if_false]
      cases hp : ParseWithClaims L (mapIndex r.Header "Authorization") secretKey with
      | error e => rfl
      | ok t =>
        simp only [hp, ne_eq, h1, not_false_eq_true, true_and] at h
        simp [h]

theorem roundTrip_store (db : DB) (q : Stmt) (args : List Value) :
    (db.roundTrip q args).2.store = db.store ∨
      ∃ rows res s1, db.store.run q args = some (rows, res, s1) ∧
        (db.roundTrip q args).2.store = s1 := by
  unfold DB.roundTrip
  split
  · exact Or.inl rfl
  · cases hr : db.store.run q args with
    | none => exact Or.inl rfl
    | some o => exact Or.inr ⟨o.1, o.2.1, o.2.2, rfl, rfl⟩

theorem run_selectAll_authors_typo (s : Store) :
    s.run (.selectAll [.id, .name, .counttry] .authors) [] = none := by
  simp only [Store.run, Stmt.table, Table.run]
  rw [if_neg (by decide)]
  rfl

theorem mapOpt_authorBooks (rows : List AuthorBookRow) :
    mapOpt (fun r => mapOpt (authorBookOps.get r) [.author_book_id, .author_id, .book_id]) rows =
      some (rows.map fun r => [.int r.author_book_id, .int r.author_id, .int r.book_id]) :=
  mapOpt_total _ _ (fun _ => rfl) rows

theorem run_selectWhere_authorBooks (s : Store) (p : Value) :
    s.run (.selectWhere [.author_book_id, .author_id, .book_id] .author_books .author_book_id)
        [p] =
      some ((s.author_books.rows.filter fun r => sqlEq (.int r.author_book_id) p).map
        (fun r => [.int r.author_book_id, .int r.author_id, .int r.book_id]), ⟨0⟩, s) := by
  simp only [Store.run, Stmt.table, Table.run, whereEq_authorBooks_id]
  rw [if_pos (by decide), mapOpt_authorBooks]
  rfl

theorem run_insert_authors (s : Store) (a b : String) :
    s.run (.insert .authors [.name, .country]) [.text a, .text b] =
      if s.authors.rows.any (fun r => sqlEq (.int r.id) (.int s.authors.autoInc)) = false then
        some ([], ⟨s.authors.autoInc⟩,
          { s with authors := { rows := s.authors.rows ++ [⟨s.authors.autoInc, a, b⟩],
                                autoInc := s.authors.autoInc + 1 } })
      else none := by
  have hk : authorOps.key = .id := rfl
  simp only [Store.run, Stmt.table, Table.run, hk, whereEq_authors_id]
  split
  · rename_i h
    rw [if_pos h.2.2]
    rfl
  · rename_i h
    rw [if_neg]
    · rfl
    · intro h2
      exact h ⟨by decide, by decide, h2⟩

theorem run_insert_authorBooks (s : Store) (a b : Int) :
    s.run (.insert .author_books [.author_id, .book_id]) [.int a, .int b] =
      if s.author_books.rows.any
          (fun r => sqlEq (.int r.author_book_id) (.int s.author_books.autoInc)) = false then
        some ([], ⟨s.author_books.autoInc⟩,
          { s with author_books :=
            { rows := s.author_books.rows ++ [⟨s.author_books.autoInc, a, b⟩],
              autoInc := s.author_books.autoInc + 1 } })
      else none := by
  have hk : authorBookOps.key = .author_book_id := rfl
  simp only [Store.run, Stmt.table, Table.run, hk, whereEq_authorBooks_id]
  split
  · rename_i h
    rw [if_pos h.2.2]
    rfl
  · rename_i h
    rw [if_neg]
    · rfl
    · intro h2
      exact h ⟨by decide, by decide, h2⟩

theorem run_update_authors (s : Store) (a b : String) (p : Value) :
    s.run (.update .authors [.name, .country] .id) [.text a, .text b, p] =
      some ([], ⟨0⟩, { s with authors := { s.authors with rows := s.authors.rows.map fun r =>
        if (sqlEq (Value.int r.id) p = true) then ⟨r.id, a, b⟩ else r } }) := by
  simp only [Store.run, Stmt.table, Table.run, whereEq_authors_id]
  have hl : [Value.text a, .text b, p].getLast? = some p := by simp [List.getLast?]
  rw [hl]
  simp only []
  rw [if_pos ⟨by decide, rfl⟩,
    mapOpt_total _ (fun r => if (sqlEq (Value.int r.id) p = true) then ⟨r.id, a, b⟩ else r)]
  · rfl
  · intro r
    split <;> rfl

theorem run_update_authorBooks (s : Store) (a b : Int) (p : Value) :
    s.run (.update .author_books [.author_id, .book_id] .author_book_id) [.int a, .int b, p] =
      some ([], ⟨0⟩, { s with author_books := { s.author_books with
        rows := s.author_books.rows.map fun r =>
          if (sqlEq (Value.int r.author_book_id) p = true) then ⟨r.author_book_id, a, b⟩
          else r } }) := by
  simp only [Store.run, Stmt.table, Table.run, whereEq_authorBooks_id]
  have hl : [Value.int a, .int b, p].getLast? = some p := by simp [List.getLast?]
  rw [hl]
  simp only []
  rw [if_pos ⟨by decide, rfl⟩,
    mapOpt_total _ (fun r => if (sqlEq (Value.int r.author_book_id) p = true) then
      ⟨r.author_book_id, a, b⟩ else r)]
  · rfl
  · intro r
    split <;> rfl

/-! ### Referential integrity along a step -/

theorem Grows.refl (s : Store) : Grows s s :=
  ⟨fun a ha => ⟨a, ha, rfl⟩, fun b hb => ⟨b, hb, rfl⟩, fun _ hab => Or.inl hab⟩

theorem Grows.of_eq {s s1 : Store} (h : s1 = s) : Grows s s1 := by
  subst h
  exact Grows.refl _

theorem refIntegrity_grows {s s1 : Store} (h : RefIntegrity s) (g : Grows s s1) :
    RefIntegrity s1 := by
  intro ab hab
  obtain ⟨ga, gb, gab⟩ := g
  have hrefs : (∃ a ∈ s.authors.rows, a.id = ab.author_id) ∧
      (∃ b ∈ s.books.rows, b.id = ab.book_id) := by
    rcases gab ab hab with hold | hnew
    · exact h ab hold
    · exact hnew
  obtain ⟨⟨a, ha, hai⟩, ⟨b, hb, hbi⟩⟩ := hrefs
  obtain ⟨a1, ha1, hai1⟩ := ga a ha
  obtain ⟨b1, hb1, hbi1⟩ := gb b hb
  exact ⟨⟨a1, ha1, by rw [hai1, hai]⟩, ⟨b1, hb1, by rw [hbi1, hbi]⟩⟩

theorem grows_books_map (s : Store) (f : BookRow → BookRow) (hf : ∀ r, (f r).id = r.id) :
    Grows s { s with books := { s.books with rows := s.books.rows.map f } } :=
  ⟨fun a ha => ⟨a, ha, rfl⟩,
   fun b hb => ⟨f b, List.mem_map_of_mem f hb, hf b⟩,
   fun _ hab => Or.inl hab⟩

theorem grows_authors_map (s : Store) (f : AuthorRow → AuthorRow) (hf : ∀ r, (f r).id = r.id) :
    Grows s { s with authors := { s.authors with rows := s.authors.rows.map f } } :=
  ⟨fun a ha => ⟨f a, List.mem_map_of_mem f ha, hf a⟩,
   fun b hb => ⟨b, hb, rfl⟩,
   fun _ hab => Or.inl hab⟩

theorem grows_books_append (s : Store) (x : BookRow) (k : Int) :
    Grows s { s with books := { rows := s.books.rows ++ [x], autoInc := k } } :=
  ⟨fun a ha => ⟨a, ha, rfl⟩,
   fun b hb => ⟨b, List.mem_append_left _ hb, rfl⟩,
   fun _ hab => Or.inl hab⟩

theorem grows_authors_append (s : Store) (x : AuthorRow) (k : Int) :
    Grows s { s with authors := { rows := s.authors.rows ++ [x], autoInc := k } } :=
  ⟨fun a ha => ⟨a, List.mem_append_left _ ha, rfl⟩,
   fun b hb => ⟨b, hb, rfl⟩,
   fun _ hab => Or.inl hab⟩

theorem grows_authorBooks_append (s : Store) (i a b k : Int)
    (ha : ∃ x ∈ s.authors.rows, x.id = a) (hb : ∃ y ∈ s.books.rows, y.id = b) :
    Grows s { s with author_books :=
      { rows := s.author_books.rows ++ [⟨i, a, b⟩], autoInc := k } } := by
  refine ⟨fun x hx => ⟨x, hx, rfl⟩, fun y hy => ⟨y, hy, rfl⟩, ?_⟩
  intro ab hab
  rcases List.mem_append.1 hab with h | h
  · exact Or.inl h
  · rw [List.mem_singleton] at h
    subst h
    exact Or.inr ⟨ha, hb⟩

theorem grows_authorBooks_map (s : Store) (c : AuthorBookRow → Prop) [DecidablePred c]
    (a b : Int) (ha : ∃ x ∈ s.authors.rows, x.id = a) (hb : ∃ y ∈ s.books.rows, y.id = b) :
    Grows s { s with author_books := { s.author_books with
      rows := s.author_books.rows.map fun r =>
        if c r then ⟨r.author_book_id, a, b⟩ else r } } := by
  refine ⟨fun x hx => ⟨x, hx, rfl⟩, fun y hy => ⟨y, hy, rfl⟩, ?_⟩
  intro ab hab
  obtain ⟨r, hr, hrab⟩ := List.mem_map.1 hab
  by_cases hc : c r
  · rw [if_pos hc] at hrab
    subst hrab
    exact Or.inr ⟨ha, hb⟩
  · rw [if_neg hc] at hrab
    subst hrab
    exact Or.inl hr

theorem grows_authorBooks_filter (s : Store) (p : AuthorBookRow → Bool) :
    Grows s { s with author_books := { s.author_books with
      rows := s.author_books.rows.filter p } } :=
  ⟨fun x hx => ⟨x, hx, rfl⟩, fun y hy => ⟨y, hy, rfl⟩,
   fun _ hab => Or.inl (List.mem_filter.1 hab).1⟩

theorem roundTrip_grows (db : DB) (q : Stmt) (args : List Value)
    (h : ∀ rows res s1, db.store.run q args = some (rows, res, s1) → Grows db.store s1) :
    Grows db.store (db.roundTrip q args).2.store := by
  rcases roundTrip_store db q args with h1 | ⟨rows, res, s1, hrun, h1⟩
  · exact Grows.of_eq h1
  · rw [h1]
    exact h rows res s1 hrun

theorem login_db (L : Lib) (w : ResponseWriter) (r : Request) (db : DB) :
    (login L w r db).2 = db := by
  unfold login
  split
  · rfl
  · dsimp only
    split
    · rfl
    · split <;> rfl

theorem getAllBooks_grows (L : Lib) (w : ResponseWriter) (r : Request) (db : DB) :
    Grows db.store (getAllBooks L w r db).2.store := by
  unfold getAllBooks
  rcases validateToken_cases L _ w r db with h | ⟨_, h⟩ <;> rw [h]
  · exact Grows.refl _
  · have hst : Grows db.store
        (db.Query (.selectAll [.id, .title, .published_year, .isbn] .books) []).2.store := by
      rw [Query_store]
      exact roundTrip_grows db _ _ (fun rows res s1 hrun => by
        rw [run_selectAll_books] at hrun
        simp only [Option.some.injEq, Prod.mk.injEq] at hrun
        exact Grows.of_eq hrun.2.2.symm)
    generalize db.Query (.selectAll [.id, .title, .published_year, .isbn] .books) [] = p
      at hst ⊢
    rcases p with ⟨_ | rows, db1⟩
    · exact hst
    · dsimp only
      split <;> exact hst

theorem createBook_grows (L : Lib) (w : ResponseWriter) (r : Request) (db : DB) :
    Grows db.store (createBook L w r db).2.store := by
  unfold createBook
  rcases validateToken_cases L _ w r db with h | ⟨_, h⟩ <;> rw [h]
  · exact Grows.refl _
  · cases hd : L.decodeBook r.Body with
    | none => exact Grows.refl _
    | some book =>
      dsimp only
      have hst : Grows db.store
          (db.Exec (.insert .books [.title, .published_year, .isbn])
            [.text book.Title, .text book.PublishedYear, .int book.ISBN]).2.store :=
        roundTrip_grows db _ _ (fun rows res s1 hrun => by
          rw [run_insert_books] at hrun
          split at hrun
          · simp only [Option.some.injEq, Prod.mk.injEq] at hrun
            rw [← hrun.2.2]
            exact grows_books_append _ _ _
          · simp at hrun)
      generalize db.Exec (.insert .books [.title, .published_year, .isbn])
        [.text book.Title, .text book.PublishedYear, .int book.ISBN] = p at hst ⊢
      rcases p with ⟨_ | res, db1⟩ <;> exact hst

theorem getBook_grows (L : Lib) (w : ResponseWriter) (r : Request) (db : DB) :
    Grows db.store (getBook L w r db).2.store := by
  unfold getBook
  rcases validateToken_cases L _ w r db with h | ⟨_, h⟩ <;> rw [h]
  · exact Grows.refl _
  · dsimp only
    have hst : Grows db.store
        (db.QueryRow (.selectWhere [.id, .title, .published_year, .isbn] .books .id)
          [.text (mapIndex r.Vars "id")]).2.store :=
      roundTrip_grows db _ _ (fun rows res s1 hrun => by
        rw [run_selectWhere_books] at hrun
        simp only [Option.some.injEq, Prod.mk.injEq] at hrun
        exact Grows.of_eq hrun.2.2.symm)
    generalize db.QueryRow (.selectWhere [.id, .title, .published_year, .isbn] .books .id)
      [.text (mapIndex r.Vars "id")] = p at hst ⊢
    rcases p with ⟨row, db1⟩
    dsimp only
    split <;> exact hst

theorem updateBook_grows (L : Lib) (w : ResponseWriter) (r : Request) (db : DB) :
    Grows db.store (updateBook L w r db).2.store := by
  unfold updateBook
  rcases validateToken_cases L _ w r db with h | ⟨_, h⟩ <;> rw [h]
  · exact Grows.refl _
  · dsimp only
    cases hd : L.decodeBook r.Body with
    | none => exact Grows.refl _
    | some book =>
      dsimp only
      have hst : Grows db.store
          (db.Exec (.update .books [.title, .published_year, .isbn] .id)
            [.text book.Title, .text book.PublishedYear, .int book.ISBN,
             .text (mapIndex r.Vars "id")]).2.store :=
        roundTrip_grows db _ _ (fun rows res s1 hrun => by
          rw [run_update_books] at hrun
          simp only [Option.some.injEq, Prod.mk.injEq] at hrun
          rw [← hrun.2.2]
          apply grows_books_map
          intro row
          split <;> rfl)
      generalize db.Exec (.update .books [.title, .published_year, .isbn] .id)
        [.text book.Title, .text book.PublishedYear, .int book.ISBN,
         .text (mapIndex r.Vars "id")] = p at hst ⊢
      rcases p with ⟨_ | res, db1⟩ <;> exact hst

theorem getAllAuthors_grows (L : Lib) (w : ResponseWriter) (r : Request) (db : DB) :
    Grows db.store (getAllAuthors L w r db).2.store := by
  unfold getAllAuthors
  rcases validateToken_cases L _ w r db with h | ⟨_, h⟩ <;> rw [h]
  · exact Grows.refl _
  · have hst : Grows db.store
        (db.Query (.selectAll [.id, .name, .counttry] .authors) []).2.store := by
      rw [Query_store]
      exact roundTrip_grows db _ _ (fun rows res s1 hrun => by
        rw [run_selectAll_authors_typo] at hrun
        simp at hrun)
    generalize db.Query (.selectAll [.id, .name, .counttry] .authors) [] = p at hst ⊢
    rcases p with ⟨_ | rows, db1⟩
    · exact hst
    · dsimp only
      split <;> exact hst

theorem createAuthor_grows (L : Lib) (w : ResponseWriter) (r : Request) (db : DB) :
    Grows db.store (createAuthor L w r db).2.store := by
  unfold createAuthor
  rcases validateToken_cases L _ w r db with h | ⟨_, h⟩ <;> rw [h]
  · exact Grows.refl _
  · cases hd : L.decodeAuthor r.Body with
    | none => exact Grows.refl _
    | some author =>
      dsimp only
      have hst : Grows db.store
          (db.Exec (.insert .authors [.name, .country])
            [.text author.Name, .text author.Country]).2.store :=
        roundTrip_grows db _ _ (fun rows res s1 hrun => by
          rw [run_insert_authors] at hrun
          split at hrun
          · simp only [Option.some.injEq, Prod.mk.injEq] at hrun
            rw [← hrun.2.2]
            exact grows_authors_append _ _ _
          · simp at hrun)
      generalize db.Exec (.insert .authors [.name, .country])
        [.text author.Name, .text author.Country] = p at hst ⊢
      rcases p with ⟨_ | res, db1⟩ <;> exact hst

theorem getAuthor_grows (L : Lib) (w : ResponseWriter) (r : Request) (db : DB) :
    Grows db.store (getAuthor L w r db).2.store := by
  unfold getAuthor
  rcases validateToken_cases L _ w r db with h | ⟨_, h⟩ <;> rw [h]
  · exact Grows.refl _
  · dsimp only
    have hst : Grows db.store
        (db.QueryRow (.selectWhere [.id, .name, .country] .books .id)
          [.text (mapIndex r.Vars "id")]).2.store :=
      roundTrip_grows db _ _ (fun rows res s1 hrun => by
        rw [run_getAuthor_query] at hrun
        simp at hrun)
    generalize db.QueryRow (.selectWhere [.id, .name, .country] .books .id)
      [.text (mapIndex r.Vars "id")] = p at hst ⊢
    rcases p with ⟨row, db1⟩
    dsimp only
    split <;> exact hst

theorem updateAuthor_grows (L : Lib) (w : ResponseWriter) (r : Request) (db : DB) :
    Grows db.store (updateAuthor L w r db).2.store := by
  unfold updateAuthor
  rcases validateToken_cases L _ w r db with h | ⟨_, h⟩ <;> rw [h]
  · exact Grows.refl _
  · dsimp only
    cases hd : L.decodeAuthor r.Body with
    | none => exact Grows.refl _
    | some author =>
      dsimp only
      have hst : Grows db.store
          (db.Exec (.update .authors [.name, .country] .id)
            [.text author.Name, .text author.Country,
             .text (mapIndex r.Vars "id")]).2.store :=
        roundTrip_grows db _ _ (fun rows res s1 hrun => by
          rw [run_update_authors] at hrun
          simp only [Option.some.injEq, Prod.mk.injEq] at hrun
          rw [← hrun.2.2]
          apply grows_authors_map
          intro row
          split <;> rfl)
      generalize db.Exec (.update .authors [.name, .country] .id)
        [.text author.Name, .text author.Country, .text (mapIndex r.Vars "id")] = p at hst ⊢
      rcases p with ⟨_ | res, db1⟩ <;> exact hst

theorem GetAuthorBook_grows (L : Lib) (w : ResponseWriter) (r : Request) (db : DB) :
    Grows db.store (GetAuthorBook L w r db).2.store := by
  unfold GetAuthorBook
  rcases validateToken_cases L _ w r db with h | ⟨_, h⟩ <;> rw [h]
  · exact Grows.refl _
  · dsimp only
    have hst : Grows db.store
        (db.QueryRow
          (.selectWhere [.author_book_id, .author_id, .book_id] .author_books .author_book_id)
          [.text (mapIndex r.Vars "id")]).2.store :=
      roundTrip_grows db _ _ (fun rows res s1 hrun => by
        rw [run_selectWhere_authorBooks] at hrun
        simp only [Option.some.injEq, Prod.mk.injEq] at hrun
        exact Grows.of_eq hrun.2.2.symm)
    generalize db.QueryRow
      (.selectWhere [.author_book_id, .author_id, .book_id] .author_books .author_book_id)
      [.text (mapIndex r.Vars "id")] = p at hst ⊢
    rcases p with ⟨row, db1⟩
    dsimp only
    split <;> exact hst

theorem DeleteAuthorBook_grows (L : Lib) (w : ResponseWriter) (r : Request) (db : DB) :
    Grows db.store (DeleteAuthorBook L w r db).2.store := by
  unfold DeleteAuthorBook
  rcases validateToken_cases L _ w r db with h | ⟨_, h⟩ <;> rw [h]
  · exact Grows.refl _
  · dsimp only
    have hst : Grows db.store
        (db.Exec (.delete .author_books .author_book_id)
          [.text (mapIndex r.Vars "id")]).2.store :=
      roundTrip_grows db _ _ (fun rows res s1 hrun => by
        rw [run_delete_authorBooks] at hrun
        simp only [Option.some.injEq, Prod.mk.injEq] at hrun
        rw [← hrun.2.2]
        exact grows_authorBooks_filter _ _)
    generalize db.Exec (.delete .author_books .author_book_id)
      [.text (mapIndex r.Vars "id")] = p at hst ⊢
    rcases p with ⟨_ | res, db1⟩ <;> exact hst

theorem CreateAuthorBook_grows (L : Lib) (w : ResponseWriter) (r : Request) (db : DB) :
    Grows db.store (CreateAuthorBook L w r db).2.store := by
  by_cases hauth : Authorized L r
  · cases hd : L.decodeAuthorBook r.Body with
    | none =>
      unfold CreateAuthorBook
      rw [validateToken_authorized L _ _ r db hauth, hd]
      exact Grows.refl _
    | some ab =>
      rw [CreateAuthorBook_spec L w r db ab hauth hd]
      split
      · exact Grows.refl _
      · split
        · exact Grows.refl _
        · rename_i ha
          split
          · exact Grows.refl _
          · split
            · exact Grows.refl _
            · rename_i hb
              have hst : Grows db.store
                  (((db.sent (.selectExists .authors .id) [.int ab.AuthorID]).sent
                    (.selectExists .books .id) [.int ab.BookID]).Exec
                    (.insert .author_books [.author_id, .book_id])
                    [.int ab.AuthorID, .int ab.BookID]).2.store :=
                roundTrip_grows ((db.sent (.selectExists .authors .id) [.int ab.AuthorID]).sent
                    (.selectExists .books .id) [.int ab.BookID]) _ _
                  (fun rows res s1 hrun => by
                    rw [run_insert_authorBooks] at hrun
                    split at hrun
                    · simp only [Option.some.injEq, Prod.mk.injEq] at hrun
                      rw [← hrun.2.2]
                      exact grows_authorBooks_append db.store _ _ _ _
                        ((any_id_true _ _ _).1 ha) ((any_id_true _ _ _).1 hb)
                    · simp at hrun)
              generalize ((db.sent (.selectExists .authors .id) [.int ab.AuthorID]).sent
                    (.selectExists .books .id) [.int ab.BookID]).Exec
                    (.insert .author_books [.author_id, .book_id])
                    [.int ab.AuthorID, .int ab.BookID] = p at hst ⊢
              rcases p with ⟨_ | res, db1⟩ <;> exact hst
  · unfold CreateAuthorBook
    rcases validateToken_cases L _ w r db with h | ⟨h0, _⟩
    · rw [h]
      exact Grows.refl _
    · exact absurd h0 hauth

theorem UpdateAuthorBook_grows (L : Lib) (w : ResponseWriter) (r : Request) (db : DB) :
    Grows db.store (UpdateAuthorBook L w r db).2.store := by
  by_cases hauth : Authorized L r
  · cases hd : L.decodeAuthorBook r.Body with
    | none =>
      unfold UpdateAuthorBook
      rw [validateToken_authorized L _ _ r db hauth]
      dsimp only
      rw [hd]
      exact Grows.refl _
    | some ab =>
      rw [UpdateAuthorBook_spec L w r db ab hauth hd]
      split
      · exact Grows.refl _
      · split
        · exact Grows.refl _
        · rename_i ha
          split
          · exact Grows.refl _
          · split
            · exact Grows.refl _
            · rename_i hb
              have hst : Grows db.store
                  (((db.sent (.selectExists .authors .id) [.int ab.AuthorID]).sent
                    (.selectExists .books .id) [.int ab.BookID]).Exec
                    (.update .author_books [.author_id, .book_id] .author_book_id)
                    [.int ab.AuthorID, .int ab.BookID,
                     .text (mapIndex r.Vars "id")]).2.store :=
                roundTrip_grows ((db.sent (.selectExists .authors .id) [.int ab.AuthorID]).sent
                    (.selectExists .books .id) [.int ab.BookID]) _ _
                  (fun rows res s1 hrun => by
                    rw [run_update_authorBooks] at hrun
                    simp only [Option.some.injEq, Prod.mk.injEq] at hrun
                    rw [← hrun.2.2]
                    exact grows_authorBooks_map db.store _ _ _
                      ((any_id_true _ _ _).1 ha) ((any_id_true _ _ _).1 hb))
              generalize ((db.sent (.selectExists .authors .id) [.int ab.AuthorID]).sent
                    (.selectExists .books .id) [.int ab.BookID]).Exec
                    (.update .author_books [.author_id, .book_id] .author_book_id)
                    [.int ab.AuthorID, .int ab.BookID, .text (mapIndex r.Vars "id")] = p
                at hst ⊢
              rcases p with ⟨_ | res, db1⟩ <;> exact hst
  · unfold UpdateAuthorBook
    rcases validateToken_cases L _ w r db with h | ⟨h0, _⟩
    · rw [h]
      exact Grows.refl _
    · exact absurd h0 hauth

/-- `deleteBook` keeps referential integrity when the named id is not referenced. -/
theorem deleteBook_integrity (L : Lib) (w : ResponseWriter) (r : Request) (db : DB)
    (hinv : RefIntegrity db.store)
    (hsafe : ∀ ab ∈ db.store.author_books.rows,
      ab.book_id ≠ sqlNumber (mapIndex r.Vars "id")) :
    RefIntegrity (deleteBook L w r db).2.store := by
  have key : ∀ s1, (s1 = db.store ∨ s1 = { db.store with books := { db.store.books with
      rows := db.store.books.rows.filter fun row =>
        (! sqlEq (Value.int row.id) (.text (mapIndex r.Vars "id"))) } }) →
      RefIntegrity s1 := by
    intro s1 hs1
    rcases hs1 with h | h
    · rw [h]; exact hinv
    · rw [h]
      intro ab hab
      obtain ⟨ha, b, hb, hbi⟩ := hinv ab hab
      refine ⟨ha, b, ?_, hbi⟩
      apply List.mem_filter.2
      refine ⟨hb, ?_⟩
      have := hsafe ab hab
      simp [sqlEq, hbi, this]
  apply key
  unfold deleteBook
  rcases validateToken_cases L _ w r db with h | ⟨_, h⟩ <;> rw [h]
  · exact Or.inl rfl
  · dsimp only
    have hst : (db.Exec (.delete .books .id) [.text (mapIndex r.Vars "id")]).2.store
          = db.store ∨
        (db.Exec (.delete .books .id) [.text (mapIndex r.Vars "id")]).2.store =
          { db.store with books := { db.store.books with
            rows := db.store.books.rows.filter fun row =>
              (! sqlEq (Value.int row.id) (.text (mapIndex r.Vars "id"))) } } := by
      rcases roundTrip_store db (.delete .books .id) [.text (mapIndex r.Vars "id")] with
        h1 | ⟨rows, res, s1, hrun, h1⟩
      · exact Or.inl h1
      · right
        rw [run_delete_books] at hrun
        simp only [Option.some.injEq, Prod.mk.injEq] at hrun
        rw [← hrun.2.2] at h1
        exact h1
    generalize db.Exec (.delete .books .id) [.text (mapIndex r.Vars "id")] = p at hst ⊢
    rcases p with ⟨_ | res, db1⟩ <;> exact hst

/-- `deleteAuthor` keeps referential integrity when the named id is not referenced. -/
theorem deleteAuthor_integrity (L : Lib) (w : ResponseWriter) (r : Request) (db : DB)
    (hinv : RefIntegrity db.store)
    (hsafe : ∀ ab ∈ db.store.author_books.rows,
      ab.author_id ≠ sqlNumber (mapIndex r.Vars "id")) :
    RefIntegrity (deleteAuthor L w r db).2.store := by
  have key : ∀ s1, (s1 = db.store ∨ s1 = { db.store with authors := { db.store.authors with
      rows := db.store.authors.rows.filter fun row =>
        (! sqlEq (Value.int row.id) (.text (mapIndex r.Vars "id"))) } }) →
      RefIntegrity s1 := by
    intro s1 hs1
    rcases hs1 with h | h
    · rw [h]; exact hinv
    · rw [h]
      intro ab hab
      obtain ⟨⟨a, ha, hai⟩, hb⟩ := hinv ab hab
      refine ⟨⟨a, ?_, hai⟩, hb⟩
      apply List.mem_filter.2
      refine ⟨ha, ?_⟩
      have := hsafe ab hab
      simp [sqlEq, hai, this]
  apply key
  unfold deleteAuthor
  rcases validateToken_cases L _ w r db with h | ⟨_, h⟩ <;> rw [h]
  · exact Or.inl rfl
  · dsimp only
    have hst : (db.Exec (.delete .authors .id) [.text (mapIndex r.Vars "id")]).2.store
          = db.store ∨
        (db.Exec (.delete .authors .id) [.text (mapIndex r.Vars "id")]).2.store =
          { db.store with authors := { db.store.authors with
            rows := db.store.authors.rows.filter fun row =>
              (! sqlEq (Value.int row.id) (.text (mapIndex r.Vars "id"))) } } := by
      rcases roundTrip_store db (.delete .authors .id) [.text (mapIndex r.Vars "id")] with
        h1 | ⟨rows, res, s1, hrun, h1⟩
      · exact Or.inl h1
      · right
        rw [run_delete_authors] at hrun
        simp only [Option.some.injEq, Prod.mk.injEq] at hrun
        rw [← hrun.2.2] at h1
        exact h1
    generalize db.Exec (.delete .authors .id) [.text (mapIndex r.Vars "id")] = p at hst ⊢
    rcases p with ⟨_ | res, db1⟩ <;> exact hst

/-- One call keeps referential integrity, provided a `deleteBook` or `deleteAuthor` does not
name a referenced id. -/
theorem serve_integrity (L : Lib) (c : Call) (db : DB) (hinv : RefIntegrity db.store)
    (hb : c.op = .deleteBook → ∀ ab ∈ db.store.author_books.rows,
      ab.book_id ≠ sqlNumber (mapIndex c.request.Vars "id"))
    (ha : c.op = .deleteAuthor → ∀ ab ∈ db.store.author_books.rows,
      ab.author_id ≠ sqlNumber (mapIndex c.request.Vars "id")) :
    RefIntegrity (serve L c db).2.store := by
  obtain ⟨op, r⟩ := c
  unfold serve
  cases op with
  | login =>
    show RefIntegrity (login L newRecorder r db).2.store
    rw [login_db]
    exact hinv
  | getAllBooks => exact refIntegrity_grows hinv (getAllBooks_grows L _ r db)
  | createBook => exact refIntegrity_grows hinv (createBook_grows L _ r db)
  | getBook => exact refIntegrity_grows hinv (getBook_grows L _ r db)
  | updateBook => exact refIntegrity_grows hinv (updateBook_grows L _ r db)
  | deleteBook => exact deleteBook_integrity L _ r db hinv (hb rfl)
  | getAllAuthors => exact refIntegrity_grows hinv (getAllAuthors_grows L _ r db)
  | createAuthor => exact refIntegrity_grows hinv (createAuthor_grows L _ r db)
  | getAuthor => exact refIntegrity_grows hinv (getAuthor_grows L _ r db)
  | updateAuthor => exact refIntegrity_grows hinv (updateAuthor_grows L _ r db)
  | deleteAuthor => exact deleteAuthor_integrity L _ r db hinv (ha rfl)
  | CreateAuthorBook => exact refIntegrity_grows hinv (CreateAuthorBook_grows L _ r db)
  | GetAuthorBook => exact refIntegrity_grows hinv (GetAuthorBook_grows L _ r db)
  | UpdateAuthorBook => exact refIntegrity_grows hinv (UpdateAuthorBook_grows L _ r db)
  | DeleteAuthorBook => exact refIntegrity_grows hinv (DeleteAuthorBook_grows L _ r db)

/-! ## Claim C7: referential integrity as a state invariant -/

/-- C7, as stated, fails. The example store has referential integrity; the authorized
`DELETE /authors/1` succeeds with 204, and afterwards the `author_books` row (1, 1, 1) names an
author that no longer exists.  `DELETE /books/1` does the same to the book reference. -/
theorem delete_of_referenced_row_breaks_integrity :
    RefIntegrity demoDB.store ∧
    Authorized demoLib (demoRequest "1" "") ∧
    (serve demoLib ⟨.deleteAuthor, demoRequest "1" ""⟩ demoDB).1.Code = 204 ∧
    ¬ RefIntegrity (runCalls demoLib [⟨.deleteAuthor, demoRequest "1" ""⟩] demoDB).store ∧
    (serve demoLib ⟨.deleteBook, demoRequest "1" ""⟩ demoDB).1.Code = 204 ∧
    ¬ RefIntegrity (runCalls demoLib [⟨.deleteBook, demoRequest "1" ""⟩] demoDB).store := by
  decide

/-- C7, amended. Starting from a store with referential integrity, every sequence of API calls
(any of the fifteen operations, any requests, successful or not, with or without store faults)
in which no `deleteBook` names the id of a referenced book and no `deleteAuthor` the id of a
referenced author leads to a store that still has referential integrity. -/
theorem integrity_kept_without_unsafe_deletes (L : Lib) (calls : List Call) (db : DB)
    (hinv : RefIntegrity db.store) (hsafe : SafeDeletes L calls db) :
    RefIntegrity (runCalls L calls db).store := by
  induction calls generalizing db with
  | nil => exact hinv
  | cons c cs ih =>
    obtain ⟨hb, ha, hrest⟩ := hsafe
    exact ih (serve L c db).2 (serve_integrity L c db hinv hb ha) hrest

theorem integrity_kept_without_unsafe_deletes_witness :
    RefIntegrity demoDB.store ∧
    SafeDeletes demoLib
      [⟨.createBook, demoRequest "" "test book"⟩,
       ⟨.CreateAuthorBook, demoRequest "" "author 1 book 1"⟩,
       ⟨.deleteBook, demoRequest "2" ""⟩,
       ⟨.UpdateAuthorBook, demoRequest "1" "author 1 book 9"⟩,
       ⟨.DeleteAuthorBook, demoRequest "1" ""⟩] demoDB ∧
    RefIntegrity (runCalls demoLib
      [⟨.createBook, demoRequest "" "test book"⟩,
       ⟨.CreateAuthorBook, demoRequest "" "author 1 book 1"⟩,
       ⟨.deleteBook, demoRequest "2" ""⟩,
       ⟨.UpdateAuthorBook, demoRequest "1" "author 1 book 9"⟩,
       ⟨.DeleteAuthorBook, demoRequest "1" ""⟩] demoDB).store :=
  ⟨by decide, by decide,
   integrity_kept_without_unsafe_deletes demoLib
     [⟨.createBook, demoRequest "" "test book"⟩,
      ⟨.CreateAuthorBook, demoRequest "" "author 1 book 1"⟩,
      ⟨.deleteBook, demoRequest "2" ""⟩,
      ⟨.UpdateAuthorBook, demoRequest "1" "author 1 book 9"⟩,
      ⟨.DeleteAuthorBook, demoRequest "1" ""⟩] demoDB (by decide) (by decide)⟩

/-! ## Claim C11: `getAllAuthors` -/

/-- Behind the gate `getAllAuthors` always answers 500: its query names a column `counttry`
that `authors` lacks. -/
theorem getAllAuthors_internal_error (L : Lib) (w : ResponseWriter) (r : Request) (db : DB)
    (hauth : Authorized L r) :
    getAllAuthors L w r db =
      (w.WriteHeader StatusInternalServerError,
       db.sent (.selectAll [.id, .name, .counttry] .authors) []) := by
  unfold getAllAuthors
  rw [validateToken_authorized L _ _ r db hauth]
  rw [Query_run_none _ _ _ (run_selectAll_authors_typo _)]

/-- C11 (the code departs from it). On the example store, whose `authors` table has the columns
id, name and country and one row, an authorized `GET /authors` with no store fault pending is
answered with 500 and an empty body: the one statement `getAllAuthors` issues selects the
column `counttry`, which `authors` does not have, so the query fails. -/
theorem getAllAuthors_answers_500 :
    Authorized demoLib (demoRequest "" "") ∧
    demoDB.healthy 1 ∧
    demoDB.store.authors.rows = [⟨1, "Frank Herbert", "United States"⟩] ∧
    (getAllAuthors demoLib newRecorder (demoRequest "" "") demoDB).1.Code = 500 ∧
    (getAllAuthors demoLib newRecorder (demoRequest "" "") demoDB).1.Body = [] ∧
    issued demoDB (getAllAuthors demoLib newRecorder (demoRequest "" "") demoDB).2 =
      [(.selectAll [.id, .name, .counttry] .authors, [])] := by
  decide

/-! ## Claim C13: point lookups of a missing id -/

theorem QueryRow_selectWhere_books (db : DB) (p : Value) :
    db.QueryRow (.selectWhere [.id, .title, .published_year, .isbn] .books .id) [p] =
      (if db.faults.head? = some true then none
       else ((db.store.books.rows.filter fun r => sqlEq (.int r.id) p).map
          (fun r => [.int r.id, .text r.title, .text r.published_year, .int r.isbn])).head?,
       db.sent (.selectWhere [.id, .title, .published_year, .isbn] .books .id) [p]) := by
  unfold DB.QueryRow DB.roundTrip
  split
  · rfl
  · rw [run_selectWhere_books]
    rfl

theorem QueryRow_selectWhere_authorBooks (db : DB) (p : Value) :
    db.QueryRow
        (.selectWhere [.author_book_id, .author_id, .book_id] .author_books .author_book_id)
        [p] =
      (if db.faults.head? = some true then none
       else ((db.store.author_books.rows.filter fun r =>
            sqlEq (.int r.author_book_id) p).map
          (fun r => [.int r.author_book_id, .int r.author_id, .int r.book_id])).head?,
       db.sent
        (.selectWhere [.author_book_id, .author_id, .book_id] .author_books .author_book_id)
        [p]) := by
  unfold DB.QueryRow DB.roundTrip
  split
  · rfl
  · rw [run_selectWhere_authorBooks]
    rfl

theorem filter_id_none {ρ : Type} (rows : List ρ) (f : ρ → Int) (s : String) (n : Int)
    (h : Atoi s = (n, true)) (hno : ∀ row ∈ rows, f row ≠ n) :
    (rows.filter fun r => sqlEq (.int (f r)) (.text s)) = [] := by
  apply List.filter_eq_nil_iff.2
  intro row hrow
  rw [sqlEq_id_text _ _ _ h]
  simp [hno row hrow]

/-- C13. For an authorized `GET` whose path id is a decimal numeral of `n`: if `books` has no row
with id `n`, `getBook` answers 404 with an empty body; if `authors` has none, so does
`getAuthor`; if `author_books` has no row with author_book_id `n`, so does `GetAuthorBook`.
In each case the tables are as before.  No premise on store faults is needed: a failed query
is answered with 404 as well. -/
theorem get_of_missing_id_not_found (L : Lib) (db : DB) (r : Request) (n : Int)
    (hauth : Authorized L r) (hid : Atoi (mapIndex r.Vars "id") = (n, true)) :
    ((∀ row ∈ db.store.books.rows, row.id ≠ n) →
      (getBook L newRecorder r db).1.Code = 404 ∧
      (getBook L newRecorder r db).1.Body = [] ∧
      (getBook L newRecorder r db).2.store = db.store) ∧
    ((∀ row ∈ db.store.authors.rows, row.id ≠ n) →
      (getAuthor L newRecorder r db).1.Code = 404 ∧
      (getAuthor L newRecorder r db).1.Body = [] ∧
      (getAuthor L newRecorder r db).2.store = db.store) ∧
    ((∀ row ∈ db.store.author_books.rows, row.author_book_id ≠ n) →
      (GetAuthorBook L newRecorder r db).1.Code = 404 ∧
      (GetAuthorBook L newRecorder r db).1.Body = [] ∧
      (GetAuthorBook L newRecorder r db).2.store = db.store) := by
  refine ⟨?_, ?_, ?_⟩
  · intro hno
    have h : getBook L newRecorder r db =
        (newRecorder.WriteHeader StatusNotFound,
         db.sent (.selectWhere [.id, .title, .published_year, .isbn] .books .id)
          [.text (mapIndex r.Vars "id")]) := by
      unfold getBook
      rw [validateToken_authorized L _ _ r db hauth]
      dsimp only
      rw [QueryRow_selectWhere_books,
        filter_id_none _ (fun row : BookRow => row.id) _ n hid hno]
      simp only [List.map_nil, List.head?_nil, ite_self]
      rfl
    rw [h]
    exact ⟨rfl, rfl, rfl⟩
  · intro _
    rw [getAuthor_not_found L newRecorder r db hauth]
    exact ⟨rfl, rfl, rfl⟩
  · intro hno
    have h : GetAuthorBook L newRecorder r db =
        (newRecorder.WriteHeader StatusNotFound,
         db.sent
          (.selectWhere [.author_book_id, .author_id, .book_id] .author_books .author_book_id)
          [.text (mapIndex r.Vars "id")]) := by
      unfold GetAuthorBook
      rw [validateToken_authorized L _ _ r db hauth]
      dsimp only
      rw [QueryRow_selectWhere_authorBooks,
        filter_id_none _ (fun row : AuthorBookRow => row.author_book_id) _ n hid hno]
      simp only [List.map_nil, List.head?_nil, ite_self]
      rfl
    rw [h]
    exact ⟨rfl, rfl, rfl⟩

theorem get_of_missing_id_not_found_witness :
    Authorized demoLib (demoRequest "7" "") ∧
    Atoi (mapIndex (demoRequest "7" "").Vars "id") = (7, true) ∧
    (∀ row ∈ demoDB.store.books.rows, row.id ≠ 7) ∧
    ((getBook demoLib newRecorder (demoRequest "7" "") demoDB).1.Code = 404 ∧
      (getBook demoLib newRecorder (demoRequest "7" "") demoDB).1.Body = [] ∧
      (getBook demoLib newRecorder (demoRequest "7" "") demoDB).2.store = demoDB.store) ∧
    (∀ row ∈ demoDB.store.author_books.rows, row.author_book_id ≠ 7) ∧
    ((GetAuthorBook demoLib newRecorder (demoRequest "7" "") demoDB).1.Code = 404 ∧
      (GetAuthorBook demoLib newRecorder (demoRequest "7" "") demoDB).1.Body = [] ∧
      (GetAuthorBook demoLib newRecorder (demoRequest "7" "") demoDB).2.store = demoDB.store) :=
  ⟨by decide, by decide, by decide,
   (get_of_missing_id_not_found demoLib demoDB (demoRequest "7" "") 7 (by decide)
     (by decide)).1 (by decide),
   by decide,
   (get_of_missing_id_not_found demoLib demoDB (demoRequest "7" "") 7 (by decide)
     (by decide)).2.2 (by decide)⟩

/-! ## Claim C12: the route table -/

theorem splitPath_noslash (a : List Char) (ha : '/' ∉ a) : splitPath a = [a] := by
  induction a with
  | nil => rfl
  | cons c cs ih =>
    have hc : c ≠ '/' := fun h => ha (by simp [h])
    have hcs : '/' ∉ cs := fun h => ha (by simp [h])
    simp [splitPath, ih hcs, hc]

/-- The segments of `/name/id` for an id without a slash. -/
theorem splitPath_item (name id : List Char) (hn : '/' ∉ name) (hi : '/' ∉ id) :
    splitPath ('/' :: (name ++ '/' :: id)) = [[], name, id] := by
  have h2 : splitPath (name ++ '/' :: id) = [name, id] := by
    induction name with
    | nil => simp [splitPath, splitPath_noslash id hi]
    | cons c cs ih =>
      have hc : c ≠ '/' := fun h => hn (by simp [h])
      have hcs : '/' ∉ cs := fun h => hn (by simp [h])
      simp [splitPath, ih hcs, hc]
  simp [splitPath, h2]

theorem matchPath_collection_template (name id path : String)
    (hp : path = "/" ++ name ++ "/" ++ id) (hn : '/' ∉ name.data) (hi : '/' ∉ id.data)
    (o : String) (op : Op) (m : String) :
    Route.matchPath ⟨[.lit o], op, m⟩ path = none := by
  subst hp
  unfold Route.matchPath
  have hd : ("/" ++ name ++ "/" ++ id).data = '/' :: (name.data ++ '/' :: id.data) := by
    simp [String.data_append]
  rw [hd, splitPath_item _ _ hn hi]
  simp only [matchTemplate]
  split <;> rfl

theorem matchPath_item_template (name id path : String)
    (hp : path = "/" ++ name ++ "/" ++ id) (hn : '/' ∉ name.data) (hi : '/' ∉ id.data)
    (hne : id.data ≠ []) (o v : String) (op : Op) (m : String) :
    Route.matchPath ⟨[.lit o, .var v], op, m⟩ path =
      if name = o then some [(v, id)] else none := by
  subst hp
  unfold Route.matchPath
  have hd : ("/" ++ name ++ "/" ++ id).data = '/' :: (name.data ++ '/' :: id.data) := by
    simp [String.data_append]
  rw [hd, splitPath_item _ _ hn hi]
  by_cases h : name = o
  · subst h
    simp [matchTemplate, hne]
  · simp [matchTemplate, h]

/-- C12, as stated, fails. No route of `main` has method `GET` and the collection path
`/authorbooks`; a `GET /authorbooks` request matches the path of the `POST` route only, so the
router answers Method Not Allowed and no handler runs. -/
theorem no_list_route_for_authorbooks :
    (¬ ∃ rt ∈ routes, rt.method = "GET" ∧ rt.template = [.lit "authorbooks"]) ∧
    dispatch routes "GET" "/authorbooks" = .methodNotAllowed := by
  decide

/-- C12, amended. The route table built in `main` gives Books and Authors five operations each
(`GET` and `POST` on the collection path; `GET`, `PUT` and `DELETE` on the item path, whose
last segment, any non-empty text without a slash, becomes the route variable `id`) and gives
AuthorBooks four: `POST /authorbooks` and `GET`, `PUT`, `DELETE` on the item path.  The only
route on the collection path `/authorbooks` is the one of `CreateAuthorBook`, and
`GET /authorbooks` is answered Method Not Allowed. -/
theorem route_table_of_main (id : String) (hne : id.data ≠ []) (hi : '/' ∉ id.data) :
    (dispatch routes "GET" "/books" = .handler .getAllBooks [] ∧
      dispatch routes "POST" "/books" = .handler .createBook [] ∧
      dispatch routes "GET" ("/books/" ++ id) = .handler .getBook [("id", id)] ∧
      dispatch routes "PUT" ("/books/" ++ id) = .handler .updateBook [("id", id)] ∧
      dispatch routes "DELETE" ("/books/" ++ id) = .handler .deleteBook [("id", id)]) ∧
    (dispatch routes "GET" "/authors" = .handler .getAllAuthors [] ∧
      dispatch routes "POST" "/authors" = .handler .createAuthor [] ∧
      dispatch routes "GET" ("/authors/" ++ id) = .handler .getAuthor [("id", id)] ∧
      dispatch routes "PUT" ("/authors/" ++ id) = .handler .updateAuthor [("id", id)] ∧
      dispatch routes "DELETE" ("/authors/" ++ id) = .handler .deleteAuthor [("id", id)]) ∧
    (dispatch routes "POST" "/authorbooks" = .handler .CreateAuthorBook [] ∧
      dispatch routes "GET" ("/authorbooks/" ++ id) = .handler .GetAuthorBook [("id", id)] ∧
      dispatch routes "PUT" ("/authorbooks/" ++ id)
        = .handler .UpdateAuthorBook [("id", id)] ∧
      dispatch routes "DELETE" ("/authorbooks/" ++ id)
        = .handler .DeleteAuthorBook [("id", id)]) ∧
    dispatch routes "GET" "/authorbooks" = .methodNotAllowed ∧
    (∀ rt ∈ routes, rt.template = [.lit "authorbooks"] → rt.op = .CreateAuthorBook) := by
  have hb : '/' ∉ ("books" : String).data := by decide
  have ha : '/' ∉ ("authors" : String).data := by decide
  have hab : '/' ∉ ("authorbooks" : String).data := by decide
  have eb : "/books/" ++ id = "/" ++ "books" ++ "/" ++ id := by
    congr 1
  have ea : "/authors/" ++ id = "/" ++ "authors" ++ "/" ++ id := by
    congr 1
  have eab : "/authorbooks/" ++ id = "/" ++ "authorbooks" ++ "/" ++ id := by
    congr 1
  have b1 := matchPath_collection_template "books" id _ eb hb hi
  have b2 := matchPath_item_template "books" id _ eb hb hi hne
  have a1 := matchPath_collection_template "authors" id _ ea ha hi
  have a2 := matchPath_item_template "authors" id _ ea ha hi hne
  have c1 := matchPath_collection_template "authorbooks" id _ eab hab hi
  have c2 := matchPath_item_template "authorbooks" id _ eab hab hi hne
  refine ⟨⟨by decide, by decide, ?_, ?_, ?_⟩, ⟨by decide, by decide, ?_, ?_, ?_⟩,
    ⟨by decide, ?_, ?_, ?_⟩, by decide, by decide⟩
  · simp [dispatch, routes, dispatchFrom, b1, b2]
  · simp [dispatch, routes, dispatchFrom, b1, b2]
  · simp [dispatch, routes, dispatchFrom, b1, b2]
  · simp [dispatch, routes, dispatchFrom, a1, a2]
  · simp [dispatch, routes, dispatchFrom, a1, a2]
  · simp [dispatch, routes, dispatchFrom, a1, a2]
  · simp [dispatch, routes, dispatchFrom, c1, c2]
  · simp [dispatch, routes, dispatchFrom, c1, c2]
  · simp [dispatch, routes, dispatchFrom, c1, c2]

theorem route_table_of_main_witness :
    ("1" : String).data ≠ [] ∧ '/' ∉ ("1" : String).data ∧
    dispatch routes "GET" ("/books/" ++ "1") = .handler .getBook [("id", "1")] ∧
    dispatch routes "DELETE" ("/authorbooks/" ++ "1")
      = .handler .DeleteAuthorBook [("id", "1")] ∧
    dispatch routes "GET" "/authorbooks" = .methodNotAllowed :=
  ⟨by decide, by decide,
   (route_table_of_main "1" (by decide) (by decide)).1.2.2.1,
   (route_table_of_main "1" (by decide) (by decide)).2.2.1.2.2.2,
   (route_table_of_main "1" (by decide) (by decide)).2.2.2.1⟩

/-! ## Claim C14: `DeleteAuthorBook` as `TestDeleteAuthorBook` calls it -/

/-- `DeleteAuthorBook` answers 401, 500 or 204. -/
theorem DeleteAuthorBook_codes (L : Lib) (r : Request) (db : DB) :
    (DeleteAuthorBook L newRecorder r db).1.Code = 401 ∨
    (DeleteAuthorBook L newRecorder r db).1.Code = 500 ∨
    (DeleteAuthorBook L newRecorder r db).1.Code = 204 := by
  unfold DeleteAuthorBook
  rcases validateToken_cases L _ newRecorder r db with h | ⟨_, h⟩ <;> rw [h]
  · exact Or.inl rfl
  · dsimp only
    generalize db.Exec (.delete .author_books .author_book_id)
      [.text (mapIndex r.Vars "id")] = p
    rcases p with ⟨_ | res, db1⟩
    · exact Or.inr (Or.inl rfl)
    · exact Or.inr (Or.inr rfl)

/-- A `DELETE /authorbooks/{id}` request that sets no request headers is answered by
`DeleteAuthorBook` with 401 and an empty body, and the database is not touched.  Whatever the
request, `DeleteAuthorBook` never answers 200 (its answers are 401, 500 and 204). -/
theorem deleteAuthorBook_without_headers_unauthorized (L : Lib) (r : Request) (db : DB) :
    (r.Header = [] →
      (DeleteAuthorBook L newRecorder r db).1.Code = 401 ∧
      (DeleteAuthorBook L newRecorder r db).1.Body = [] ∧
      (DeleteAuthorBook L newRecorder r db).2 = db) ∧
    (DeleteAuthorBook L newRecorder r db).1.Code ≠ 200 := by
  constructor
  · intro hh
    have h0 : mapIndex r.Header "Authorization" = "" := by
      rw [hh]
      rfl
    unfold DeleteAuthorBook
    rw [validateToken_noHeader L _ newRecorder r db h0]
    exact ⟨rfl, rfl, rfl⟩
  · rcases DeleteAuthorBook_codes L r db with h | h | h <;> rw [h] <;> decide

/-- C14 (the code departs from it). The request of `TestDeleteAuthorBook`, `DELETE
/authorbooks/1` with no request headers, is routed to `DeleteAuthorBook` with id 1, by the
one-route router of the test as by the route table of `main`, and, on the example store with no
store fault pending, answered with 401 and an empty body, the store left as it was: not the 200
that the test asserts.  The same request carrying an accepted token is answered with 204, not
200 either. -/
theorem deleteAuthorBook_test_request_gets_401 :
    dispatch [⟨[.lit "authorbooks", .var "id"], .DeleteAuthorBook, "DELETE"⟩]
      "DELETE" "/authorbooks/1" = .handler .DeleteAuthorBook [("id", "1")] ∧
    dispatch routes "DELETE" "/authorbooks/1" = .handler .DeleteAuthorBook [("id", "1")] ∧
    (DeleteAuthorBook demoLib newRecorder { Header := [], Vars := [("id", "1")], Body := "" }
      demoDB).1.Code = 401 ∧
    (DeleteAuthorBook demoLib newRecorder { Header := [], Vars := [("id", "1")], Body := "" }
      demoDB).1.Code ≠ 200 ∧
    (DeleteAuthorBook demoLib newRecorder { Header := [], Vars := [("id", "1")], Body := "" }
      demoDB).1.Body = [] ∧
    (DeleteAuthorBook demoLib newRecorder { Header := [], Vars := [("id", "1")], Body := "" }
      demoDB).2 = demoDB ∧
    Authorized demoLib (demoRequest "1" "") ∧
    (DeleteAuthorBook demoLib newRecorder (demoRequest "1" "") demoDB).1.Code = 204 := by
  decide

/-! ## Claim C15: updates with a path id that `Atoi` rejects -/

theorem issued_sent_store (db : DB) (q : Stmt) (args : List Value) (s : Store) :
    issued db { db.sent q args with store := s } = [(q, args)] := by
  simp [issued, DB.sent]

theorem issued_sent3_store (db : DB) (q1 q2 q3 : Stmt) (a1 a2 a3 : List Value) (s : Store) :
    issued db { ((db.sent q1 a1).sent q2 a2).sent q3 a3 with store := s } =
      [(q1, a1), (q2, a2), (q3, a3)] := by
  simp [issued, DB.sent]

/-- C15 (counterexample). For the path id `99999999999999999999`, a digit string that
overflows `int`, `Atoi` reports an error, the `UPDATE` succeeds, and `updateBook` answers 200
with id 9223372036854775807, not 0. -/
theorem update_with_overflowing_id_returns_max_int :
    Authorized demoLib (demoRequest "99999999999999999999" "updated book") ∧
    (Atoi "99999999999999999999").2 = false ∧
    (demoDB.Exec (.update .books [.title, .published_year, .isbn] .id)
      [.text "Updated Book", .text "2022", .int 9876543210,
       .text "99999999999999999999"]).1 = some ⟨0⟩ ∧
    (updateBook demoLib newRecorder (demoRequest "99999999999999999999" "updated book")
      demoDB).1.Code = 200 ∧
    (updateBook demoLib newRecorder (demoRequest "99999999999999999999" "updated book")
      demoDB).1.Body =
      [.obj [("id", .num 9223372036854775807), ("title", .str "Updated Book"),
             ("published_year", .str "2022"), ("isbn", .num 9876543210)]] ∧
    (updateBook demoLib newRecorder (demoRequest "99999999999999999999" "updated book")
      demoDB).1.Body ≠ [.obj [("id", .num 0), ("title", .str "Updated Book"),
                              ("published_year", .str "2022"), ("isbn", .num 9876543210)]] := by
  decide

/-- C15 (amended). For an authorized `PUT` whose path id `strconv.Atoi` rejects:
* the id `Atoi` returns with its error is 0 when the error is a syntax error, that is when no
  character follows the optional sign or when the digits after the sign, whose value is still
  below `2^64`, are followed by a character that is not a digit (as in `abc` and `12a`); in
  every other case (the digits overflow, as in `99999999999999999999`,
  `99999999999999999999x` and `-99999999999999999999`) it is the `int64` bound on the side of
  the sign: -9223372036854775808 after a minus sign, else 9223372036854775807;
* for each of `updateBook`, `updateAuthor` and `UpdateAuthorBook`, when the `UPDATE` succeeds
  (for `UpdateAuthorBook`: after both existence checks passed) the answer is 200, never 400 or
  404, with the submitted field values and that id, and the `UPDATE` that was issued carries
  the raw path string as its last parameter. -/
theorem update_with_rejected_id (L : Lib) (db : DB) (r : Request) (hauth : Authorized L r)
    (hbad : (Atoi (mapIndex r.Vars "id")).2 = false) :
    ((Atoi (mapIndex r.Vars "id")).1 =
      if AtoiSyntaxError (mapIndex r.Vars "id") then 0
      else if (splitSign (mapIndex r.Vars "id").data).1 = true then -(2 ^ 63)
      else 2 ^ 63 - 1) ∧
    (∀ book res, L.decodeBook r.Body = some book →
      (db.Exec (.update .books [.title, .published_year, .isbn] .id)
        [.text book.Title, .text book.PublishedYear, .int book.ISBN,
         .text (mapIndex r.Vars "id")]).1 = some res →
      (updateBook L newRecorder r db).1.Code = 200 ∧
      (updateBook L newRecorder r db).1.Body =
        [.obj [("id", .num ((Atoi (mapIndex r.Vars "id")).1)), ("title", .str book.Title),
               ("published_year", .str book.PublishedYear), ("isbn", .num book.ISBN)]] ∧
      issued db (updateBook L newRecorder r db).2 =
        [(.update .books [.title, .published_year, .isbn] .id,
          [.text book.Title, .text book.PublishedYear, .int book.ISBN,
           .text (mapIndex r.Vars "id")])]) ∧
    (∀ author res, L.decodeAuthor r.Body = some author →
      (db.Exec (.update .authors [.name, .country] .id)
        [.text author.Name, .text author.Country, .text (mapIndex r.Vars "id")]).1
        = some res →
      (updateAuthor L newRecorder r db).1.Code = 200 ∧
      (updateAuthor L newRecorder r db).1.Body =
        [.obj [("id", .num ((Atoi (mapIndex r.Vars "id")).1)), ("name", .str author.Name),
               ("country", .str author.Country)]] ∧
      issued db (updateAuthor L newRecorder r db).2 =
        [(.update .authors [.name, .country] .id,
          [.text author.Name, .text author.Country, .text (mapIndex r.Vars "id")])]) ∧
    (∀ ab res, L.decodeAuthorBook r.Body = some ab → db.healthy 2 →
      (∃ x ∈ db.store.authors.rows, x.id = ab.AuthorID) →
      (∃ y ∈ db.store.books.rows, y.id = ab.BookID) →
      (((db.sent (.selectExists .authors .id) [.int ab.AuthorID]).sent
          (.selectExists .books .id) [.int ab.BookID]).Exec
        (.update .author_books [.author_id, .book_id] .author_book_id)
        [.int ab.AuthorID, .int ab.BookID, .text (mapIndex r.Vars "id")]).1 = some res →
      (UpdateAuthorBook L newRecorder r db).1.Code = 200 ∧
      (UpdateAuthorBook L newRecorder r db).1.Body =
        [.obj [("author_book_id", .num ((Atoi (mapIndex r.Vars "id")).1)),
               ("author_id", .num ab.AuthorID), ("book_id", .num ab.BookID)]] ∧
      issued db (UpdateAuthorBook L newRecorder r db).2 =
        [(.selectExists .authors .id, [.int ab.AuthorID]),
         (.selectExists .books .id, [.int ab.BookID]),
         (.update .author_books [.author_id, .book_id] .author_book_id,
          [.int ab.AuthorID, .int ab.BookID, .text (mapIndex r.Vars "id")])]) := by
  refine ⟨Atoi_rejected_value _ hbad, ?_, ?_, ?_⟩
  · intro book res hdec hupd
    obtain ⟨_, rows, s1, _, hexec⟩ := Exec_some db _ _ res hupd
    have h : updateBook L newRecorder r db =
        ((newRecorder.HeaderSet "Content-Type" "application/json").Encode
          (.obj [("id", .num ((Atoi (mapIndex r.Vars "id")).1)), ("title", .str book.Title),
                 ("published_year", .str book.PublishedYear), ("isbn", .num book.ISBN)]),
         { db.sent (.update .books [.title, .published_year, .isbn] .id)
            [.text book.Title, .text book.PublishedYear, .int book.ISBN,
             .text (mapIndex r.Vars "id")] with store := s1 }) := by
      unfold updateBook
      rw [validateToken_authorized L _ _ r db hauth]
      dsimp only
      rw [hdec]
      dsimp only
      rw [hexec]
      rfl
    rw [h]
    exact ⟨rfl, rfl, issued_sent_store _ _ _ _⟩
  · intro author res hdec hupd
    obtain ⟨_, rows, s1, _, hexec⟩ := Exec_some db _ _ res hupd
    have h : updateAuthor L newRecorder r db =
        ((newRecorder.HeaderSet "Content-Type" "application/json").Encode
          (.obj [("id", .num ((Atoi (mapIndex r.Vars "id")).1)), ("name", .str author.Name),
                 ("country", .str author.Country)]),
         { db.sent (.update .authors [.name, .country] .id)
            [.text author.Name, .text author.Country, .text (mapIndex r.Vars "id")] with
           store := s1 }) := by
      unfold updateAuthor
      rw [validateToken_authorized L _ _ r db hauth]
      dsimp only
      rw [hdec]
      dsimp only
      rw [hexec]
      rfl
    rw [h]
    exact ⟨rfl, rfl, issued_sent_store _ _ _ _⟩
  · intro ab res hdec hh ha hb hupd
    obtain ⟨_, rows, s1, _, hexec⟩ := Exec_some _ _ _ res hupd
    rw [healthy_two] at hh
    have h : UpdateAuthorBook L newRecorder r db =
        ((newRecorder.HeaderSet "Content-Type" "application/json").Encode
          (.obj [("author_book_id", .num ((Atoi (mapIndex r.Vars "id")).1)),
                 ("author_id", .num ab.AuthorID), ("book_id", .num ab.BookID)]),
         { ((db.sent (.selectExists .authors .id) [.int ab.AuthorID]).sent
              (.selectExists .books .id) [.int ab.BookID]).sent
              (.update .author_books [.author_id, .book_id] .author_book_id)
              [.int ab.AuthorID, .int ab.BookID, .text (mapIndex r.Vars "id")] with
           store := s1 }) := by
      rw [UpdateAuthorBook_spec L newRecorder r db ab hauth hdec, if_neg hh.1,
        if_neg ((any_id_true _ _ _).2 ha), if_neg hh.2, if_neg ((any_id_true _ _ _).2 hb),
        hexec]
    rw [h]
    exact ⟨rfl, rfl, issued_sent3_store _ _ _ _ _ _ _ _⟩

theorem update_with_rejected_id_witness :
    Authorized demoLib (demoRequest "12a" "updated book") ∧
    (Atoi (mapIndex (demoRequest "12a" "updated book").Vars "id")).2 = false ∧
    AtoiSyntaxError (mapIndex (demoRequest "12a" "updated book").Vars "id") ∧
    demoLib.decodeBook (demoRequest "12a" "updated book").Body
      = some ⟨77, "Updated Book", "2022", 9876543210⟩ ∧
    (demoDB.Exec (.update .books [.title, .published_year, .isbn] .id)
      [.text "Updated Book", .text "2022", .int 9876543210,
       .text (mapIndex (demoRequest "12a" "updated book").Vars "id")]).1 = some ⟨0⟩ ∧
    (Atoi (mapIndex (demoRequest "12a" "updated book").Vars "id")).1 =
      (if AtoiSyntaxError (mapIndex (demoRequest "12a" "updated book").Vars "id") then 0
       else if (splitSign (mapIndex (demoRequest "12a" "updated book").Vars "id").data).1 = true
        then -(2 ^ 63)
       else 2 ^ 63 - 1) ∧
    ((updateBook demoLib newRecorder (demoRequest "12a" "updated book") demoDB).1.Code = 200 ∧
      (updateBook demoLib newRecorder (demoRequest "12a" "updated book") demoDB).1.Body =
        [.obj [("id", .num ((Atoi (mapIndex (demoRequest "12a" "updated book").Vars "id")).1)),
               ("title", .str "Updated Book"), ("published_year", .str "2022"),
               ("isbn", .num 9876543210)]] ∧
      issued demoDB (updateBook demoLib newRecorder (demoRequest "12a" "updated book") demoDB).2 =
        [(.update .books [.title, .published_year, .isbn] .id,
          [.text "Updated Book", .text "2022", .int 9876543210,
           .text (mapIndex (demoRequest "12a" "updated book").Vars "id")])]) ∧
    (updateBook demoLib newRecorder (demoRequest "12a" "updated book") demoDB).1.Body =
      [.obj [("id", .num 0), ("title", .str "Updated Book"), ("published_year", .str "2022"),
             ("isbn", .num 9876543210)]] ∧
    (Atoi "99999999999999999999x" = (9223372036854775807, false) ∧
      ¬ AtoiSyntaxError "99999999999999999999x") ∧
    (Atoi "-99999999999999999999" = (-9223372036854775808, false) ∧
      ¬ AtoiSyntaxError "-99999999999999999999") :=
  ⟨by decide, by decide, by decide, by decide, by decide,
   (update_with_rejected_id demoLib demoDB (demoRequest "12a" "updated book") (by decide)
     (by decide)).1,
   (update_with_rejected_id demoLib demoDB (demoRequest "12a" "updated book") (by decide)
     (by decide)).2.1 ⟨77, "Updated Book", "2022", 9876543210⟩ ⟨0⟩ (by decide) (by decide),
   by decide, by decide, by decide⟩

end BookAPI
